import Mathlib

/-!
# HelenOS: USB transfer submission, xHCI root hub, strings, breakpoints

A shallow embedding of `uspace/lib/usbhost/src/hcd.c`,
`uspace/drv/bus/usb/xhci/rh.c`, parts of `uspace/lib/c/generic/str.c` and
`cmd_del_breakpoint` of `arch/mips32/src/debugger.c`.

Conventions of the embedding:

* C `int` error codes are `Int`; `EOK` is `0`.  The other codes of `errno.h`
  are not part of the sources at hand and are carried as a parameter
  (`errno_h`).
* Pointers to objects are handles (`Nat`); a `NULL` result is `none`.
* Functions whose bodies live outside the embedded files are parameters
  (fields of `bus_t`, `hcd_t`, `usbhost_lib`, `xhci_ext`).
* Every call that leaves the embedded file and matters for the lifecycle is
  appended to a trace, so that ordering and "never happens" properties can be
  stated about the code itself.
* Strings are lists of character codes without the terminating 0, buffers are
  functions from index to byte; `size_t` and `unsigned long` arithmetic is
  modulo a power of two whose exponent is a parameter.
-/

namespace HelenOS

/-! ## Common declarations -/

/-- The success code. -/
def EOK : Int := 0

/-- The error codes of `errno.h` that the embedded functions return.  The
header is outside the embedded sources, so the numeric values are left open. -/
structure errno_h where
  ENOENT : Int
  ENOMEM : Int
  ENOTSUP : Int
  ENOSPC : Int
  EINVAL : Int
  EAGAIN : Int
deriving DecidableEq, Repr

/-- The codes are errors (none is `EOK`) and pairwise different. -/
def errno_h.distinct (E : errno_h) : Prop :=
  [EOK, E.ENOENT, E.ENOMEM, E.ENOTSUP, E.ENOSPC, E.EINVAL, E.EAGAIN].Nodup

instance (E : errno_h) : Decidable E.distinct := by
  unfold errno_h.distinct; infer_instance

/-- One admissible assignment of error codes, used for concrete evaluations. -/
def errno_sample : errno_h :=
  { ENOENT := -1, ENOMEM := -2, ENOTSUP := -11, ENOSPC := -259,
    EINVAL := -14, EAGAIN := -11002 }

inductive usb_direction_t
  | USB_DIRECTION_IN
  | USB_DIRECTION_OUT
  | USB_DIRECTION_BOTH
deriving DecidableEq, Repr

inductive usb_transfer_type_t
  | USB_TRANSFER_CONTROL
  | USB_TRANSFER_ISOCHRONOUS
  | USB_TRANSFER_BULK
  | USB_TRANSFER_INTERRUPT
deriving DecidableEq, Repr

structure usb_target_t where
  address : Int
  endpoint : Int
deriving DecidableEq, Repr

/-- The fields of `endpoint_t` read by the embedded code. -/
structure endpoint_t where
  target : usb_target_t
  direction : usb_direction_t
  transfer_type : usb_transfer_type_t
  max_packet_size : Nat
  bandwidth : Nat
  active : Bool
deriving DecidableEq, Repr

/-- The fields of `device_t` read by `hcd.c`. -/
structure device_t where
  address : Int
  port : Nat
deriving DecidableEq, Repr

/-- A completion callback (`usb_transfer_batch_callback_t`): either the
callback of the synchronous adapter or a caller-supplied function. -/
inductive usb_transfer_batch_callback_t
  | sync_transfer_complete
  | user (fn : Nat)
deriving DecidableEq, Repr

/-- The `usb_transfer_batch_t` of `usb_transfer_batch.h`; the setup union is
kept in its `packed` view. -/
structure usb_transfer_batch_t where
  ep : endpoint_t
  expected_size : Nat
  dir : usb_direction_t
  on_complete : Option usb_transfer_batch_callback_t
  on_complete_data : Nat
  setup_packed : Nat
  toggle_reset_mode : Nat
  buffer : Nat
  buffer_size : Nat
  transfered_size : Nat
  error : Int
deriving DecidableEq, Repr

/-! ## hcd.c -/

/-- The two bus operations `hcd_send_batch` goes through (`bus_find_endpoint`,
`bus_count_bw`). -/
structure bus_t where
  find_endpoint : device_t → usb_target_t → usb_direction_t → Option endpoint_t
  count_bw : endpoint_t → Nat → Nat

/-- The controller front end: its bus and `hcd->ops.schedule` (`none` when the
hook is `NULL`).  The hook is represented by the code it returns for a batch. -/
structure hcd_t where
  bus : bus_t
  schedule : Option (usb_transfer_batch_t → Int)

/-- Library routines of libusbhost and libusb called by `hcd_send_batch`. -/
structure usbhost_lib where
  usb_transfer_batch_create : endpoint_t → Option usb_transfer_batch_t
  usb_request_get_toggle_reset_mode : Nat → Nat

/-- The diagnostics `hcd_send_batch` emits through `usb_log_error` and
`usb_log_warning`. -/
inductive hcd_msg
  | endpoint_not_registered
  | bandwidth_not_reserved (needed reserved : Nat)
  | no_scheduler
  | batch_create_failed
  | schedule_failed (ret : Int)
deriving DecidableEq, Repr

/-- What `hcd.c` does to the outside world, in program order. -/
inductive hcd_action
  | bus_find_endpoint (device : device_t) (target : usb_target_t) (direction : usb_direction_t)
  | usb_log (msg : hcd_msg)
  | usb_transfer_batch_create (ep : endpoint_t)
  | schedule (batch : usb_transfer_batch_t)
  | usb_transfer_batch_destroy (batch : usb_transfer_batch_t)
  | endpoint_del_ref (ep : endpoint_t)
  | on_complete (batch : usb_transfer_batch_t)
  | fibril_condvar_wait
deriving DecidableEq, Repr

def hcd_action.is_batch_create : hcd_action → Bool
  | .usb_transfer_batch_create _ => true
  | _ => false

def hcd_action.is_schedule : hcd_action → Bool
  | .schedule _ => true
  | _ => false

def hcd_action.is_batch_destroy : hcd_action → Bool
  | .usb_transfer_batch_destroy _ => true
  | _ => false

def hcd_action.is_on_complete : hcd_action → Bool
  | .on_complete _ => true
  | _ => false

def hcd_action.is_del_ref : hcd_action → Bool
  | .endpoint_del_ref _ => true
  | _ => false

def hcd_action.is_condvar_wait : hcd_action → Bool
  | .fibril_condvar_wait => true
  | _ => false

/-- The batch as `hcd_send_batch` fills it in (lines 118-128) before handing
it to the hook. -/
def hcd_fill_batch (L : usbhost_lib) (ep : endpoint_t) (b : usb_transfer_batch_t)
    (direction : usb_direction_t) (data size setup_data : Nat)
    (on_complete : Option usb_transfer_batch_callback_t) (arg : Nat) :
    usb_transfer_batch_t :=
  let b1 : usb_transfer_batch_t :=
    { b with buffer := data, buffer_size := size, setup_packed := setup_data,
             dir := direction, on_complete := on_complete, on_complete_data := arg }
  if ep.transfer_type = usb_transfer_type_t.USB_TRANSFER_CONTROL then
    { b1 with toggle_reset_mode := L.usb_request_get_toggle_reset_mode b1.setup_packed }
  else b1

/-- The function `hcd_send_batch`.  The result is `none` when
`assert(device->address == target.address)` fails, otherwise the returned code
and the actions performed.  The `name` argument only feeds log texts. -/
def hcd_send_batch (E : errno_h) (L : usbhost_lib) (hcd : hcd_t) (device : device_t)
    (target : usb_target_t) (direction : usb_direction_t) (data size setup_data : Nat)
    (on_complete : Option usb_transfer_batch_callback_t) (arg : Nat) :
    Option (Int × List hcd_action) :=
  if device.address ≠ target.address then none
  else
    let t0 := [hcd_action.bus_find_endpoint device target direction]
    match hcd.bus.find_endpoint device target direction with
    | none => some (E.ENOENT, t0 ++ [.usb_log .endpoint_not_registered])
    | some ep =>
      let bw := hcd.bus.count_bw ep size
      if ep.bandwidth < bw then
        some (E.ENOSPC, t0 ++ [.usb_log (.bandwidth_not_reserved bw ep.bandwidth)])
      else
        match hcd.schedule with
        | none => some (E.ENOTSUP, t0 ++ [.usb_log .no_scheduler])
        | some hook =>
          match L.usb_transfer_batch_create ep with
          | none =>
            some (E.ENOMEM, t0 ++ [.usb_transfer_batch_create ep, .usb_log .batch_create_failed])
          | some b =>
            let batch := hcd_fill_batch L ep b direction data size setup_data on_complete arg
            let ret := hook batch
            let t1 := t0 ++ [.usb_transfer_batch_create ep, .schedule batch]
            let t2 := if ret ≠ EOK then
                t1 ++ [.usb_log (.schedule_failed ret), .usb_transfer_batch_destroy batch]
              else t1
            some (ret, t2 ++ [.endpoint_del_ref ep])

/-- The `sync_data_t` of the synchronous adapter (mutex and condition variable
are represented by the wake-ups of `sync_wait`). -/
structure sync_data_t where
  done : Nat
  transfered_size : Nat
  error : Int
deriving DecidableEq, Repr

/-- The callback `sync_transfer_complete`: copy the batch result into the wait record and
mark it done.  Returns `EOK`. -/
def sync_transfer_complete (batch : usb_transfer_batch_t) (d : sync_data_t) :
    Int × sync_data_t :=
  let d1 := { d with transfered_size := batch.transfered_size }
  let d2 := { d1 with error := batch.error }
  (EOK, { d2 with done := 1 })

/-- What happened while the caller was suspended in one
`fibril_condvar_wait`: nothing that concerns this batch, or the controller
finished the batch with the given result and ran its completion callback. -/
inductive wakeup
  | spurious
  | completed (transfered_size : Nat) (error : Int)
deriving DecidableEq, Repr

def wakeup.apply (batch : usb_transfer_batch_t) (sd : sync_data_t) : wakeup → sync_data_t
  | .spurious => sd
  | .completed t e =>
    (sync_transfer_complete { batch with transfered_size := t, error := e } sd).2

/-- The loop `while (!sd.done) fibril_condvar_wait(...)`: the final wait record
and the number of waits, or `none` when the caller stays blocked. -/
def sync_wait (batch : usb_transfer_batch_t) : List wakeup → sync_data_t →
    Option (sync_data_t × Nat)
  | [], sd => if sd.done ≠ 0 then some (sd, 0) else none
  | w :: ws, sd =>
    if sd.done ≠ 0 then some (sd, 0)
    else
      match sync_wait batch ws (w.apply batch sd) with
      | none => none
      | some (sd1, n) => some (sd1, n + 1)

/-- The conversion `(ssize_t) x` of a `size_t` value, for a word of `w` bits. -/
def size_to_ssize (w : Nat) (x : Nat) : Int :=
  if x % 2 ^ w < 2 ^ (w - 1) then ((x % 2 ^ w : Nat) : Int)
  else ((x % 2 ^ w : Nat) : Int) - ((2 ^ w : Nat) : Int)

inductive sync_outcome
  | returned (value : Int) (trace : List hcd_action)
  | assertion_failed
  | blocked (trace : List hcd_action)
deriving DecidableEq, Repr

/-- The batch the hook received, read back from the trace of a submission. -/
def scheduled_batch : List hcd_action → Option usb_transfer_batch_t
  | [] => none
  | .schedule b :: _ => some b
  | _ :: tr => scheduled_batch tr

/-- The function `hcd_send_batch_sync` on a machine whose `size_t` has `w` bits.  `early` is
a completion that ran before the caller took `done_mtx` (for instance from
inside the hook); `wakeups` is what happens during the successive waits. -/
def hcd_send_batch_sync (w : Nat) (E : errno_h) (L : usbhost_lib) (hcd : hcd_t)
    (device : device_t) (target : usb_target_t) (direction : usb_direction_t)
    (data size setup_data : Nat) (early : Option (Nat × Int)) (wakeups : List wakeup) :
    sync_outcome :=
  let sd : sync_data_t := { done := 0, transfered_size := 0, error := 0 }
  match hcd_send_batch E L hcd device target direction data size setup_data
      (some .sync_transfer_complete) 0 with
  | none => .assertion_failed
  | some (ret, tr) =>
    if ret ≠ EOK then .returned ret tr
    else
      match scheduled_batch tr with
      | none => .blocked tr
      | some batch =>
        let sd0 := match early with
          | none => sd
          | some (t, e) => (wakeup.completed t e).apply batch sd
        match sync_wait batch wakeups sd0 with
        | none => .blocked tr
        | some (sd1, n) =>
          .returned
            (if sd1.error = EOK then size_to_ssize w sd1.transfered_size else sd1.error)
            (tr ++ List.replicate n .fibril_condvar_wait)

/-! ## rh.c: data -/

structure xhci_port_speed_t where
  major : Nat
  minor : Nat
deriving DecidableEq, Repr

/-- Bit positions of the PORTSC fields used by `rh.c` (the `XHCI_PORT_*`
descriptors of `hw_struct/regs.h`).  The header is outside the embedded
sources, so the positions are left open. -/
structure xhci_port_layout where
  CCS : Nat
  PR : Nat
  PLS_hi : Nat
  PLS_lo : Nat
  PS_hi : Nat
  PS_lo : Nat
  CSC : Nat
  PEC : Nat
  WRC : Nat
  OCC : Nat
  PRC : Nat
  PLC : Nat
  CEC : Nat
deriving DecidableEq, Repr

/-- The PORTSC layout of the xHCI register interface, used for concrete
evaluations. -/
def xhci_layout_sample : xhci_port_layout :=
  { CCS := 0, PR := 4, PLS_hi := 8, PLS_lo := 5, PS_hi := 13, PS_lo := 10,
    CSC := 17, PEC := 18, WRC := 19, OCC := 20, PRC := 21, PLC := 22, CEC := 23 }

/-- The macro `XHCI_REG_MASK` of a flag at bit `b`. -/
def XHCI_REG_MASK (b : Nat) : Nat := 1 <<< b

/-- The macro `XHCI_REG_RD` of a flag at bit `b` of the 32-bit value `v`. -/
def XHCI_REG_RD_FLAG (v b : Nat) : Nat := (v >>> b) % 2

/-- The macro `XHCI_REG_RD` of the bit range `hi..lo` of the value `v`. -/
def XHCI_REG_RD_RANGE (v hi lo : Nat) : Nat := (v >>> lo) % 2 ^ (hi + 1 - lo)

/-- The C expression `x & ~m` on 32-bit operands. -/
def clear_mask32 (x m : Nat) : Nat := x &&& (m ^^^ 0xFFFFFFFF)

/-- The `port_change_mask` of rh.c, lines 54-61. -/
def port_change_mask (P : xhci_port_layout) : Nat :=
  XHCI_REG_MASK P.CSC ||| XHCI_REG_MASK P.PEC ||| XHCI_REG_MASK P.WRC |||
  XHCI_REG_MASK P.OCC ||| XHCI_REG_MASK P.PRC ||| XHCI_REG_MASK P.PLC |||
  XHCI_REG_MASK P.CEC

inductive xhci_ep_type_t
  | EP_TYPE_INVALID
  | EP_TYPE_CONTROL
deriving DecidableEq, Repr

/-- The fields of an endpoint context written by `setup_control_ep0_ctx`. -/
structure xhci_ep_ctx_t where
  ep_type : xhci_ep_type_t
  max_packet_size : Nat
  max_burst_size : Nat
  tr_dptr : Nat
  dcs : Nat
  interval : Nat
  max_p_streams : Nat
  mult : Nat
  error_count : Nat
deriving DecidableEq, Repr

/-- The context after `memset(&ep_ctx, 0, sizeof(xhci_ep_ctx_t))`. -/
def xhci_ep_ctx_zero : xhci_ep_ctx_t :=
  { ep_type := .EP_TYPE_INVALID, max_packet_size := 0, max_burst_size := 0, tr_dptr := 0,
    dcs := 0, interval := 0, max_p_streams := 0, mult := 0, error_count := 0 }

/-- The function `setup_control_ep0_ctx`, rh.c lines 76-90; `dequeue` is `ring->dequeue`. -/
def setup_control_ep0_ctx (ctx : xhci_ep_ctx_t) (dequeue : Nat) (speed : xhci_port_speed_t) :
    xhci_ep_ctx_t :=
  { ctx with
    ep_type := .EP_TYPE_CONTROL
    max_packet_size := if speed.major = 3 then 512 else 8
    max_burst_size := 0
    tr_dptr := dequeue
    dcs := 1
    interval := 0
    max_p_streams := 0
    mult := 0
    error_count := 3 }

structure usb_endpoint_desc_t where
  endpoint_no : Nat
  direction : usb_direction_t
  transfer_type : usb_transfer_type_t
  max_packet_size : Nat
  packets : Nat
deriving DecidableEq, Repr

/-- Modelled from the spec: `CTRL_PIPE_MIN_PACKET_SIZE` of `usb/usb.h` is not
among the sources; the spec gives the minimum control packet size as 8 bytes. -/
def CTRL_PIPE_MIN_PACKET_SIZE : Nat := 8

/-- Modelled from the spec: `XHCI_EP_COUNT`, the size of a device's endpoint
array, is not among the sources; the spec gives the protocol bound 31. -/
def XHCI_EP_COUNT : Nat := 31

/-- The static `ep0_desc`, rh.c lines 94-100. -/
def ep0_desc : usb_endpoint_desc_t :=
  { endpoint_no := 0, direction := .USB_DIRECTION_BOTH,
    transfer_type := .USB_TRANSFER_CONTROL,
    max_packet_size := CTRL_PIPE_MIN_PACKET_SIZE, packets := 1 }

/-- The fields of `xhci_device_t` used by `rh.c`; `base` is the embedded
`device_t`, `endpoints` the array `dev->endpoints[]`. -/
structure xhci_device_t where
  base : device_t
  slot_id : Nat
  usb3 : Bool
  online : Bool
  endpoints : List (Option endpoint_t)
  dev_ctx : Option Nat
deriving DecidableEq, Repr

/-- Modelled from the spec: the object handed out by `hcd_ddf_device_create`
(ddf_helpers.c, not among the sources): a fresh device, not online, without
endpoints. -/
def xhci_device_fresh : xhci_device_t :=
  { base := { address := 0, port := 0 }, slot_id := 0, usb3 := false, online := false,
    endpoints := List.replicate XHCI_EP_COUNT none, dev_ctx := none }

instance : Inhabited xhci_device_t := ⟨xhci_device_fresh⟩

/-- The diagnostics of `rh.c`. -/
inductive rh_msg
  | device_create_failed
  | enumerate_failed (err : Int)
  | bind_failed (err : Int)
  | detected_new_device (port : Nat)
  | usb3_enable_failed
  | usb3_invalid_state (link_state : Nat)
  | usb2_reset
  | disconnected (port : Nat)
  | abort_failed (ep : Nat) (err : Int)
  | unbind_failed (err : Int)
  | unregister_failed (err : Int)
  | deconfigure_failed (err : Int)
  | remove_failed (err : Int)
  | disable_slot_failed (err : Int)
  | connected_state_changed (port : Nat)
  | port_enabled_changed (port : Nat)
  | warm_reset_completed (port : Nat)
  | over_current_change (port : Nat)
  | port_reset_completed (port : Nat)
  | link_state_changed (port : Nat)
  | configure_link_failed (port : Nat)
  | change_ignored (events port : Nat)
  | port_status_change_event (port : Nat)
deriving DecidableEq, Repr

/-- What `rh.c` does, in program order: register writes, calls that leave the
file, and the stores to the shared root-hub and device state. -/
inductive rh_action
  | usb_log (msg : rh_msg)
  | portsc_write (port value : Nat)
  | reg_set_PR (port : Nat)
  | hcd_ddf_device_create (port : Nat)
  | xhci_bus_enumerate_device (dev : Nat)
  | hc_enable_slot (dev : Nat)
  | bus_create_endpoint
  | xhci_endpoint_alloc_transfer_ds
  | malloc32
  | hc_address_rh_device (slot port : Nat) (ep_ctx : xhci_ep_ctx_t)
  | free32
  | xhci_endpoint_free_transfer_ds
  | xhci_endpoint_fini
  | free_endpoint
  | online_store (dev : Nat) (value : Bool)
  | bus_register_endpoint (dev : Nat) (desc : usb_endpoint_desc_t)
  | devices_store (port : Nat) (dev : Option Nat)
  | device_set_default_name (dev : Nat)
  | ddf_fun_bind (dev : Nat)
  | list_append (dev : Nat)
  | list_remove (dev : Nat)
  | hcd_ddf_device_destroy (dev : Nat)
  | xhci_transfer_abort (dev ep : Nat)
  | ddf_fun_unbind (dev : Nat)
  | bus_unregister_endpoint (dev ep : Nat)
  | hc_deconfigure_device (slot : Nat)
  | xhci_bus_remove_device (dev : Nat)
  | hc_disable_slot (slot : Nat)
deriving DecidableEq, Repr

/-- The root hub together with the parts of its controller that `rh.c`
touches.  `devices` is `rh->devices[]` (entry `port - 1`), `attached` the list
`rh->device.devices`, `portsc` the registers `hc->op_regs->portrs[]`, `dcbaa`
the device-context base array, `devs` the device objects by handle and
`destroyed` the handles given to `hcd_ddf_device_destroy`.  `rh` and
`rh->hc_device` are set by `xhci_rh_init`, so the two assertions of
`rh_setup_device` hold. -/
structure xhci_rh_t where
  max_ports : Nat
  devices : List (Option Nat)
  attached : List Nat
  portsc : List Nat
  dcbaa : List Nat
  devs : List xhci_device_t
  destroyed : List Nat
  trace : List rh_action
deriving DecidableEq, Repr

/-- Everything `rh.c` relies on from outside the file.  A result may depend on
the whole current state, trace included, so successive calls may answer
differently.  `speeds` is the table `rh->speeds[]`, constant after
initialisation; `portsc_store old v` is the content of a port register after
the value `v` has been written to it. -/
structure xhci_ext where
  layout : xhci_port_layout
  speeds : Nat → xhci_port_speed_t
  portsc_store : Nat → Nat → Nat
  hcd_ddf_device_create : xhci_rh_t → Bool
  hc_enable_slot : xhci_rh_t → Int × Nat
  bus_create_endpoint : xhci_rh_t → Bool
  xhci_endpoint_alloc_transfer_ds : xhci_rh_t → Int
  ring_dequeue : xhci_rh_t → Nat
  malloc32 : xhci_rh_t → Option Nat
  addr_to_phys : Nat → Nat
  hc_address_rh_device : xhci_rh_t → Int × Int
  bus_register_endpoint : xhci_rh_t → Int
  ddf_fun_get_name : xhci_rh_t → Bool
  ddf_fun_bind : xhci_rh_t → Int
  xhci_transfer_abort : xhci_rh_t → Int
  ddf_fun_unbind : xhci_rh_t → Int
  bus_unregister_endpoint : xhci_rh_t → Int
  hc_deconfigure_device : xhci_rh_t → Int
  xhci_bus_remove_device : xhci_rh_t → Int
  hc_disable_slot : xhci_rh_t → Int

def xhci_rh_t.emit (s : xhci_rh_t) (a : rh_action) : xhci_rh_t :=
  { s with trace := s.trace ++ [a] }

def xhci_rh_t.dev (s : xhci_rh_t) (d : Nat) : xhci_device_t :=
  s.devs.getD d xhci_device_fresh

def xhci_rh_t.set_dev (s : xhci_rh_t) (d : Nat) (v : xhci_device_t) : xhci_rh_t :=
  { s with devs := s.devs.set d v }

/-- An update of the fields of device `d`. -/
def xhci_rh_t.upd_dev (s : xhci_rh_t) (d : Nat) (f : xhci_device_t → xhci_device_t) :
    xhci_rh_t :=
  s.set_dev d (f (s.dev d))

/-- The store `hc->dcbaa[slot] = v`. -/
def xhci_rh_t.dcbaa_store (s : xhci_rh_t) (slot v : Nat) : xhci_rh_t :=
  { s with dcbaa := s.dcbaa.set slot v }

/-- The store `rh->devices[port - 1] = v`. -/
def xhci_rh_t.devices_store (s : xhci_rh_t) (port : Nat) (v : Option Nat) : xhci_rh_t :=
  { s with devices := s.devices.set (port - 1) v }

/-- The call `list_append(&dev->link, &rh->device.devices)`. -/
def xhci_rh_t.attach (s : xhci_rh_t) (d : Nat) : xhci_rh_t :=
  { s with attached := s.attached ++ [d] }

/-- The call `list_remove(&dev->base.link)`. -/
def xhci_rh_t.detach (s : xhci_rh_t) (d : Nat) : xhci_rh_t :=
  { s with attached := s.attached.erase d }

/-- A new device object `v`; its handle is the next free one. -/
def xhci_rh_t.alloc_dev (s : xhci_rh_t) (v : xhci_device_t) : xhci_rh_t :=
  { s with devs := s.devs ++ [v] }

/-- The device object `d` is gone. -/
def xhci_rh_t.destroy (s : xhci_rh_t) (d : Nat) : xhci_rh_t :=
  { s with destroyed := s.destroyed ++ [d] }

/-- The value of `rh->devices[port - 1]`. -/
def xhci_rh_t.device_at (s : xhci_rh_t) (port : Nat) : Option Nat :=
  s.devices.getD (port - 1) none

/-- The value of `regs->portsc` for `regs = &rh->hc->op_regs->portrs[port - 1]`. -/
def xhci_rh_t.portsc_rd (s : xhci_rh_t) (port : Nat) : Nat :=
  s.portsc.getD (port - 1) 0 % 2 ^ 32

/-- A write of `v` to the PORTSC register of `port`. -/
def xhci_rh_t.portsc_wr (X : xhci_ext) (s : xhci_rh_t) (port v : Nat) : xhci_rh_t :=
  { s with portsc := s.portsc.set (port - 1) (X.portsc_store (s.portsc.getD (port - 1) 0) v) }

/-! ## rh.c: functions -/

/-- The function `xhci_rh_get_port_speed`, rh.c lines 469-475. -/
def xhci_rh_get_port_speed (X : xhci_ext) (s : xhci_rh_t) (port : Nat) : xhci_port_speed_t :=
  let psiv := XHCI_REG_RD_RANGE (s.portsc_rd port) X.layout.PS_hi X.layout.PS_lo
  X.speeds psiv

/-- The function `xhci_rh_reset_port`, rh.c lines 477-484: set the PR flag of the port. -/
def xhci_rh_reset_port (X : xhci_ext) (s : xhci_rh_t) (port : Nat) : Int × xhci_rh_t :=
  let s1 := s.emit (.reg_set_PR port)
  (EOK, s1.portsc_wr X port (s1.portsc_rd port ||| XHCI_REG_MASK X.layout.PR))

/-- Modelled from the spec: `bus_register_endpoint` (bus.c, not among the
sources) registers an endpoint for (device, number, direction) with the
transfer type and max packet size of the descriptor and no reserved bandwidth
yet; it may fail, and then registers nothing. -/
def bus_register_endpoint (X : xhci_ext) (s : xhci_rh_t) (dev : Nat)
    (desc : usb_endpoint_desc_t) : Int × xhci_rh_t :=
  let s1 := s.emit (.bus_register_endpoint dev desc)
  let err := X.bus_register_endpoint s1
  if err ≠ EOK then (err, s1)
  else
    (EOK, s1.upd_dev dev fun d =>
      { d with endpoints := d.endpoints.set desc.endpoint_no (some
        { target := { address := d.base.address, endpoint := desc.endpoint_no },
          direction := desc.direction, transfer_type := desc.transfer_type,
          max_packet_size := desc.max_packet_size, bandwidth := 0, active := false }) })

/-- Modelled from the spec: `bus_unregister_endpoint` (bus.c, not among the
sources) removes the endpoint from the registry; it may fail, and then removes
nothing. -/
def bus_unregister_endpoint (X : xhci_ext) (s : xhci_rh_t) (dev ep : Nat) : Int × xhci_rh_t :=
  let s1 := s.emit (.bus_unregister_endpoint dev ep)
  let err := X.bus_unregister_endpoint s1
  if err ≠ EOK then (err, s1)
  else
    (EOK, s1.upd_dev dev fun d => { d with endpoints := d.endpoints.set ep none })

/-- The label `err_ep` of `xhci_rh_address_device`. -/
def address_err_ep (s : xhci_rh_t) : xhci_rh_t :=
  (s.emit .xhci_endpoint_fini).emit .free_endpoint

/-- The label `err_ds` of `xhci_rh_address_device`. -/
def address_err_ds (s : xhci_rh_t) : xhci_rh_t :=
  address_err_ep (s.emit .xhci_endpoint_free_transfer_ds)

/-- The label `err_dctx` of `xhci_rh_address_device`. -/
def address_err_dctx (s : xhci_rh_t) (slot : Nat) : xhci_rh_t :=
  address_err_ds ((s.emit .free32).dcbaa_store slot 0)

/-- Lines 147-159 of `xhci_rh_address_device`: the addressed device goes
online, its control endpoint is registered (the result of the registration is
not looked at) and the device is recorded for its port if the port has no
device yet. -/
def address_publish (X : xhci_ext) (s : xhci_rh_t) (dev port : Nat) : xhci_rh_t :=
  /- From now on, the device is officially online. -/
  let s1 := (s.upd_dev dev fun d => { d with online := true }).emit (.online_store dev true)
  let s2 := (bus_register_endpoint X s1 dev ep0_desc).2
  if s2.device_at port = none then
    /- Only save the device if it is the first one connected to this port. -/
    (s2.devices_store port (some dev)).emit (.devices_store port (some dev))
  else s2

/-- The function `xhci_rh_address_device`, rh.c lines 104-172. -/
def xhci_rh_address_device (E : errno_h) (X : xhci_ext) (s : xhci_rh_t) (dev : Nat) :
    Int × xhci_rh_t :=
  let port := (s.dev dev).base.port
  let speed := xhci_rh_get_port_speed X s port
  let s1 := s.upd_dev dev fun d => { d with usb3 := decide (speed.major = 3) }
  /- Enable new slot. -/
  let s2 := s1.emit (.hc_enable_slot dev)
  let r := X.hc_enable_slot s2
  if r.1 ≠ EOK then (r.1, s2)
  else
    let slot := r.2
    let s3 := s2.upd_dev dev fun d => { d with slot_id := slot }
    /- Create and configure control endpoint. -/
    let s4 := s3.emit .bus_create_endpoint
    if X.bus_create_endpoint s4 = false then (E.ENOMEM, s4)
    else
      let s5 := s4.emit .xhci_endpoint_alloc_transfer_ds
      let e5 := X.xhci_endpoint_alloc_transfer_ds s5
      if e5 ≠ 0 then (e5, address_err_ep s5)
      else
        let ep_ctx := setup_control_ep0_ctx xhci_ep_ctx_zero (X.ring_dequeue s5) speed
        /- Setup and register device context. -/
        let s6 := s5.emit .malloc32
        match X.malloc32 s6 with
        | none => (E.ENOMEM, address_err_ds s6)
        | some ctx =>
          let s7 := s6.upd_dev dev fun d => { d with dev_ctx := some ctx }
          let s8 := s7.dcbaa_store slot (X.addr_to_phys ctx)
          /- Address device. -/
          let s9 := s8.emit (.hc_address_rh_device slot port ep_ctx)
          let r9 := X.hc_address_rh_device s9
          if r9.1 ≠ 0 then (r9.1, address_err_dctx s9 slot)
          else
            let s10 := s9.upd_dev dev fun d => { d with base := { d.base with address := r9.2 } }
            (EOK, address_publish X s10 dev port)

/-- Modelled from the spec: `xhci_bus_enumerate_device` (bus.c, not among the
sources).  Enumeration of a device on a root-hub port allocates the slot,
addresses the device and records it, which is `xhci_rh_address_device`; its
result is handed back. -/
def xhci_bus_enumerate_device (E : errno_h) (X : xhci_ext) (s : xhci_rh_t) (dev : Nat) :
    Int × xhci_rh_t :=
  xhci_rh_address_device E X (s.emit (.xhci_bus_enumerate_device dev)) dev

/-- Modelled from the spec: `hcd_ddf_device_destroy` (ddf_helpers.c, not among
the sources) destroys the device object. -/
def hcd_ddf_device_destroy (s : xhci_rh_t) (dev : Nat) : xhci_rh_t :=
  (s.emit (.hcd_ddf_device_destroy dev)).destroy dev

/-- The function `rh_setup_device`, rh.c lines 176-216.  A created device gets the next
free handle. -/
def rh_setup_device (E : errno_h) (X : xhci_ext) (s : xhci_rh_t) (port_id : Nat) :
    Int × xhci_rh_t :=
  let s1 := s.emit (.hcd_ddf_device_create port_id)
  if X.hcd_ddf_device_create s1 = false then
    (E.ENOMEM, s1.emit (.usb_log .device_create_failed))
  else
    let dev := s1.devs.length
    let s2 := s1.alloc_dev
      { xhci_device_fresh with base := { xhci_device_fresh.base with port := port_id } }
    let r := xhci_bus_enumerate_device E X s2 dev
    if r.1 ≠ 0 then (r.1, r.2.emit (.usb_log (.enumerate_failed r.1)))
    else
      let s3 := r.2
      let s4 := if X.ddf_fun_get_name s3 = false then s3.emit (.device_set_default_name dev)
        else s3
      let s5 := s4.emit (.ddf_fun_bind dev)
      let e5 := X.ddf_fun_bind s5
      if e5 ≠ 0 then
        (e5, hcd_ddf_device_destroy (s5.emit (.usb_log (.bind_failed e5))) dev)
      else
        (EOK, (s5.attach dev).emit (.list_append dev))

/-- The value of `uint8_t link_state = XHCI_REG_RD(regs, XHCI_PORT_PLS)` in
`handle_connected_device`. -/
def port_link_state (X : xhci_ext) (s : xhci_rh_t) (port_id : Nat) : Nat :=
  XHCI_REG_RD_RANGE (s.portsc_rd port_id) X.layout.PLS_hi X.layout.PLS_lo % 256

/-- The function `handle_connected_device`, rh.c lines 218-252. -/
def handle_connected_device (E : errno_h) (X : xhci_ext) (s : xhci_rh_t) (port_id : Nat) :
    Int × xhci_rh_t :=
  let link_state := port_link_state X s port_id
  let speed := xhci_rh_get_port_speed X s port_id
  let s1 := s.emit (.usb_log (.detected_new_device port_id))
  if speed.major = 3 then
    if link_state = 0 then
      /- USB3 is automatically advanced to enabled. -/
      rh_setup_device E X s1 port_id
    else if link_state = 5 then
      /- USB 3 failed to enable. -/
      (E.EAGAIN, s1.emit (.usb_log .usb3_enable_failed))
    else
      (E.EINVAL, s1.emit (.usb_log (.usb3_invalid_state link_state)))
  else
    let r := xhci_rh_reset_port X (s1.emit (.usb_log .usb2_reset)) port_id
    (EOK, r.2)

/-- The loop of rh.c lines 283-295 over `dev->endpoints[i]`, from index `i`. -/
def abort_active_transfers (X : xhci_ext) (dev : Nat) :
    List (Option endpoint_t) → Nat → xhci_rh_t → xhci_rh_t
  | [], _, s => s
  | none :: eps, i, s => abort_active_transfers X dev eps (i + 1) s
  | some ep :: eps, i, s =>
    if ep.active = false then abort_active_transfers X dev eps (i + 1) s
    else
      let s1 := s.emit (.xhci_transfer_abort dev i)
      let err := X.xhci_transfer_abort s1
      let s2 := if err ≠ 0 then s1.emit (.usb_log (.abort_failed i err)) else s1
      abort_active_transfers X dev eps (i + 1) s2

/-- One teardown step of `handle_disconnected_device`: the call `a`, whose
result `err` is only logged. -/
def teardown_step (s : xhci_rh_t) (a : rh_action) (f : xhci_rh_t → Int) (msg : Int → rh_msg) :
    xhci_rh_t :=
  let s1 := s.emit a
  let err := f s1
  if err ≠ 0 then s1.emit (.usb_log (msg err)) else s1

/-- Lines 268-280 of `handle_disconnected_device`: the device goes offline
and is removed from the hub's device list and from the port map. -/
def disconnect_unpublish (s : xhci_rh_t) (port_id dev : Nat) : xhci_rh_t :=
  let s1 := s.emit (.usb_log (.disconnected port_id))
  /- Block creation of new endpoints and transfers. -/
  let s2 := (s1.upd_dev dev fun d => { d with online := false }).emit (.online_store dev false)
  let s3 := (s2.detach dev).emit (.list_remove dev)
  (s3.devices_store port_id none).emit (.devices_store port_id none)

/-- Lines 282-334 of `handle_disconnected_device`: the transfers of the device
are aborted and the device is taken apart and destroyed; failures are only
logged. -/
def disconnect_teardown (X : xhci_ext) (s : xhci_rh_t) (dev : Nat) : xhci_rh_t :=
  /- Abort running transfers. -/
  let s5 := abort_active_transfers X dev (s.dev dev).endpoints 0 s
  /- Make DDF (and all drivers) forget about the device. -/
  let s6 := teardown_step s5 (.ddf_fun_unbind dev) X.ddf_fun_unbind .unbind_failed
  /- Unregister EP0. -/
  let r7 := bus_unregister_endpoint X s6 dev 0
  let s7 := if r7.1 ≠ 0 then r7.2.emit (.usb_log (.unregister_failed r7.1)) else r7.2
  /- Deconfigure device. -/
  let s8 := teardown_step s7 (.hc_deconfigure_device (s7.dev dev).slot_id)
    X.hc_deconfigure_device .deconfigure_failed
  /- Remove device from XHCI bus. -/
  let s9 := teardown_step s8 (.xhci_bus_remove_device dev) X.xhci_bus_remove_device
    .remove_failed
  /- Disable device slot. -/
  let s10 := teardown_step s9 (.hc_disable_slot (s9.dev dev).slot_id) X.hc_disable_slot
    .disable_slot_failed
  /- Destroy DDF device. -/
  hcd_ddf_device_destroy s10 dev

/-- The function `handle_disconnected_device`, rh.c lines 256-341. -/
def handle_disconnected_device (X : xhci_ext) (s : xhci_rh_t) (port_id : Nat) :
    Int × xhci_rh_t :=
  /- Find XHCI device by the port. -/
  match s.device_at port_id with
  | none => (EOK, s)
  | some dev => (EOK, disconnect_teardown X (disconnect_unpublish s port_id dev) dev)

/-- One handled change bit of `xhci_rh_handle_port_change` without an action
of its own: when bit `b` is set in `events`, log and clear it. -/
def port_change_flag (events b : Nat) (msg : rh_msg) (s : xhci_rh_t) : Nat × xhci_rh_t :=
  if events &&& XHCI_REG_MASK b ≠ 0 then
    (clear_mask32 events (XHCI_REG_MASK b), s.emit (.usb_log msg))
  else (events, s)

/-- Lines 365-366 of `xhci_rh_handle_port_change`: the status of port `i` is
read and the value read is written back to the register. -/
def port_change_ack (X : xhci_ext) (s : xhci_rh_t) (i : Nat) : xhci_rh_t :=
  (s.emit (.portsc_write i (s.portsc_rd i))).portsc_wr X i (s.portsc_rd i)

/-- Lines 370-380 of `xhci_rh_handle_port_change`: the connect-status-change
bit of the pending `events` of port `i`.  Returns the remaining events. -/
def port_change_csc (E : errno_h) (X : xhci_ext) (events : Nat) (s : xhci_rh_t) (i : Nat) :
    Nat × xhci_rh_t :=
  if events &&& XHCI_REG_MASK X.layout.CSC ≠ 0 then
    let s1 := s.emit (.usb_log (.connected_state_changed i))
    let ev := clear_mask32 events (XHCI_REG_MASK X.layout.CSC)
    let connected := XHCI_REG_RD_FLAG (s1.portsc_rd i) X.layout.CCS
    if connected ≠ 0 then (ev, (handle_connected_device E X s1 i).2)
    else (ev, (handle_disconnected_device X s1 i).2)
  else (events, s)

/-- Lines 397-408 of `xhci_rh_handle_port_change`: the port-reset-change bit
of the pending `events` of port `i`.  Returns the remaining events. -/
def port_change_prc (E : errno_h) (X : xhci_ext) (events : Nat) (s : xhci_rh_t) (i : Nat) :
    Nat × xhci_rh_t :=
  if events &&& XHCI_REG_MASK X.layout.PRC ≠ 0 then
    let s1 := s.emit (.usb_log (.port_reset_completed i))
    let ev := clear_mask32 events (XHCI_REG_MASK X.layout.PRC)
    let speed := xhci_rh_get_port_speed X s1 i
    if speed.major ≠ 3 then (ev, (rh_setup_device E X s1 i).2)
    else (ev, s1)
  else (events, s)

/-- The body of the loop of `xhci_rh_handle_port_change` for port `i`, rh.c
lines 363-422. -/
def port_change_body (E : errno_h) (X : xhci_ext) (s : xhci_rh_t) (i : Nat) : xhci_rh_t :=
  let P := X.layout
  let ev0 := s.portsc_rd i
  let s1 := port_change_ack X s i
  let r2 := port_change_csc E X (ev0 &&& port_change_mask P) s1 i
  let r3 := port_change_flag r2.1 P.PEC (.port_enabled_changed i) r2.2
  let r4 := port_change_flag r3.1 P.WRC (.warm_reset_completed i) r3.2
  let r5 := port_change_flag r4.1 P.OCC (.over_current_change i) r4.2
  let r6 := port_change_prc E X r5.1 r5.2 i
  let r7 := port_change_flag r6.1 P.PLC (.link_state_changed i) r6.2
  let r8 := port_change_flag r7.1 P.CEC (.configure_link_failed i) r7.2
  if r8.1 ≠ 0 then r8.2.emit (.usb_log (.change_ignored r8.1 i)) else r8.2

/-- How a run of the port loop ends: it left the loop, it ran out of the steps
it was given, or it reached a port index without a register. -/
inductive rh_run
  | finished (s : xhci_rh_t)
  | out_of_fuel (s : xhci_rh_t)
  | bad_port (i : Nat) (s : xhci_rh_t)
deriving DecidableEq, Repr

/-- The loop `for (uint8_t i = 1; i <= rh->max_ports; ++i)` from index `i`,
run for at most `fuel` iterations; `++i` wraps at 256. -/
def port_change_loop (E : errno_h) (X : xhci_ext) : Nat → Nat → xhci_rh_t → rh_run
  | 0, _, s => .out_of_fuel s
  | fuel + 1, i, s =>
    if i ≤ s.max_ports then
      if 1 ≤ i ∧ i ≤ s.portsc.length then
        port_change_loop E X fuel ((i + 1) % 256) (port_change_body E X s i)
      else .bad_port i s
    else .finished s

/-- The function `xhci_rh_handle_port_change`, rh.c lines 360-442. -/
def xhci_rh_handle_port_change (E : errno_h) (X : xhci_ext) (fuel : Nat) (s : xhci_rh_t) :
    rh_run :=
  port_change_loop E X fuel 1 s

/-- The function `xhci_rh_handle_port_status_change_event`, rh.c lines 345-358; `parameter`
is `trb->parameter`.  The code returned is `EOK`, once the port loop has ended
(`none` otherwise). -/
def xhci_rh_handle_port_status_change_event (E : errno_h) (X : xhci_ext) (fuel : Nat)
    (s : xhci_rh_t) (parameter : Nat) : Option Int × rh_run :=
  let port_id := (parameter >>> 24) % 256
  let r := xhci_rh_handle_port_change E X fuel (s.emit (.usb_log (.port_status_change_event port_id)))
  match r with
  | .finished _ => (some EOK, r)
  | _ => (none, r)


/-- What `get_hub_available_bandwidth` does, in program order. -/
inductive bw_action
  | malloc
  | xhci_cmd_init
  | xhci_get_port_bandwidth_command (speed : Nat)
  | xhci_cmd_wait
  | free
deriving DecidableEq, Repr

/-- What a call of `get_hub_available_bandwidth` leaves: the code returned,
the value of the local pointer `ctx` at the return and the calls made. -/
structure bw_result where
  ret : Int
  ctx : Option Nat
  trace : List bw_action
deriving DecidableEq, Repr

/-- The function `get_hub_available_bandwidth`, rh.c lines 444-467; `malloc` is the result
of `malloc(sizeof(xhci_port_bandwidth_ctx_t))` and `wait` the result of
`xhci_cmd_wait(&cmd, XHCI_DEFAULT_TIMEOUT)`. -/
def get_hub_available_bandwidth (E : errno_h) (malloc : Option Nat) (wait : Int) (speed : Nat) :
    bw_result :=
  match malloc with
  | none => { ret := E.ENOMEM, ctx := none, trace := [.malloc] }
  | some ctx =>
    let err := wait
    if err ≠ EOK then
      { ret := EOK, ctx := none,
        trace := [.malloc, .xhci_cmd_init, .xhci_get_port_bandwidth_command speed,
          .xhci_cmd_wait, .free] }
    else
      { ret := EOK, ctx := some ctx,
        trace := [.malloc, .xhci_cmd_init, .xhci_get_port_bandwidth_command speed,
          .xhci_cmd_wait] }

/-! ## str.c -/

/-- The codes of `errno.h` that the embedded functions of `str.c` return
besides `EOK`. -/
structure str_errno_h where
  EINVAL : Int
  EOVERFLOW : Int
deriving DecidableEq, Repr

def str_errno_sample : str_errno_h := { EINVAL := -14, EOVERFLOW := -16 }

/-- The character `str[i]` of a string: strings are the lists of their
character codes, and the terminating 0 is read at the index after the last
character. -/
def str_at (str : List Nat) (i : Nat) : Nat :=
  str.getD i 0

/-- The loop `while (isspace(*str)) str++` of `str_uint`, from index `i` with
`cs` the characters from `i` on; `isspace` (ctype.h, not among the sources) is
a parameter and is taken to be false on the terminating 0. -/
def str_skip_space (isspace : Nat → Bool) : List Nat → Nat → Nat
  | [], i => i
  | c :: cs, i => if isspace c then str_skip_space isspace cs (i + 1) else i

/-- The value of the digit `c` in the digit loop of `str_uint`, lines
1253-1260: letters of either case count from 10, and `none` is the `break`. -/
def str_uint_digit (c : Nat) : Option Nat :=
  if 97 ≤ c ∧ c ≤ 122 then some (c - 97 + 10)
  else if 65 ≤ c ∧ c ≤ 90 then some (c - 65 + 10)
  else if 48 ≤ c ∧ c ≤ 57 then some (c - 48)
  else none

/-- How the digit loop of `str_uint` ends: the index reached, the value of
`*result`, and whether the loop was left by the overflow return. -/
structure str_uint_loop where
  overflow : Bool
  str : Nat
  result : Nat
deriving DecidableEq, Repr

/-- The digit loop of `str_uint`, lines 1250-1275, from index `i` with `cs`
the characters from `i` on; `*result` is a `uint64_t`. -/
def str_uint_digits (base : Nat) : List Nat → Nat → Nat → str_uint_loop
  | [], i, result => { overflow := false, str := i, result := result }
  | c :: cs, i, result =>
    if c = 0 then { overflow := false, str := i, result := result }
    else
      match str_uint_digit c with
      | none => { overflow := false, str := i, result := result }
      | some digit =>
        if digit ≥ base then { overflow := false, str := i, result := result }
        else
          let prev := result
          let result1 := (result * base + digit) % 2 ^ 64
          if result1 < prev then
            /- Overflow -/
            { overflow := true, str := i, result := result1 }
          else str_uint_digits base cs (i + 1) result1

/-- The outputs of `str_uint`: the code returned and the values of `*endptr`
(an index into the string), `*neg` and `*result`. -/
structure str_uint_out where
  ret : Int
  endptr : Nat
  neg : Bool
  result : Nat
deriving DecidableEq, Repr

/-- Lines 1204-1237 of `str_uint`: the base that the digits are read in and
the index of the first digit, for a requested base of 0 and the index `str`
behind the sign. -/
def str_uint_decode_base (nptr : List Nat) (str : Nat) : Nat × Nat :=
  if str_at nptr str = 48 then
    let c := str_at nptr (str + 1)
    if c = 98 ∨ c = 66 then (2, str + 2)
    else if c = 111 ∨ c = 79 then (8, str + 2)
    else if c = 100 ∨ c = 68 ∨ c = 116 ∨ c = 84 then (10, str + 2)
    else if c = 120 ∨ c = 88 then (16, str + 2)
    else (8, str)
  else (10, str)

/-- The function `str_uint`, str.c lines 1173-1291; `result0` is the value of `*result`
before the call. -/
def str_uint (isspace : Nat → Bool) (E : str_errno_h) (nptr : List Nat) (base : Nat)
    (result0 : Nat) : str_uint_out :=
  /- Ignore leading whitespace -/
  let str0 := str_skip_space isspace nptr 0
  let neg := decide (str_at nptr str0 = 45)
  let str1 := if str_at nptr str0 = 45 then str0 + 1
    else if str_at nptr str0 = 43 then str0 + 1 else str0
  if base ≠ 0 ∧ (base < 2 ∨ base > 36) then
    /- Check base range -/
    { ret := E.EINVAL, endptr := str1, neg := neg, result := result0 }
  else
    let b := if base = 0 then str_uint_decode_base nptr str1 else (base, str1)
    let startstr := b.2
    let r := str_uint_digits b.1 (nptr.drop startstr) startstr 0
    if r.overflow then
      { ret := E.EOVERFLOW, endptr := r.str, neg := neg, result := r.result }
    else
      /- No digits were decoded: the first invalid character is the first
      character of the string. -/
      let str := if r.str = startstr then 0 else r.str
      if str = 0 then { ret := E.EINVAL, endptr := str, neg := neg, result := r.result }
      else { ret := EOK, endptr := str, neg := neg, result := r.result }

/-- The outputs of `str_uint64`: the code returned and the values of
`*endptr` and `*result`. -/
structure str_uint64_out where
  ret : Int
  endptr : Nat
  result : Nat
deriving DecidableEq, Repr

/-- The function `str_uint64`, str.c lines 1293-1330. -/
def str_uint64 (isspace : Nat → Bool) (E : str_errno_h) (nptr : List Nat) (base : Nat)
    (strict : Bool) (result0 : Nat) : str_uint64_out :=
  let r := str_uint isspace E nptr base result0
  if r.ret ≠ EOK then { ret := r.ret, endptr := r.endptr, result := r.result }
  /- Do not allow negative values -/
  else if r.neg then { ret := E.EINVAL, endptr := r.endptr, result := r.result }
  /- Check whether we are at the end of the string in strict mode -/
  else if strict ∧ str_at nptr r.endptr ≠ 0 then
    { ret := E.EINVAL, endptr := r.endptr, result := r.result }
  else { ret := EOK, endptr := r.endptr, result := r.result }

/-! ### str.c: UTF-8

A buffer is the function from byte index to byte; `w` is the width of `size_t`
in bits, whose arithmetic is modulo `2 ^ w`; `U_SPECIAL` is the character
returned for a decoding error. -/

/-- `LO_MASK_8(n)`, the byte mask `(uint8_t) ((1 << n) - 1)`. -/
def LO_MASK_8 (n : Nat) : Nat := ((1 <<< n) - 1) % 256

/-- `LO_MASK_32(n)`, the mask `(uint32_t) ((1 << n) - 1)`. -/
def LO_MASK_32 (n : Nat) : Nat := ((1 <<< n) - 1) % 2 ^ 32

/-- `HI_MASK_8(n)`, that is `~LO_MASK_8(8 - n)`, as a 32-bit pattern (the
complement is taken after the promotion of the byte). -/
def HI_MASK_8 (n : Nat) : Nat := LO_MASK_8 (8 - n) ^^^ 0xFFFFFFFF

/-- Number of data bits in a UTF-8 continuation byte. -/
def CONT_BITS : Nat := 6

/-- `STR_NO_LIMIT`, the size `(size_t) -1` given for a NUL-terminated string. -/
def STR_NO_LIMIT (w : Nat) : Nat := 2 ^ w - 1

/-- What a call of `str_decode` leaves: the character returned, the new value
of `*offset` and the indices of the bytes read, in order. -/
structure str_decode_out where
  ch : Int
  offset : Nat
  reads : List Nat
deriving DecidableEq, Repr

/-- The loop `while (cbytes > 0)` of `str_decode`, lines 116-126.  The
character stays below `2 ^ 21`, so the signed shift does not overflow. -/
def str_decode_cont (w : Nat) (U_SPECIAL : Int) (str : Nat → Nat) :
    Nat → Nat → Nat → List Nat → str_decode_out
  | 0, ch, offset, reads => { ch := ch, offset := offset, reads := reads }
  | cbytes + 1, ch, offset, reads =>
    let b := str offset % 256
    let offset1 := (offset + 1) % 2 ^ w
    /- Must be 10xxxxxx -/
    if b &&& 0xc0 ≠ 0x80 then
      { ch := U_SPECIAL, offset := offset1, reads := reads ++ [offset] }
    else
      /- Shift data bits to ch -/
      str_decode_cont w U_SPECIAL str cbytes ((ch <<< CONT_BITS) ||| (b &&& LO_MASK_8 CONT_BITS))
        offset1 (reads ++ [offset])

/-- Lines 84-108 of `str_decode`, "Determine code length": the number of data
bits in the first byte `b0` and the number of continuation bytes; `none` for an
unexpected continuation byte. -/
def str_decode_code (b0 : Nat) : Option (Nat × Nat) :=
  if b0 &&& 0x80 = 0 then
    /- 0xxxxxxx (Plain ASCII) -/
    some (7, 0)
  else if b0 &&& 0xe0 = 0xc0 then
    /- 110xxxxx 10xxxxxx -/
    some (5, 1)
  else if b0 &&& 0xf0 = 0xe0 then
    /- 1110xxxx 10xxxxxx 10xxxxxx -/
    some (4, 2)
  else if b0 &&& 0xf8 = 0xf0 then
    /- 11110xxx 10xxxxxx 10xxxxxx 10xxxxxx -/
    some (3, 3)
  else none

/-- The function `str_decode`, str.c lines 76-129. -/
def str_decode (w : Nat) (U_SPECIAL : Int) (str : Nat → Nat) (offset size : Nat) :
    str_decode_out :=
  if (offset + 1) % 2 ^ w > size then { ch := 0, offset := offset, reads := [] }
  else
    /- First byte read from string -/
    let b0 := str offset % 256
    let offset1 := (offset + 1) % 2 ^ w
    match str_decode_code b0 with
    | none =>
      /- 10xxxxxx -- unexpected continuation byte -/
      { ch := U_SPECIAL, offset := offset1, reads := [offset] }
    | some (b0_bits, cbytes) =>
      if (offset1 + cbytes) % 2 ^ w > size then
        { ch := U_SPECIAL, offset := offset1, reads := [offset] }
      else
        str_decode_cont w U_SPECIAL str cbytes (b0 &&& LO_MASK_8 b0_bits) offset1 [offset]

/-- The function `chr_check`, str.c lines 375-381. -/
def chr_check (ch : Int) : Bool :=
  if 0 ≤ ch ∧ ch ≤ 1114111 then true else false

/-- What a call of `chr_encode` leaves: the code returned, the buffer and the
new value of `*offset`. -/
structure chr_encode_out where
  ret : Int
  str : Nat → Nat
  offset : Nat

/-- The loop `for (i = cbytes; i > 0; i--)` of `chr_encode`, lines 186-189,
from `i`; returns what is left of `cc` and the buffer. -/
def chr_encode_cont (w : Nat) (offset : Nat) : Nat → Nat → (Nat → Nat) → Nat × (Nat → Nat)
  | 0, cc, str => (cc, str)
  | i + 1, cc, str =>
    chr_encode_cont w offset i (cc >>> CONT_BITS)
      (Function.update str ((offset + (i + 1)) % 2 ^ w)
        ((0x80 ||| (cc &&& LO_MASK_32 CONT_BITS)) % 256))

/-- Lines 158-178 of `chr_encode`, "Determine how many continuation bytes
are needed": the number of data bits in the first byte and the number of
continuation bytes for `cc`; `none` for a code longer than 21 bits. -/
def chr_encode_code (cc : Nat) : Option (Nat × Nat) :=
  if cc &&& (LO_MASK_32 7 ^^^ 0xFFFFFFFF) = 0 then some (7, 0)
  else if cc &&& (LO_MASK_32 11 ^^^ 0xFFFFFFFF) = 0 then some (5, 1)
  else if cc &&& (LO_MASK_32 16 ^^^ 0xFFFFFFFF) = 0 then some (4, 2)
  else if cc &&& (LO_MASK_32 21 ^^^ 0xFFFFFFFF) = 0 then some (3, 3)
  else none

/-- The function `chr_encode`, str.c lines 146-198. -/
def chr_encode (w : Nat) (E : str_errno_h) (ch : Int) (str : Nat → Nat) (offset size : Nat) :
    chr_encode_out :=
  if offset ≥ size then { ret := E.EOVERFLOW, str := str, offset := offset }
  else if chr_check ch = false then { ret := E.EINVAL, str := str, offset := offset }
  else
    /- Unsigned version of ch -/
    let cc := ch.toNat % 2 ^ 32
    match chr_encode_code cc with
    | none =>
      /- Codes longer than 21 bits are not supported -/
      { ret := E.EINVAL, str := str, offset := offset }
    | some (b0_bits, cbytes) =>
      /- Check for available space in buffer -/
      if (offset + cbytes) % 2 ^ w ≥ size then
        { ret := E.EOVERFLOW, str := str, offset := offset }
      else
        /- Encode continuation bytes -/
        let r := chr_encode_cont w offset cbytes cc str
        /- Encode first byte -/
        let str1 := Function.update r.2 offset
          (((r.1 &&& LO_MASK_32 b0_bits) ||| HI_MASK_8 (8 - b0_bits - 1)) % 256)
        /- Advance offset -/
        { ret := EOK, str := str1, offset := (offset + (cbytes + 1)) % 2 ^ w }

/-- The function `str_size`, str.c lines 210-218, from index `size` of the
string; `none` when no NUL byte is found within `fuel` bytes. -/
def str_size (w : Nat) (str : Nat → Nat) : Nat → Nat → Option Nat
  | 0, _ => none
  | fuel + 1, size =>
    if str size % 256 ≠ 0 then str_size w str fuel (size + 1) else some (size % 2 ^ w)

/-- The loop of `str_lsize`, lines 253-258; the first argument counts the
passes that remain before `len` reaches `max_len`. -/
def str_lsize_loop (w : Nat) (U_SPECIAL : Int) (str : Nat → Nat) (max_len : Nat) :
    Nat → Nat → Nat → Nat
  | 0, _, offset => offset
  | n + 1, len, offset =>
    if len < max_len then
      let d := str_decode w U_SPECIAL str offset (STR_NO_LIMIT w)
      if d.ch = 0 then d.offset else str_lsize_loop w U_SPECIAL str max_len n (len + 1) d.offset
    else offset

/-- The function `str_lsize`, str.c lines 248-261. -/
def str_lsize (w : Nat) (U_SPECIAL : Int) (str : Nat → Nat) (max_len : Nat) : Nat :=
  str_lsize_loop w U_SPECIAL str max_len max_len 0 0

/-- The function `str_length`, str.c lines 288-297, from the state (`len`,
`offset`) of its loop; `none` when the loop has not ended after `fuel` passes. -/
def str_length (w : Nat) (U_SPECIAL : Int) (str : Nat → Nat) : Nat → Nat → Nat → Option Nat
  | 0, _, _ => none
  | fuel + 1, len, offset =>
    let d := str_decode w U_SPECIAL str offset (STR_NO_LIMIT w)
    if d.ch ≠ 0 then str_length w U_SPECIAL str fuel ((len + 1) % 2 ^ w) d.offset
    else some len

/-- The loop of `str_cmp`, lines 404-416, from the offsets `off1` and `off2`;
`none` when it has not ended after `fuel` passes. -/
def str_cmp_loop (w : Nat) (U_SPECIAL : Int) (s1 s2 : Nat → Nat) : Nat → Nat → Nat → Option Int
  | 0, _, _ => none
  | fuel + 1, off1, off2 =>
    let d1 := str_decode w U_SPECIAL s1 off1 (STR_NO_LIMIT w)
    let d2 := str_decode w U_SPECIAL s2 off2 (STR_NO_LIMIT w)
    if d1.ch < d2.ch then some (-1)
    else if d1.ch > d2.ch then some 1
    else if d1.ch = 0 ∨ d2.ch = 0 then some 0
    else str_cmp_loop w U_SPECIAL s1 s2 fuel d1.offset d2.offset

/-- The function `str_cmp`, str.c lines 396-419. -/
def str_cmp (w : Nat) (U_SPECIAL : Int) (s1 s2 : Nat → Nat) (fuel : Nat) : Option Int :=
  str_cmp_loop w U_SPECIAL s1 s2 fuel 0 0

/-! ### str.c: UTF-16

A UTF-16 string is the function from index to 16-bit unit. -/

/-- What the conversions between UTF-8 and UTF-16 leave: the code returned,
the destination buffer and the index at which the terminator was stored. -/
structure utf16_out where
  ret : Int
  dest : Nat → Nat
  idx : Nat

/-- The loop of `utf16_to_str`, lines 664-681, from the state (`idx`,
`dest_off`, `dest`); gives the code `rc` and the state at the end of the loop,
`none` when the loop has not ended after `fuel` passes. -/
def utf16_to_str_loop (w : Nat) (E : str_errno_h) (size : Nat) (src : Nat → Nat) :
    Nat → Nat → Nat → (Nat → Nat) → Option utf16_out
  | 0, _, _, _ => none
  | fuel + 1, idx, dest_off, dest =>
    let u := src idx % 65536
    if u = 0 then some { ret := EOK, dest := dest, idx := dest_off }
    else
      let u1 := src (idx + 1) % 65536
      let next : Option (Int × Nat) :=
        if u &&& 0xfc00 = 0xd800 then
          if u1 ≠ 0 ∧ u1 &&& 0xfc00 = 0xdc00 then
            some (0x10000 + (((u &&& 0x03FF) <<< 10 : Nat) : Int) + ((u1 &&& 0x03FF : Nat) : Int),
              idx + 2)
          else none
        else some ((u : Int), idx + 1)
      match next with
      | none => some { ret := EOK, dest := dest, idx := dest_off }
      | some (ch, idx1) =>
        let e := chr_encode w E ch dest dest_off (size - 1)
        if e.ret ≠ EOK then some { ret := e.ret, dest := e.str, idx := e.offset }
        else utf16_to_str_loop w E size src fuel idx1 e.offset e.str

/-- The function `utf16_to_str`, str.c lines 655-684; `none` when
`assert(size > 0)` fails or the loop has not ended after `fuel` passes. -/
def utf16_to_str (w : Nat) (E : str_errno_h) (dest : Nat → Nat) (size : Nat) (src : Nat → Nat)
    (fuel : Nat) : Option utf16_out :=
  /- There must be space for a null terminator in the buffer. -/
  if size = 0 then none
  else
    (utf16_to_str_loop w E size src fuel 0 0 dest).map fun r =>
      { r with dest := Function.update r.dest r.idx 0 }

/-- The loop of `str_to_utf16`, lines 695-714, from the state (`offset`, `idx`,
`dest`); gives the code `rc` and the state at the end of the loop, `none` when
the loop has not ended after `fuel` passes. -/
def str_to_utf16_loop (w : Nat) (U_SPECIAL : Int) (E : str_errno_h) (size : Nat)
    (src : Nat → Nat) : Nat → Nat → Nat → (Nat → Nat) → Option utf16_out
  | 0, _, _, _ => none
  | fuel + 1, offset, idx, dest =>
    let d := str_decode w U_SPECIAL src offset (STR_NO_LIMIT w)
    let c := d.ch
    if c = 0 then some { ret := EOK, dest := dest, idx := idx }
    else
      let step : Option ((Nat → Nat) × Nat) :=
        if c > 0x10000 then
          if (idx + 2) % 2 ^ w ≥ size - 1 then none
          else
            let c1 := (c - 0x10000).toNat
            let dest1 := Function.update dest idx ((0xD800 ||| (c1 >>> 10)) % 65536)
            let dest2 := Function.update dest1 ((idx + 1) % 2 ^ w)
              ((0xDC00 ||| (c1 &&& 0x3FF)) % 65536)
            some (dest2, (idx + 1) % 2 ^ w)
        else some (Function.update dest idx (c % 65536).toNat, idx)
      match step with
      | none => some { ret := E.EOVERFLOW, dest := dest, idx := idx }
      | some (dest1, idx1) =>
        let idx2 := (idx1 + 1) % 2 ^ w
        if idx2 ≥ size - 1 then some { ret := E.EOVERFLOW, dest := dest1, idx := idx2 }
        else str_to_utf16_loop w U_SPECIAL E size src fuel d.offset idx2 dest1

/-- The function `str_to_utf16`, str.c lines 686-718; `none` when
`assert(size > 0)` fails or the loop has not ended after `fuel` passes. -/
def str_to_utf16 (w : Nat) (U_SPECIAL : Int) (E : str_errno_h) (dest : Nat → Nat) (size : Nat)
    (src : Nat → Nat) (fuel : Nat) : Option utf16_out :=
  if size = 0 then none
  else
    (str_to_utf16_loop w U_SPECIAL E size src fuel 0 0 dest).map fun r =>
      { r with dest := Function.update r.dest r.idx 0 }

/-! ### str.c: strtol and strtoul

`lw` is the width of `unsigned long` in bits. -/

/-- The outputs of `_strtoul`: the value returned, the value stored to
`*endptr` (an index into the string; `none` when the function returns without
storing one) and whether `*sgn` was set. -/
structure strtoul_out where
  result : Nat
  endptr : Option Nat
  sgn : Bool
deriving DecidableEq, Repr

/-- The digit value that lines 985-986 of `_strtoul` give the character `c`,
an `unsigned char`. -/
def strtoul_digit (c : Nat) : Nat :=
  if c ≥ 97 then (c - 97 + 10) % 256
  else if c ≥ 65 then (c - 65 + 10) % 256
  else if c ≤ 57 then (c + 256 - 48) % 256
  else 0xff

/-- The digit loop of `_strtoul`, lines 983-1002, from index `str` with `cs`
the characters from `str` on: the value of `result` and the index reached, or
`none` for the overflow return. -/
def strtoul_digits (lw : Nat) (base : Int) : List Nat → Nat → Nat → Option (Nat × Nat)
  | [], result, str => some (result, str)
  | c0 :: cs, result, str =>
    if c0 % 256 = 0 then some (result, str)
    else
      let c := strtoul_digit (c0 % 256)
      if (c : Int) > base then some (result, str)
      else
        let a := ((result &&& 0xff) * base.toNat + c) % 2 ^ lw
        let b := ((result >>> 8) * base.toNat + (a >>> 8)) % 2 ^ lw
        if b > (2 ^ lw - 1) >>> 8 then
          /- overflow -/
          none
        else strtoul_digits lw base cs (((b <<< 8) + (a &&& 0xff)) % 2 ^ lw) (str + 1)

/-- The function `_strtoul`, str.c lines 942-1023. -/
def _strtoul (isspace : Nat → Bool) (lw : Nat) (nptr : List Nat) (base : Int) : strtoul_out :=
  let str0 := str_skip_space isspace nptr 0
  let sgn := decide (str_at nptr str0 = 45)
  let str1 := if str_at nptr str0 = 45 then str0 + 1
    else if str_at nptr str0 = 43 then str0 + 1 else str0
  if base ≠ 0 ∧ (base = 1 ∨ base > 36) then { result := 0, endptr := none, sgn := sgn }
  else
    let bs : Int × Nat :=
      if base ≠ 0 then
        if base = 16 ∧ str_at nptr str1 = 48 ∧
            (str_at nptr (str1 + 1) = 120 ∨ str_at nptr (str1 + 1) = 88) then (base, str1 + 2)
        else (base, str1)
      else if str_at nptr str1 = 48 then
        if str_at nptr (str1 + 1) = 88 ∨ str_at nptr (str1 + 1) = 120 then (16, str1 + 2)
        else (8, str1)
      else (10, str1)
    let tmpptr := bs.2
    match strtoul_digits lw bs.1 (nptr.drop tmpptr) 0 tmpptr with
    | none => { result := 2 ^ lw - 1, endptr := none, sgn := sgn }
    | some (result, str) =>
      /- No number was found: first invalid character is the first character
      of the string. -/
      let r : Nat × Nat := if str = tmpptr then (0, 0) else (result, str)
      { result := if r.2 = 0 then 0 else r.1, endptr := some r.2, sgn := sgn }

/-- The function `strtol`, str.c lines 1038-1055: the value returned and the
value stored to `*endptr`. -/
def strtol (isspace : Nat → Bool) (lw : Nat) (nptr : List Nat) (base : Int) :
    Int × Option Nat :=
  let r := _strtoul isspace lw nptr base
  let LONG_MAX : Nat := 2 ^ (lw - 1) - 1
  if r.result > LONG_MAX then
    if r.sgn ∧ r.result = LONG_MAX + 1 then ((r.result : Int) - 2 ^ lw, r.endptr)
    else ((if r.sgn then -(2 ^ (lw - 1) : Int) else (LONG_MAX : Int)), r.endptr)
  else ((if r.sgn then -(r.result : Int) else (r.result : Int)), r.endptr)

/-- The function `strtoul`, str.c lines 1131-1139: the value returned and the
value stored to `*endptr`. -/
def strtoul (isspace : Nat → Bool) (lw : Nat) (nptr : List Nat) (base : Int) :
    Nat × Option Nat :=
  let r := _strtoul isspace lw nptr base
  ((if r.sgn then (2 ^ lw - r.result) % 2 ^ lw else r.result), r.endptr)

/-! ## debugger.c -/

/-- The fields of an entry of the breakpoint table (`bpinfo_t`) that
`cmd_del_breakpoint` uses. -/
structure bpinfo_t where
  address : Nat
  instruction : Nat
  nextinstruction : Nat
  flags : Nat
deriving DecidableEq, Repr

/-- The texts `cmd_del_breakpoint` prints. -/
inductive del_msg
  | invalid_breakpoint_number
  | breakpoint_does_not_exist
  | one_shot_in_progress
deriving DecidableEq, Repr

/-- What `cmd_del_breakpoint` does besides reading and writing the table, in
program order; `mem_write address k value` is the store
`((__u32 *) address)[k] = value`. -/
inductive del_action
  | printf (msg : del_msg)
  | interrupts_disable
  | spinlock_lock
  | spinlock_unlock
  | interrupts_restore
  | mem_write (address k value : Nat)
deriving DecidableEq, Repr

/-- How a call of `cmd_del_breakpoint` ends: it returns `ret` and leaves the
table `breakpoints`, or it uses `breakpoints[index]` for an `index` at which the
table has no entry. -/
inductive del_result
  | returned (ret : Int) (breakpoints : List bpinfo_t) (trace : List del_action)
  | out_of_bounds (index : Int) (trace : List del_action)
deriving DecidableEq, Repr

/-- The function `cmd_del_breakpoint`, debugger.c lines 206-240, for
`argv->intval = intval`.  The table `breakpoints` is declared with
`BKPOINTS_MAX` entries (line 47). -/
def cmd_del_breakpoint (BKPOINTS_MAX BKPOINT_INPROG BKPOINT_ONESHOT : Nat)
    (breakpoints : List bpinfo_t) (intval : Int) : del_result :=
  if intval < 0 ∨ intval > BKPOINTS_MAX then
    .returned 0 breakpoints [.printf .invalid_breakpoint_number]
  else
    let t := [del_action.interrupts_disable, del_action.spinlock_lock]
    match breakpoints.get? intval.toNat with
    | none => .out_of_bounds intval t
    | some cur =>
      if cur.address = 0 then
        .returned 0 breakpoints (t ++ [.printf .breakpoint_does_not_exist, .spinlock_unlock,
          .interrupts_restore])
      else if cur.flags &&& BKPOINT_INPROG ≠ 0 ∧ cur.flags &&& BKPOINT_ONESHOT ≠ 0 then
        .returned 0 breakpoints (t ++ [.printf .one_shot_in_progress, .spinlock_unlock,
          .interrupts_restore])
      else
        .returned 1 (breakpoints.set intval.toNat { cur with address := 0 })
          (t ++ [.mem_write cur.address 0 cur.instruction,
            .mem_write cur.address 1 cur.nextinstruction, .spinlock_unlock,
            .interrupts_restore])

/-! ## Observations used in the statements -/

/-- The actions by which the port monitor acts on a port: the start of an
enumeration (`rh_setup_device` begins with `hcd_ddf_device_create`) and a port
reset. -/
def rh_action.is_port_event : rh_action → Bool
  | .hcd_ddf_device_create _ => true
  | .reg_set_PR _ => true
  | _ => false

/-- The enumerations and port resets of the trace, in order. -/
def xhci_rh_t.port_events (s : xhci_rh_t) : List rh_action :=
  s.trace.filter rh_action.is_port_event

/-- The state `s1` has the port count and port registers of `s`, and its
trace has the port events of `s` followed by `evs`. -/
def same_ports (s s1 : xhci_rh_t) (evs : List rh_action) : Prop :=
  s1.max_ports = s.max_ports ∧ s1.portsc = s.portsc ∧ s1.port_events = s.port_events ++ evs

/-- The state `s1` has the port count of `s` and the same port registers,
except possibly for the register of port `i`. -/
def ports_except (i : Nat) (s s1 : xhci_rh_t) : Prop :=
  s1.max_ports = s.max_ports ∧ s1.portsc.length = s.portsc.length ∧
  ∀ k, k ≠ i - 1 → s1.portsc.getD k 0 = s.portsc.getD k 0

/-- The loop body applied to the `n` ports `i`, `i + 1`, ... in turn. -/
def port_change_from (E : errno_h) (X : xhci_ext) : Nat → Nat → xhci_rh_t → xhci_rh_t
  | 0, _, s => s
  | n + 1, i, s => port_change_from E X n (i + 1) (port_change_body E X s i)

/-! ## Sample inputs -/

def ep_sample : endpoint_t :=
  { target := { address := 1, endpoint := 1 }, direction := .USB_DIRECTION_OUT,
    transfer_type := .USB_TRANSFER_BULK, max_packet_size := 512, bandwidth := 1024,
    active := false }

def device_sample : device_t := { address := 1, port := 3 }

def batch_sample (ep : endpoint_t) : usb_transfer_batch_t :=
  { ep := ep, expected_size := 0, dir := .USB_DIRECTION_BOTH, on_complete := none,
    on_complete_data := 0, setup_packed := 0, toggle_reset_mode := 0, buffer := 0,
    buffer_size := 0, transfered_size := 0, error := 0 }

def lib_sample : usbhost_lib :=
  { usb_transfer_batch_create := fun ep => some (batch_sample ep),
    usb_request_get_toggle_reset_mode := fun _ => 0 }

/-- A bus with one registered endpoint, number 1 of the device at address 1;
the bandwidth a transfer needs is its size. -/
def bus_sample : bus_t :=
  { find_endpoint := fun _ t _ => if t.endpoint = 1 then some ep_sample else none,
    count_bw := fun _ size => size }

def hcd_sample (hook : Option (usb_transfer_batch_t → Int)) : hcd_t :=
  { bus := bus_sample, schedule := hook }

/-- A controller front end over `bus_sample` on which no transfer needs
reserved bandwidth. -/
def hcd_free_sample (hook : Option (usb_transfer_batch_t → Int)) : hcd_t :=
  { bus := { bus_sample with count_bw := fun _ _ => 0 }, schedule := hook }

/-- The result the waiting caller of `hcd_send_batch_sync` is handed first:
that of a completion that ran before the wait, otherwise that of the first
completion among the wake-ups. -/
def first_completion : Option (Nat × Int) → List wakeup → Option (Nat × Int)
  | some r, _ => some r
  | none, [] => none
  | none, .spurious :: ws => first_completion none ws
  | none, .completed t e :: _ => some (t, e)

/-- A register that clears the change bits written as 1, takes the PR flag
from the written value and keeps its other bits. -/
def portsc_store_sample (old v : Nat) : Nat :=
  clear_mask32 old (v &&& port_change_mask xhci_layout_sample) |||
    (v &&& XHCI_REG_MASK xhci_layout_sample.PR)

/-- An environment in which every command succeeds except `ddf_fun_bind`,
which returns `bind`; protocol speed id 4 is USB 3.0, every other id USB 2.0. -/
def xhci_ext_sample (bind : Int) : xhci_ext :=
  { layout := xhci_layout_sample
    speeds := fun psiv => if psiv = 4 then ⟨3, 0⟩ else ⟨2, 0⟩
    portsc_store := portsc_store_sample
    hcd_ddf_device_create := fun _ => true
    hc_enable_slot := fun _ => (0, 1)
    bus_create_endpoint := fun _ => true
    xhci_endpoint_alloc_transfer_ds := fun _ => 0
    ring_dequeue := fun _ => 0
    malloc32 := fun _ => some 4096
    addr_to_phys := fun a => a
    hc_address_rh_device := fun _ => (0, 1)
    bus_register_endpoint := fun _ => 0
    ddf_fun_get_name := fun _ => true
    ddf_fun_bind := fun _ => bind
    xhci_transfer_abort := fun _ => 0
    ddf_fun_unbind := fun _ => 0
    bus_unregister_endpoint := fun _ => 0
    hc_deconfigure_device := fun _ => 0
    xhci_bus_remove_device := fun _ => 0
    hc_disable_slot := fun _ => 0 }

/-- A root hub with `portsc.length` ports, no device recorded and an empty
trace. -/
def rh_sample (portsc : List Nat) : xhci_rh_t :=
  { max_ports := portsc.length, devices := List.replicate portsc.length none, attached := [],
    portsc := portsc, dcbaa := List.replicate 4 0, devs := [], destroyed := [], trace := [] }

/-- PORTSC of a connected USB 3.0 port in link state U0: CCS, PED, PP, speed
id 4. -/
def portsc_usb3_enabled : Nat := 0x1203

/-- The invariant of the port map at `port`: an entry refers to a device that
has not been destroyed and whose `online` flag is set. -/
def port_map_ok (s : xhci_rh_t) (port : Nat) : Prop :=
  match s.device_at port with
  | none => True
  | some d => d ∉ s.destroyed ∧ (s.dev d).online = true

instance (s : xhci_rh_t) (port : Nat) : Decidable (port_map_ok s port) := by
  unfold port_map_ok
  split <;> infer_instance

/-- The operations of the device lifecycle on one port. -/
inductive rh_op
  | enumerate
  | disconnect
deriving DecidableEq, Repr

/-- A sequence of enumerations (`rh_setup_device`) and disconnects
(`handle_disconnected_device`) on `port`. -/
def rh_run_ops (E : errno_h) (X : xhci_ext) (port : Nat) : List rh_op → xhci_rh_t → xhci_rh_t
  | [], s => s
  | .enumerate :: ops, s => rh_run_ops E X port ops (rh_setup_device E X s port).2
  | .disconnect :: ops, s => rh_run_ops E X port ops (handle_disconnected_device X s port).2

/-- The handles recorded for `port` and the destroyed handles have been
handed out. -/
def handles_ok (s : xhci_rh_t) (port : Nat) : Prop :=
  (∀ d, s.device_at port = some d → d < s.devs.length) ∧ ∀ d ∈ s.destroyed, d < s.devs.length

/-- The state `s1` differs from `s` at most in the device object `dev`, in
the trace and in parts that the port map does not look at. -/
def dev_frame (dev : Nat) (s s1 : xhci_rh_t) : Prop :=
  s1.devices = s.devices ∧ s1.destroyed = s.destroyed ∧ s1.devs.length = s.devs.length ∧
  (∀ d, d ≠ dev → s1.dev d = s.dev d) ∧ (s1.dev dev).online = (s.dev dev).online ∧
  (s1.dev dev).base.port = (s.dev dev).base.port

/-- The invariant of the device lifecycle on `port`. -/
def port_inv (s : xhci_rh_t) (port : Nat) : Prop :=
  port_map_ok s port ∧ handles_ok s port

/-- A step from `s` to `s1` that destroys nothing, keeps the device objects
of `s`, and either keeps the entry of `port` or lets it refer to a device
object created by the step, which is online. -/
def port_step (port : Nat) (s s1 : xhci_rh_t) : Prop :=
  s1.destroyed = s.destroyed ∧ s.devs.length ≤ s1.devs.length ∧
  (∀ d, d < s.devs.length → s1.dev d = s.dev d) ∧
  (s1.device_at port = s.device_at port ∨
    ∃ dev, s1.device_at port = some dev ∧ s.devs.length ≤ dev ∧ dev < s1.devs.length ∧
      (s1.dev dev).online = true)

/-- The state `s1` has the port map, the destroyed handles and the number of
device objects of `s`. -/
def same_map (s s1 : xhci_rh_t) : Prop :=
  s1.devices = s.devices ∧ s1.destroyed = s.destroyed ∧ s1.devs.length = s.devs.length

/-- The state in which `xhci_rh_address_device` calls `hc_enable_slot` for
device `dev`: the `usb3` flag of the device has been set from the speed of its
port. -/
def address_slot_state (X : xhci_ext) (s : xhci_rh_t) (dev : Nat) : xhci_rh_t :=
  (s.upd_dev dev fun d =>
    { d with usb3 := decide ((xhci_rh_get_port_speed X s (s.dev dev).base.port).major = 3) }).emit
    (.hc_enable_slot dev)

/-- The slot that `hc_enable_slot` hands to `xhci_rh_address_device`. -/
def address_slot (X : xhci_ext) (s : xhci_rh_t) (dev : Nat) : Nat :=
  (X.hc_enable_slot (address_slot_state X s dev)).2

/-- The state in which `xhci_rh_address_device` calls `bus_create_endpoint`:
the slot has been stored in the device. -/
def address_ep_state (X : xhci_ext) (s : xhci_rh_t) (dev : Nat) : xhci_rh_t :=
  ((address_slot_state X s dev).upd_dev dev fun d =>
    { d with slot_id := address_slot X s dev }).emit .bus_create_endpoint

/-- The state in which `xhci_rh_address_device` calls
`xhci_endpoint_alloc_transfer_ds`. -/
def address_ds_state (X : xhci_ext) (s : xhci_rh_t) (dev : Nat) : xhci_rh_t :=
  (address_ep_state X s dev).emit .xhci_endpoint_alloc_transfer_ds

/-- The state in which `xhci_rh_address_device` calls `malloc32` for the
device context. -/
def address_ctx_state (X : xhci_ext) (s : xhci_rh_t) (dev : Nat) : xhci_rh_t :=
  (address_ds_state X s dev).emit .malloc32

/-- The state in which `xhci_rh_address_device` issues the address-device
command `hc_address_rh_device`: the device context `ctx` has been stored in the
device and its physical address in `dcbaa[slot]`. -/
def address_cmd_state (X : xhci_ext) (s : xhci_rh_t) (dev ctx : Nat) : xhci_rh_t :=
  (((address_ctx_state X s dev).upd_dev dev fun d => { d with dev_ctx := some ctx }).dcbaa_store
    (address_slot X s dev) (X.addr_to_phys ctx)).emit
    (.hc_address_rh_device (address_slot X s dev) (s.dev dev).base.port
      (setup_control_ep0_ctx xhci_ep_ctx_zero (X.ring_dequeue (address_ds_state X s dev))
        (xhci_rh_get_port_speed X s (s.dev dev).base.port)))

/-- Every step of `xhci_rh_address_device` before the address-device command
succeeds, and the device context allocated is `ctx`. -/
def address_cmd_reached (X : xhci_ext) (s : xhci_rh_t) (dev ctx : Nat) : Prop :=
  (X.hc_enable_slot (address_slot_state X s dev)).1 = EOK ∧
  X.bus_create_endpoint (address_ep_state X s dev) = true ∧
  X.xhci_endpoint_alloc_transfer_ds (address_ds_state X s dev) = 0 ∧
  X.malloc32 (address_ctx_state X s dev) = some ctx

instance (X : xhci_ext) (s : xhci_rh_t) (dev ctx : Nat) :
    Decidable (address_cmd_reached X s dev ctx) := by
  unfold address_cmd_reached
  infer_instance

/-- The environment `xhci_ext_sample 0` with an address-device command that
fails with `err`. -/
def xhci_ext_address_fails (err : Int) : xhci_ext :=
  { xhci_ext_sample 0 with hc_address_rh_device := fun _ => (err, 0) }

/-- The environment `xhci_ext_sample 0` with an `hc_enable_slot` that fails
with `err`. -/
def xhci_ext_enable_slot_fails (err : Int) : xhci_ext :=
  { xhci_ext_sample 0 with hc_enable_slot := fun _ => (err, 0) }

/-- A root hub with `portsc.length` ports and one device object, handle 0, for
port `port`, not yet addressed. -/
def rh_one_device (portsc : List Nat) (port : Nat) : xhci_rh_t :=
  (rh_sample portsc).alloc_dev
    { xhci_device_fresh with base := { xhci_device_fresh.base with port := port } }

/-- A root hub whose only port, a USB 3 port, has been enumerated (device 0 is
recorded for port 1), together with a second device object, handle 1, for the
same port, not yet addressed. -/
def rh_occupied_sample : xhci_rh_t :=
  (rh_setup_device errno_sample (xhci_ext_sample 0) (rh_sample [portsc_usb3_enabled]) 1).2.alloc_dev
    { xhci_device_fresh with base := { xhci_device_fresh.base with port := 1 } }

/-- The actions that mark the examination of a port by
`xhci_rh_handle_port_change`: the write-back of the status read, with which
the examination begins, and the warning that a change was ignored, with which
it may end. -/
def rh_action.is_scan_event : rh_action → Bool
  | .portsc_write _ _ => true
  | .usb_log (.change_ignored _ _) => true
  | _ => false

/-- The write-backs and "change ignored" warnings of the trace, in order. -/
def xhci_rh_t.scan_events (s : xhci_rh_t) : List rh_action :=
  s.trace.filter rh_action.is_scan_event

/-- The state in which a run of the port loop ended. -/
def rh_run.state : rh_run → xhci_rh_t
  | .finished s => s
  | .out_of_fuel s => s
  | .bad_port _ s => s

/-- Lines 382-422 of `xhci_rh_handle_port_change`: what the loop body does for
port `i` after the connect-status-change stage has returned the pending events
and the state `r`. -/
def port_change_rest (E : errno_h) (X : xhci_ext) (r : Nat × xhci_rh_t) (i : Nat) : xhci_rh_t :=
  let P := X.layout
  let r3 := port_change_flag r.1 P.PEC (.port_enabled_changed i) r.2
  let r4 := port_change_flag r3.1 P.WRC (.warm_reset_completed i) r3.2
  let r5 := port_change_flag r4.1 P.OCC (.over_current_change i) r4.2
  let r6 := port_change_prc E X r5.1 r5.2 i
  let r7 := port_change_flag r6.1 P.PLC (.link_state_changed i) r6.2
  let r8 := port_change_flag r7.1 P.CEC (.configure_link_failed i) r7.2
  if r8.1 ≠ 0 then r8.2.emit (.usb_log (.change_ignored r8.1 i)) else r8.2

/-- The state `t` with the actions `tr` put before its trace: `t` as it is
reached after the history `tr`. -/
def xhci_rh_t.with_history (t : xhci_rh_t) (tr : List rh_action) : xhci_rh_t :=
  { t with trace := tr ++ t.trace }

/-- The state `s` without its trace. -/
def xhci_rh_t.no_history (s : xhci_rh_t) : xhci_rh_t :=
  { s with trace := [] }

/-- The run `r` with the actions `tr` put before the trace of its state. -/
def rh_run.with_history : rh_run → List rh_action → rh_run
  | .finished s, tr => .finished (s.with_history tr)
  | .out_of_fuel s, tr => .out_of_fuel (s.with_history tr)
  | .bad_port i s, tr => .bad_port i (s.with_history tr)

/-- The answers of the environment depend on the root hub, its registers and
its devices, but not on the actions and diagnostics recorded before. -/
structure ext_ignores_history (X : xhci_ext) : Prop where
  hcd_ddf_device_create : ∀ (t : xhci_rh_t) (tr : List rh_action),
    X.hcd_ddf_device_create (t.with_history tr) = X.hcd_ddf_device_create t
  hc_enable_slot : ∀ (t : xhci_rh_t) (tr : List rh_action),
    X.hc_enable_slot (t.with_history tr) = X.hc_enable_slot t
  bus_create_endpoint : ∀ (t : xhci_rh_t) (tr : List rh_action),
    X.bus_create_endpoint (t.with_history tr) = X.bus_create_endpoint t
  xhci_endpoint_alloc_transfer_ds : ∀ (t : xhci_rh_t) (tr : List rh_action),
    X.xhci_endpoint_alloc_transfer_ds (t.with_history tr) = X.xhci_endpoint_alloc_transfer_ds t
  ring_dequeue : ∀ (t : xhci_rh_t) (tr : List rh_action),
    X.ring_dequeue (t.with_history tr) = X.ring_dequeue t
  malloc32 : ∀ (t : xhci_rh_t) (tr : List rh_action),
    X.malloc32 (t.with_history tr) = X.malloc32 t
  hc_address_rh_device : ∀ (t : xhci_rh_t) (tr : List rh_action),
    X.hc_address_rh_device (t.with_history tr) = X.hc_address_rh_device t
  bus_register_endpoint : ∀ (t : xhci_rh_t) (tr : List rh_action),
    X.bus_register_endpoint (t.with_history tr) = X.bus_register_endpoint t
  ddf_fun_get_name : ∀ (t : xhci_rh_t) (tr : List rh_action),
    X.ddf_fun_get_name (t.with_history tr) = X.ddf_fun_get_name t
  ddf_fun_bind : ∀ (t : xhci_rh_t) (tr : List rh_action),
    X.ddf_fun_bind (t.with_history tr) = X.ddf_fun_bind t
  xhci_transfer_abort : ∀ (t : xhci_rh_t) (tr : List rh_action),
    X.xhci_transfer_abort (t.with_history tr) = X.xhci_transfer_abort t
  ddf_fun_unbind : ∀ (t : xhci_rh_t) (tr : List rh_action),
    X.ddf_fun_unbind (t.with_history tr) = X.ddf_fun_unbind t
  bus_unregister_endpoint : ∀ (t : xhci_rh_t) (tr : List rh_action),
    X.bus_unregister_endpoint (t.with_history tr) = X.bus_unregister_endpoint t
  hc_deconfigure_device : ∀ (t : xhci_rh_t) (tr : List rh_action),
    X.hc_deconfigure_device (t.with_history tr) = X.hc_deconfigure_device t
  xhci_bus_remove_device : ∀ (t : xhci_rh_t) (tr : List rh_action),
    X.xhci_bus_remove_device (t.with_history tr) = X.xhci_bus_remove_device t
  hc_disable_slot : ∀ (t : xhci_rh_t) (tr : List rh_action),
    X.hc_disable_slot (t.with_history tr) = X.hc_disable_slot t

/-- The calls and stores of `rh.c`, as opposed to its diagnostics. -/
def rh_action.is_command : rh_action → Bool
  | .usb_log _ => false
  | _ => true

/-- The calls and stores of the trace, in order. -/
def xhci_rh_t.commands (s : xhci_rh_t) : List rh_action :=
  s.trace.filter rh_action.is_command

/-- The requests to abort a transfer. -/
def rh_action.is_transfer_abort : rh_action → Bool
  | .xhci_transfer_abort _ _ => true
  | _ => false

/-- The indices of the entries of an endpoint array that hold an endpoint
whose `active` flag is set, in increasing order; `i` is the index of the first
entry of the list. -/
def active_endpoints : List (Option endpoint_t) → Nat → List Nat
  | [], _ => []
  | none :: eps, i => active_endpoints eps (i + 1)
  | some ep :: eps, i =>
    if ep.active = false then active_endpoints eps (i + 1)
    else i :: active_endpoints eps (i + 1)

/-- A bulk endpoint descriptor for endpoint number 1. -/
def ep1_desc_sample : usb_endpoint_desc_t :=
  { endpoint_no := 1, direction := .USB_DIRECTION_IN, transfer_type := .USB_TRANSFER_BULK,
    max_packet_size := 512, packets := 1 }

/-- A root hub whose only port, a USB 3 port, has been enumerated (device 0),
the device having its control endpoint and a bulk endpoint 1 registered. -/
def rh_two_endpoints_sample : xhci_rh_t :=
  (bus_register_endpoint (xhci_ext_sample 0)
    (rh_setup_device errno_sample (xhci_ext_sample 0) (rh_sample [portsc_usb3_enabled]) 1).2
    0 ep1_desc_sample).2

/-- The state `rh_two_endpoints_sample` with transfers outstanding on the
endpoints 0 and 1 of device 0. -/
def rh_active_sample : xhci_rh_t :=
  rh_two_endpoints_sample.upd_dev 0 fun d =>
    { d with endpoints := d.endpoints.map (Option.map fun ep => { ep with active := true }) }

/-- The environment `xhci_ext_sample 0` with every teardown command failing
with `err`. -/
def xhci_ext_teardown_fails (err : Int) : xhci_ext :=
  { xhci_ext_sample 0 with
    xhci_transfer_abort := fun _ => err
    ddf_fun_unbind := fun _ => err
    bus_unregister_endpoint := fun _ => err
    hc_deconfigure_device := fun _ => err
    xhci_bus_remove_device := fun _ => err
    hc_disable_slot := fun _ => err }

/-- The characters that `isspace` of HelenOS accepts: space and the control
characters 9 to 13. -/
def isspace_sample (c : Nat) : Bool :=
  decide (c = 32 ∨ (9 ≤ c ∧ c ≤ 13))

/-- The number that a sequence of digit characters denotes in `base`. -/
def digits_value (base : Nat) (cs : List Nat) : Nat :=
  cs.foldl (fun acc c => acc * base + (str_uint_digit c).getD 0) 0

/-- The string "20500000000000000000". -/
def str_overflow_sample : List Nat :=
  [50, 48, 53, 48, 48, 48, 48, 48, 48, 48, 48, 48, 48, 48, 48, 48, 48, 48, 48, 48]

/-- The characters of the string at `str` from `offset` as the loops of str.c
meet them: the values returned by successive calls of `str_decode` with
`STR_NO_LIMIT`, up to the first 0; `none` when no 0 is returned within `fuel`
calls. -/
def str_chars (w : Nat) (U_SPECIAL : Int) (str : Nat → Nat) : Nat → Nat → Option (List Int)
  | 0, _ => none
  | fuel + 1, offset =>
    let d := str_decode w U_SPECIAL str offset (STR_NO_LIMIT w)
    if d.ch = 0 then some []
    else (str_chars w U_SPECIAL str fuel d.offset).map (fun l => d.ch :: l)

/-- The comparison of two character sequences position by position, the end
of a sequence counting as the character 0: 0 when they are the same, otherwise
-1 or 1 as the first is smaller or greater at the first position where they
differ. -/
def chars_cmp : List Int → List Int → Int
  | [], [] => 0
  | [], b :: _ => if 0 < b then -1 else if 0 > b then 1 else 0
  | a :: _, [] => if a < 0 then -1 else if a > 0 then 1 else 0
  | a :: l1, b :: l2 => if a < b then -1 else if a > b then 1 else chars_cmp l1 l2

/-! ## Theorems: hcd.c -/

theorem hcd_send_batch_path_assert (E : errno_h) (L : usbhost_lib) (hcd : hcd_t) (device : device_t)
    (target : usb_target_t) (direction : usb_direction_t) (data size setup_data : Nat)
    (on_complete : Option usb_transfer_batch_callback_t) (arg : Nat)
    (haddr : device.address ≠ target.address) :
    hcd_send_batch E L hcd device target direction data size setup_data on_complete arg
      = none := by
  simp [hcd_send_batch, haddr]

theorem hcd_send_batch_path_not_found (E : errno_h) (L : usbhost_lib) (hcd : hcd_t) (device : device_t)
    (target : usb_target_t) (direction : usb_direction_t) (data size setup_data : Nat)
    (on_complete : Option usb_transfer_batch_callback_t) (arg : Nat)
    (haddr : device.address = target.address)
    (hfind : hcd.bus.find_endpoint device target direction = none) :
    hcd_send_batch E L hcd device target direction data size setup_data on_complete arg
      = some (E.ENOENT, [.bus_find_endpoint device target direction,
          .usb_log .endpoint_not_registered]) := by
  simp [hcd_send_batch, haddr, hfind]

theorem hcd_send_batch_path_bandwidth (E : errno_h) (L : usbhost_lib) (hcd : hcd_t) (device : device_t)
    (target : usb_target_t) (direction : usb_direction_t) (data size setup_data : Nat)
    (on_complete : Option usb_transfer_batch_callback_t) (arg : Nat)
    (ep : endpoint_t)
    (haddr : device.address = target.address)
    (hfind : hcd.bus.find_endpoint device target direction = some ep)
    (hbw : ep.bandwidth < hcd.bus.count_bw ep size) :
    hcd_send_batch E L hcd device target direction data size setup_data on_complete arg
      = some (E.ENOSPC, [.bus_find_endpoint device target direction,
          .usb_log (.bandwidth_not_reserved (hcd.bus.count_bw ep size) ep.bandwidth)]) := by
  simp [hcd_send_batch, haddr, hfind, hbw]

theorem hcd_send_batch_path_no_hook (E : errno_h) (L : usbhost_lib) (hcd : hcd_t) (device : device_t)
    (target : usb_target_t) (direction : usb_direction_t) (data size setup_data : Nat)
    (on_complete : Option usb_transfer_batch_callback_t) (arg : Nat)
    (ep : endpoint_t)
    (haddr : device.address = target.address)
    (hfind : hcd.bus.find_endpoint device target direction = some ep)
    (hbw : hcd.bus.count_bw ep size ≤ ep.bandwidth) (hs : hcd.schedule = none) :
    hcd_send_batch E L hcd device target direction data size setup_data on_complete arg
      = some (E.ENOTSUP, [.bus_find_endpoint device target direction,
          .usb_log .no_scheduler]) := by
  simp [hcd_send_batch, haddr, hfind, Nat.not_lt.mpr hbw, hs]

theorem hcd_send_batch_path_no_batch (E : errno_h) (L : usbhost_lib) (hcd : hcd_t) (device : device_t)
    (target : usb_target_t) (direction : usb_direction_t) (data size setup_data : Nat)
    (on_complete : Option usb_transfer_batch_callback_t) (arg : Nat)
    (ep : endpoint_t) (hook : usb_transfer_batch_t → Int)
    (haddr : device.address = target.address)
    (hfind : hcd.bus.find_endpoint device target direction = some ep)
    (hbw : hcd.bus.count_bw ep size ≤ ep.bandwidth) (hs : hcd.schedule = some hook)
    (hc : L.usb_transfer_batch_create ep = none) :
    hcd_send_batch E L hcd device target direction data size setup_data on_complete arg
      = some (E.ENOMEM, [.bus_find_endpoint device target direction,
          .usb_transfer_batch_create ep, .usb_log .batch_create_failed]) := by
  simp [hcd_send_batch, haddr, hfind, Nat.not_lt.mpr hbw, hs, hc]

theorem hcd_send_batch_path_hook (E : errno_h) (L : usbhost_lib) (hcd : hcd_t) (device : device_t)
    (target : usb_target_t) (direction : usb_direction_t) (data size setup_data : Nat)
    (on_complete : Option usb_transfer_batch_callback_t) (arg : Nat)
    (ep : endpoint_t) (hook : usb_transfer_batch_t → Int)
    (b : usb_transfer_batch_t) (haddr : device.address = target.address)
    (hfind : hcd.bus.find_endpoint device target direction = some ep)
    (hbw : hcd.bus.count_bw ep size ≤ ep.bandwidth) (hs : hcd.schedule = some hook)
    (hc : L.usb_transfer_batch_create ep = some b) :
    hcd_send_batch E L hcd device target direction data size setup_data on_complete arg
      = some (hook (hcd_fill_batch L ep b direction data size setup_data on_complete arg),
          [.bus_find_endpoint device target direction, .usb_transfer_batch_create ep,
            .schedule (hcd_fill_batch L ep b direction data size setup_data on_complete arg)] ++
          (if hook (hcd_fill_batch L ep b direction data size setup_data on_complete arg) ≠ EOK
           then [.usb_log (.schedule_failed
                  (hook (hcd_fill_batch L ep b direction data size setup_data on_complete arg))),
                 .usb_transfer_batch_destroy
                  (hcd_fill_batch L ep b direction data size setup_data on_complete arg)]
           else []) ++ [.endpoint_del_ref ep]) := by
  simp only [hcd_send_batch, haddr, hfind, Nat.not_lt.mpr hbw, hs, hc, ne_eq,
    not_true_eq_false, if_false]
  split <;> simp

theorem hcd_send_batch_no_wait (E : errno_h) (L : usbhost_lib) (hcd : hcd_t)
    (device : device_t) (target : usb_target_t) (direction : usb_direction_t)
    (data size setup_data : Nat) (on_complete : Option usb_transfer_batch_callback_t)
    (arg : Nat) (ret : Int) (tr : List hcd_action)
    (h : hcd_send_batch E L hcd device target direction data size setup_data on_complete arg
      = some (ret, tr)) :
    ∀ a ∈ tr, a.is_condvar_wait = false ∧ a.is_on_complete = false := by
  by_cases haddr : device.address = target.address
  · rcases hfind : hcd.bus.find_endpoint device target direction with _ | ep
    · simp [hcd_send_batch, haddr, hfind] at h
      obtain ⟨-, rfl⟩ := h
      simp [hcd_action.is_condvar_wait, hcd_action.is_on_complete]
    · by_cases hbw : ep.bandwidth < hcd.bus.count_bw ep size
      · simp [hcd_send_batch, haddr, hfind, hbw] at h
        obtain ⟨-, rfl⟩ := h
        simp [hcd_action.is_condvar_wait, hcd_action.is_on_complete]
      · rcases hs : hcd.schedule with _ | hook
        · simp [hcd_send_batch, haddr, hfind, hbw, hs] at h
          obtain ⟨-, rfl⟩ := h
          simp [hcd_action.is_condvar_wait, hcd_action.is_on_complete]
        · rcases hc : L.usb_transfer_batch_create ep with _ | b
          · simp [hcd_send_batch, haddr, hfind, hbw, hs, hc] at h
            obtain ⟨-, rfl⟩ := h
            simp [hcd_action.is_condvar_wait, hcd_action.is_on_complete]
          · simp [hcd_send_batch, haddr, hfind, hbw, hs, hc] at h
            obtain ⟨-, rfl⟩ := h
            split <;> simp [hcd_action.is_condvar_wait, hcd_action.is_on_complete]
  · simp [hcd_send_batch, haddr] at h

/-- C2: when the endpoint lookup finds nothing, `hcd_send_batch` returns
`ENOENT`; it creates no batch, does not call the scheduling hook and does not
invoke the completion callback. -/
theorem hcd_send_batch_endpoint_not_found (E : errno_h) (L : usbhost_lib) (hcd : hcd_t)
    (device : device_t) (target : usb_target_t) (direction : usb_direction_t)
    (data size setup_data : Nat) (on_complete : Option usb_transfer_batch_callback_t)
    (arg : Nat) (haddr : device.address = target.address)
    (hfind : hcd.bus.find_endpoint device target direction = none) :
    ∃ tr, hcd_send_batch E L hcd device target direction data size setup_data on_complete arg
        = some (E.ENOENT, tr) ∧
      ∀ a ∈ tr, a.is_batch_create = false ∧ a.is_schedule = false ∧
        a.is_on_complete = false := by
  simp [hcd_send_batch, haddr, hfind, hcd_action.is_batch_create, hcd_action.is_schedule,
    hcd_action.is_on_complete]

/-- A submission to endpoint 7, which the sample bus does not know. -/
theorem hcd_send_batch_endpoint_not_found_witness :
    device_sample.address = (⟨1, 7⟩ : usb_target_t).address ∧
    (hcd_sample none).bus.find_endpoint device_sample ⟨1, 7⟩ .USB_DIRECTION_IN = none ∧
    ∃ tr, hcd_send_batch errno_sample lib_sample (hcd_sample none) device_sample ⟨1, 7⟩
        .USB_DIRECTION_IN 0 64 0 (some (.user 0)) 0 = some (errno_sample.ENOENT, tr) ∧
      ∀ a ∈ tr, a.is_batch_create = false ∧ a.is_schedule = false ∧
        a.is_on_complete = false :=
  ⟨rfl, rfl, hcd_send_batch_endpoint_not_found errno_sample lib_sample (hcd_sample none)
    device_sample ⟨1, 7⟩ .USB_DIRECTION_IN 0 64 0 (some (.user 0)) 0 rfl rfl⟩

/-- C3: with a found endpoint whose reserved bandwidth is below what the
transfer needs, `hcd_send_batch` returns `ENOSPC`, whatever the scheduling hook
is, without creating a batch, calling the hook or invoking the completion
callback; with enough reserved bandwidth the bandwidth diagnostic is not
emitted and the returned code is the one of the later stages. -/
theorem hcd_send_batch_bandwidth_check (E : errno_h) (L : usbhost_lib) (hcd : hcd_t)
    (device : device_t) (target : usb_target_t) (direction : usb_direction_t)
    (data size setup_data : Nat) (on_complete : Option usb_transfer_batch_callback_t)
    (arg : Nat) (ep : endpoint_t) (haddr : device.address = target.address)
    (hfind : hcd.bus.find_endpoint device target direction = some ep) :
    (ep.bandwidth < hcd.bus.count_bw ep size →
      ∃ tr, hcd_send_batch E L hcd device target direction data size setup_data on_complete arg
          = some (E.ENOSPC, tr) ∧
        ∀ a ∈ tr, a.is_batch_create = false ∧ a.is_schedule = false ∧
          a.is_on_complete = false) ∧
    (hcd.bus.count_bw ep size ≤ ep.bandwidth →
      ∃ ret tr, hcd_send_batch E L hcd device target direction data size setup_data
          on_complete arg = some (ret, tr) ∧
        (∀ n r, hcd_action.usb_log (.bandwidth_not_reserved n r) ∉ tr) ∧
        (hcd.schedule = none → ret = E.ENOTSUP) ∧
        (∀ hook, hcd.schedule = some hook → L.usb_transfer_batch_create ep = none →
          ret = E.ENOMEM) ∧
        (∀ hook b, hcd.schedule = some hook → L.usb_transfer_batch_create ep = some b →
          ret = hook (hcd_fill_batch L ep b direction data size setup_data on_complete arg))) := by
  constructor
  · intro hbw
    rw [hcd_send_batch_path_bandwidth E L hcd device target direction data size setup_data
      on_complete arg ep haddr hfind hbw]
    exact ⟨_, rfl, by simp [hcd_action.is_batch_create, hcd_action.is_schedule,
      hcd_action.is_on_complete]⟩
  · intro hbw
    rcases hs : hcd.schedule with _ | hook
    · rw [hcd_send_batch_path_no_hook E L hcd device target direction data size setup_data
        on_complete arg ep haddr hfind hbw hs]
      exact ⟨_, _, rfl, by simp, by simp, by simp, by simp⟩
    · rcases hc : L.usb_transfer_batch_create ep with _ | b
      · rw [hcd_send_batch_path_no_batch E L hcd device target direction data size setup_data
          on_complete arg ep hook haddr hfind hbw hs hc]
        exact ⟨_, _, rfl, by simp, by simp, by simp, by simp⟩
      · rw [hcd_send_batch_path_hook E L hcd device target direction data size setup_data
          on_complete arg ep hook b haddr hfind hbw hs hc]
        refine ⟨_, _, rfl, ?_, by simp, by simp, ?_⟩
        · intro n r
          split <;> simp
        · intro hook1 b1 h1 h2
          simp only [Option.some.injEq] at h1 h2
          subst h1 h2
          rfl

/-- A transfer of 4096 bytes on the sample endpoint, which has 1024 reserved. -/
theorem hcd_send_batch_bandwidth_check_witness :
    device_sample.address = (⟨1, 1⟩ : usb_target_t).address ∧
    (hcd_sample none).bus.find_endpoint device_sample ⟨1, 1⟩ .USB_DIRECTION_OUT
      = some ep_sample ∧
    ep_sample.bandwidth < (hcd_sample none).bus.count_bw ep_sample 4096 ∧
    ∃ tr, hcd_send_batch errno_sample lib_sample (hcd_sample none) device_sample ⟨1, 1⟩
        .USB_DIRECTION_OUT 0 4096 0 (some (.user 0)) 0 = some (errno_sample.ENOSPC, tr) ∧
      ∀ a ∈ tr, a.is_batch_create = false ∧ a.is_schedule = false ∧
        a.is_on_complete = false :=
  ⟨rfl, rfl, by decide,
    (hcd_send_batch_bandwidth_check errno_sample lib_sample (hcd_sample none) device_sample
      ⟨1, 1⟩ .USB_DIRECTION_OUT 0 4096 0 (some (.user 0)) 0 ep_sample rfl rfl).1 (by decide)⟩

/-- C4 as stated fails: an installed hook that itself answers `ENOTSUP` makes
`hcd_send_batch` return `ENOTSUP` although a scheduling hook exists, after a
batch was created. -/
theorem hcd_send_batch_ENOTSUP_from_hook :
    (hcd_sample (some fun _ => errno_sample.ENOTSUP)).schedule.isSome = true ∧
    ∃ tr, hcd_send_batch errno_sample lib_sample
        (hcd_sample (some fun _ => errno_sample.ENOTSUP)) device_sample ⟨1, 1⟩
        .USB_DIRECTION_OUT 0 512 0 (some (.user 0)) 0 = some (errno_sample.ENOTSUP, tr) ∧
      hcd_action.usb_transfer_batch_create ep_sample ∈ tr :=
  ⟨rfl, _, rfl, by decide⟩

/-- C4, amended: with a found endpoint, sufficient reserved bandwidth and no
scheduling hook, `hcd_send_batch` returns `ENOTSUP`, creates no batch and
invokes no callback; and whenever it returns `ENOTSUP` the endpoint was found,
its bandwidth sufficed, and either there is no hook or the hook itself
returned `ENOTSUP` for the batch. -/
theorem hcd_send_batch_ENOTSUP (E : errno_h) (L : usbhost_lib) (hcd : hcd_t)
    (device : device_t) (target : usb_target_t) (direction : usb_direction_t)
    (data size setup_data : Nat) (on_complete : Option usb_transfer_batch_callback_t)
    (arg : Nat) (haddr : device.address = target.address) (hE : E.distinct) :
    (∀ ep, hcd.bus.find_endpoint device target direction = some ep →
      hcd.bus.count_bw ep size ≤ ep.bandwidth → hcd.schedule = none →
      ∃ tr, hcd_send_batch E L hcd device target direction data size setup_data on_complete arg
          = some (E.ENOTSUP, tr) ∧
        ∀ a ∈ tr, a.is_batch_create = false ∧ a.is_on_complete = false) ∧
    (∀ tr, hcd_send_batch E L hcd device target direction data size setup_data on_complete arg
        = some (E.ENOTSUP, tr) →
      ∃ ep, hcd.bus.find_endpoint device target direction = some ep ∧
        hcd.bus.count_bw ep size ≤ ep.bandwidth ∧
        (hcd.schedule = none ∨
          ∃ hook b, hcd.schedule = some hook ∧ L.usb_transfer_batch_create ep = some b ∧
            hook (hcd_fill_batch L ep b direction data size setup_data on_complete arg)
              = E.ENOTSUP)) := by
  simp only [errno_h.distinct, List.nodup_cons, List.mem_cons, List.mem_singleton, not_or,
    List.not_mem_nil, not_false_eq_true, List.nodup_nil, and_true] at hE
  obtain ⟨-, ⟨-, h12, -, -, -⟩, ⟨h23, -, -, -⟩, ⟨h34, -, -⟩, -⟩ := hE
  constructor
  · intro ep hfind hbw hs
    rw [hcd_send_batch_path_no_hook E L hcd device target direction data size setup_data
      on_complete arg ep haddr hfind hbw hs]
    exact ⟨_, rfl, by simp [hcd_action.is_batch_create, hcd_action.is_on_complete]⟩
  · intro tr h
    rcases hfind : hcd.bus.find_endpoint device target direction with _ | ep
    · rw [hcd_send_batch_path_not_found E L hcd device target direction data size setup_data
        on_complete arg haddr hfind] at h
      simp only [Option.some.injEq, Prod.mk.injEq] at h
      exact absurd h.1 h12
    · refine ⟨ep, rfl, ?_⟩
      by_cases hbw : ep.bandwidth < hcd.bus.count_bw ep size
      · rw [hcd_send_batch_path_bandwidth E L hcd device target direction data size
          setup_data on_complete arg ep haddr hfind hbw] at h
        simp only [Option.some.injEq, Prod.mk.injEq] at h
        exact absurd h.1.symm h34
      · have hbw1 := Nat.not_lt.mp hbw
        refine ⟨hbw1, ?_⟩
        rcases hs : hcd.schedule with _ | hook
        · exact Or.inl rfl
        · right
          rcases hc : L.usb_transfer_batch_create ep with _ | b
          · rw [hcd_send_batch_path_no_batch E L hcd device target direction data size
              setup_data on_complete arg ep hook haddr hfind hbw1 hs hc] at h
            simp only [Option.some.injEq, Prod.mk.injEq] at h
            exact absurd h.1 h23
          · rw [hcd_send_batch_path_hook E L hcd device target direction data size
              setup_data on_complete arg ep hook b haddr hfind hbw1 hs hc] at h
            simp only [Option.some.injEq, Prod.mk.injEq] at h
            exact ⟨hook, b, rfl, rfl, h.1⟩

/-- A transfer within the reserved bandwidth on a front end without a hook. -/
theorem hcd_send_batch_ENOTSUP_witness :
    device_sample.address = (⟨1, 1⟩ : usb_target_t).address ∧ errno_sample.distinct ∧
    ∃ tr, hcd_send_batch errno_sample lib_sample (hcd_sample none) device_sample ⟨1, 1⟩
        .USB_DIRECTION_OUT 0 512 0 (some (.user 0)) 0 = some (errno_sample.ENOTSUP, tr) ∧
      ∀ a ∈ tr, a.is_batch_create = false ∧ a.is_on_complete = false :=
  ⟨rfl, by decide,
    (hcd_send_batch_ENOTSUP errno_sample lib_sample (hcd_sample none) device_sample ⟨1, 1⟩
      .USB_DIRECTION_OUT 0 512 0 (some (.user 0)) 0 rfl (by decide)).1 ep_sample rfl
      (by decide) rfl⟩

/-- C5: when `hcd_send_batch` reaches the scheduling hook, it returns exactly
the code of the hook and never invokes the completion callback itself; a code
other than `EOK` makes it destroy the batch, and with `EOK` the batch is not
destroyed. -/
theorem hcd_send_batch_hook_result (E : errno_h) (L : usbhost_lib) (hcd : hcd_t)
    (device : device_t) (target : usb_target_t) (direction : usb_direction_t)
    (data size setup_data : Nat) (on_complete : Option usb_transfer_batch_callback_t)
    (arg : Nat) (ep : endpoint_t) (hook : usb_transfer_batch_t → Int)
    (b : usb_transfer_batch_t) (haddr : device.address = target.address)
    (hfind : hcd.bus.find_endpoint device target direction = some ep)
    (hbw : hcd.bus.count_bw ep size ≤ ep.bandwidth) (hs : hcd.schedule = some hook)
    (hc : L.usb_transfer_batch_create ep = some b) :
    ∃ tr, hcd_send_batch E L hcd device target direction data size setup_data on_complete arg
        = some (hook (hcd_fill_batch L ep b direction data size setup_data on_complete arg),
            tr) ∧
      hcd_action.schedule
        (hcd_fill_batch L ep b direction data size setup_data on_complete arg) ∈ tr ∧
      (∀ a ∈ tr, a.is_on_complete = false) ∧
      (hook (hcd_fill_batch L ep b direction data size setup_data on_complete arg) ≠ EOK →
        hcd_action.usb_transfer_batch_destroy
          (hcd_fill_batch L ep b direction data size setup_data on_complete arg) ∈ tr) ∧
      (hook (hcd_fill_batch L ep b direction data size setup_data on_complete arg) = EOK →
        ∀ a ∈ tr, a.is_batch_destroy = false) := by
  rw [hcd_send_batch_path_hook E L hcd device target direction data size setup_data
    on_complete arg ep hook b haddr hfind hbw hs hc]
  refine ⟨_, rfl, by simp, ?_, ?_, ?_⟩
  · split <;> simp [hcd_action.is_on_complete]
  · intro h
    simp [h]
  · intro h
    simp [h, hcd_action.is_batch_destroy]

/-- A hook that refuses the batch with `EINVAL`. -/
theorem hcd_send_batch_hook_result_witness :
    device_sample.address = (⟨1, 1⟩ : usb_target_t).address ∧
    (hcd_sample (some fun _ => errno_sample.EINVAL)).bus.find_endpoint device_sample ⟨1, 1⟩
      .USB_DIRECTION_OUT = some ep_sample ∧
    (hcd_sample (some fun _ => errno_sample.EINVAL)).bus.count_bw ep_sample 512
      ≤ ep_sample.bandwidth ∧
    ∃ tr, hcd_send_batch errno_sample lib_sample
        (hcd_sample (some fun _ => errno_sample.EINVAL)) device_sample ⟨1, 1⟩
        .USB_DIRECTION_OUT 0 512 0 (some (.user 0)) 0 = some (errno_sample.EINVAL, tr) ∧
      hcd_action.usb_transfer_batch_destroy (hcd_fill_batch lib_sample ep_sample
        (batch_sample ep_sample) .USB_DIRECTION_OUT 0 512 0 (some (.user 0)) 0) ∈ tr ∧
      ∀ a ∈ tr, a.is_on_complete = false :=
  ⟨rfl, rfl, by decide,
    match hcd_send_batch_hook_result errno_sample lib_sample
      (hcd_sample (some fun _ => errno_sample.EINVAL)) device_sample ⟨1, 1⟩
      .USB_DIRECTION_OUT 0 512 0 (some (.user 0)) 0 ep_sample (fun _ => errno_sample.EINVAL)
      (batch_sample ep_sample) rfl rfl (by decide) rfl rfl with
    | ⟨tr, h1, _, h3, h4, _⟩ => ⟨tr, h1, h4 (by decide), h3⟩⟩

/-- C6: once `hcd_send_batch` has called the scheduling hook, it drops the
reference to the endpoint exactly once, as its last action, after the call of
the hook and whatever code the hook returned. -/
theorem hcd_send_batch_del_ref_once (E : errno_h) (L : usbhost_lib) (hcd : hcd_t)
    (device : device_t) (target : usb_target_t) (direction : usb_direction_t)
    (data size setup_data : Nat) (on_complete : Option usb_transfer_batch_callback_t)
    (arg : Nat) (ep : endpoint_t) (hook : usb_transfer_batch_t → Int)
    (b : usb_transfer_batch_t) (haddr : device.address = target.address)
    (hfind : hcd.bus.find_endpoint device target direction = some ep)
    (hbw : hcd.bus.count_bw ep size ≤ ep.bandwidth) (hs : hcd.schedule = some hook)
    (hc : L.usb_transfer_batch_create ep = some b) :
    ∃ ret pre, hcd_send_batch E L hcd device target direction data size setup_data
        on_complete arg = some (ret, pre ++ [.endpoint_del_ref ep]) ∧
      hcd_action.schedule
        (hcd_fill_batch L ep b direction data size setup_data on_complete arg) ∈ pre ∧
      (∀ a ∈ pre, a.is_del_ref = false) ∧
      (pre ++ [hcd_action.endpoint_del_ref ep]).countP hcd_action.is_del_ref = 1 := by
  rw [hcd_send_batch_path_hook E L hcd device target direction data size setup_data
    on_complete arg ep hook b haddr hfind hbw hs hc]
  refine ⟨_, _, rfl, by simp, ?_, ?_⟩
  · split <;> simp [hcd_action.is_del_ref]
  · split <;> simp [hcd_action.is_del_ref, List.countP_cons]

/-- A hook that accepts the batch. -/
theorem hcd_send_batch_del_ref_once_witness :
    device_sample.address = (⟨1, 1⟩ : usb_target_t).address ∧
    (hcd_sample (some fun _ => EOK)).bus.find_endpoint device_sample ⟨1, 1⟩
      .USB_DIRECTION_OUT = some ep_sample ∧
    (hcd_sample (some fun _ => EOK)).bus.count_bw ep_sample 512 ≤ ep_sample.bandwidth ∧
    ∃ ret pre, hcd_send_batch errno_sample lib_sample (hcd_sample (some fun _ => EOK))
        device_sample ⟨1, 1⟩ .USB_DIRECTION_OUT 0 512 0 (some (.user 0)) 0
        = some (ret, pre ++ [.endpoint_del_ref ep_sample]) ∧
      hcd_action.schedule (hcd_fill_batch lib_sample ep_sample (batch_sample ep_sample)
        .USB_DIRECTION_OUT 0 512 0 (some (.user 0)) 0) ∈ pre ∧
      (∀ a ∈ pre, a.is_del_ref = false) ∧
      (pre ++ [hcd_action.endpoint_del_ref ep_sample]).countP hcd_action.is_del_ref = 1 :=
  ⟨rfl, rfl, by decide,
    hcd_send_batch_del_ref_once errno_sample lib_sample (hcd_sample (some fun _ => EOK))
      device_sample ⟨1, 1⟩ .USB_DIRECTION_OUT 0 512 0 (some (.user 0)) 0 ep_sample
      (fun _ => EOK) (batch_sample ep_sample) rfl rfl (by decide) rfl rfl⟩

/-- C7: when the submission made by `hcd_send_batch_sync` fails with a code
other than `EOK`, the adapter returns exactly that code and never waits on the
completion condition. -/
theorem hcd_send_batch_sync_submit_failed (w : Nat) (E : errno_h) (L : usbhost_lib)
    (hcd : hcd_t) (device : device_t) (target : usb_target_t) (direction : usb_direction_t)
    (data size setup_data : Nat) (early : Option (Nat × Int)) (wakeups : List wakeup)
    (ret : Int) (tr : List hcd_action)
    (h : hcd_send_batch E L hcd device target direction data size setup_data
      (some .sync_transfer_complete) 0 = some (ret, tr))
    (hret : ret ≠ EOK) :
    hcd_send_batch_sync w E L hcd device target direction data size setup_data early wakeups
      = .returned ret tr ∧
    ∀ a ∈ tr, a.is_condvar_wait = false := by
  constructor
  · simp [hcd_send_batch_sync, h, hret]
  · intro a ha
    exact (hcd_send_batch_no_wait E L hcd device target direction data size setup_data _ _
      ret tr h a ha).1

/-- A synchronous transfer that exceeds the reserved bandwidth. -/
theorem hcd_send_batch_sync_submit_failed_witness :
    hcd_send_batch errno_sample lib_sample (hcd_sample none) device_sample ⟨1, 1⟩
      .USB_DIRECTION_OUT 0 4096 0 (some .sync_transfer_complete) 0
      = some (errno_sample.ENOSPC, [.bus_find_endpoint device_sample ⟨1, 1⟩ .USB_DIRECTION_OUT,
          .usb_log (.bandwidth_not_reserved 4096 1024)]) ∧
    errno_sample.ENOSPC ≠ EOK ∧
    hcd_send_batch_sync 64 errno_sample lib_sample (hcd_sample none) device_sample ⟨1, 1⟩
      .USB_DIRECTION_OUT 0 4096 0 none [.completed 0 0]
      = .returned errno_sample.ENOSPC [.bus_find_endpoint device_sample ⟨1, 1⟩
          .USB_DIRECTION_OUT, .usb_log (.bandwidth_not_reserved 4096 1024)] :=
  ⟨rfl, by decide,
    (hcd_send_batch_sync_submit_failed 64 errno_sample lib_sample (hcd_sample none)
      device_sample ⟨1, 1⟩ .USB_DIRECTION_OUT 0 4096 0 none [.completed 0 0]
      errno_sample.ENOSPC _ rfl (by decide)).1⟩

theorem sync_wait_first_completion (batch : usb_transfer_batch_t) (t : Nat) (e : Int) :
    ∀ (ws : List wakeup) (sd : sync_data_t), sd.done = 0 →
      first_completion none ws = some (t, e) →
      ∃ n, sync_wait batch ws sd = some ({ done := 1, transfered_size := t, error := e }, n) := by
  intro ws
  induction ws with
  | nil => intro sd _ h; simp [first_completion] at h
  | cons w ws ih =>
    intro sd hsd h
    cases w with
    | spurious =>
      simp only [first_completion] at h
      obtain ⟨n, hn⟩ := ih sd hsd h
      exact ⟨n + 1, by simp [sync_wait, hsd, wakeup.apply, hn]⟩
    | completed t1 e1 =>
      simp only [first_completion, Option.some.injEq, Prod.mk.injEq] at h
      obtain ⟨rfl, rfl⟩ := h
      refine ⟨1, ?_⟩
      cases ws <;> simp [sync_wait, hsd, wakeup.apply, sync_transfer_complete]

theorem size_to_ssize_small (w t : Nat) (ht : t < 2 ^ (w - 1)) : size_to_ssize w t = (t : Int) := by
  have h1 : 2 ^ (w - 1) ≤ 2 ^ w := Nat.pow_le_pow_right (by decide) (Nat.sub_le w 1)
  have h2 : t % 2 ^ w = t := Nat.mod_eq_of_lt (lt_of_lt_of_le ht h1)
  simp [size_to_ssize, h2, ht]

@[simp] theorem emit_max_ports (s : xhci_rh_t) (a : rh_action) :
    (s.emit a).max_ports = s.max_ports := rfl

@[simp] theorem emit_portsc (s : xhci_rh_t) (a : rh_action) :
    (s.emit a).portsc = s.portsc := rfl

@[simp] theorem upd_dev_max_ports (s : xhci_rh_t) (d : Nat) (f : xhci_device_t → xhci_device_t) :
    (s.upd_dev d f).max_ports = s.max_ports := rfl

@[simp] theorem upd_dev_portsc (s : xhci_rh_t) (d : Nat) (f : xhci_device_t → xhci_device_t) :
    (s.upd_dev d f).portsc = s.portsc := rfl

@[simp] theorem upd_dev_port_events (s : xhci_rh_t) (d : Nat) (f : xhci_device_t → xhci_device_t) :
    (s.upd_dev d f).port_events = s.port_events := rfl

@[simp] theorem dcbaa_store_max_ports (s : xhci_rh_t) (a b : Nat) :
    (s.dcbaa_store a b).max_ports = s.max_ports := rfl

@[simp] theorem dcbaa_store_portsc (s : xhci_rh_t) (a b : Nat) :
    (s.dcbaa_store a b).portsc = s.portsc := rfl

@[simp] theorem dcbaa_store_port_events (s : xhci_rh_t) (a b : Nat) :
    (s.dcbaa_store a b).port_events = s.port_events := rfl

@[simp] theorem devices_store_max_ports (s : xhci_rh_t) (a : Nat) (b : Option Nat) :
    (s.devices_store a b).max_ports = s.max_ports := rfl

@[simp] theorem devices_store_portsc (s : xhci_rh_t) (a : Nat) (b : Option Nat) :
    (s.devices_store a b).portsc = s.portsc := rfl

@[simp] theorem devices_store_port_events (s : xhci_rh_t) (a : Nat) (b : Option Nat) :
    (s.devices_store a b).port_events = s.port_events := rfl

@[simp] theorem attach_max_ports (s : xhci_rh_t) (a : Nat) :
    (s.attach a).max_ports = s.max_ports := rfl

@[simp] theorem attach_portsc (s : xhci_rh_t) (a : Nat) :
    (s.attach a).portsc = s.portsc := rfl

@[simp] theorem attach_port_events (s : xhci_rh_t) (a : Nat) :
    (s.attach a).port_events = s.port_events := rfl

@[simp] theorem detach_max_ports (s : xhci_rh_t) (a : Nat) :
    (s.detach a).max_ports = s.max_ports := rfl

@[simp] theorem detach_portsc (s : xhci_rh_t) (a : Nat) :
    (s.detach a).portsc = s.portsc := rfl

@[simp] theorem detach_port_events (s : xhci_rh_t) (a : Nat) :
    (s.detach a).port_events = s.port_events := rfl

@[simp] theorem alloc_dev_max_ports (s : xhci_rh_t) (a : xhci_device_t) :
    (s.alloc_dev a).max_ports = s.max_ports := rfl

@[simp] theorem alloc_dev_portsc (s : xhci_rh_t) (a : xhci_device_t) :
    (s.alloc_dev a).portsc = s.portsc := rfl

@[simp] theorem alloc_dev_port_events (s : xhci_rh_t) (a : xhci_device_t) :
    (s.alloc_dev a).port_events = s.port_events := rfl

@[simp] theorem destroy_max_ports (s : xhci_rh_t) (a : Nat) :
    (s.destroy a).max_ports = s.max_ports := rfl

@[simp] theorem destroy_portsc (s : xhci_rh_t) (a : Nat) :
    (s.destroy a).portsc = s.portsc := rfl

@[simp] theorem destroy_port_events (s : xhci_rh_t) (a : Nat) :
    (s.destroy a).port_events = s.port_events := rfl

@[simp] theorem emit_port_events (s : xhci_rh_t) (a : rh_action) :
    (s.emit a).port_events = s.port_events ++ (if a.is_port_event then [a] else []) := by
  simp only [xhci_rh_t.port_events, xhci_rh_t.emit, List.filter_append]
  cases h : a.is_port_event <;> simp [List.filter, h]

@[simp] theorem emit_portsc_rd (s : xhci_rh_t) (a : rh_action) (i : Nat) :
    (s.emit a).portsc_rd i = s.portsc_rd i := rfl

@[simp] theorem emit_get_port_speed (X : xhci_ext) (s : xhci_rh_t) (a : rh_action) (i : Nat) :
    xhci_rh_get_port_speed X (s.emit a) i = xhci_rh_get_port_speed X s i := rfl

@[simp] theorem emit_port_link_state (X : xhci_ext) (s : xhci_rh_t) (a : rh_action) (i : Nat) :
    port_link_state X (s.emit a) i = port_link_state X s i := rfl

@[simp] theorem portsc_wr_max_ports (X : xhci_ext) (s : xhci_rh_t) (i v : Nat) :
    (s.portsc_wr X i v).max_ports = s.max_ports := rfl

@[simp] theorem portsc_wr_port_events (X : xhci_ext) (s : xhci_rh_t) (i v : Nat) :
    (s.portsc_wr X i v).port_events = s.port_events := rfl

theorem portsc_wr_ports_except (X : xhci_ext) (s : xhci_rh_t) (i v : Nat) :
    ports_except i s (s.portsc_wr X i v) := by
  refine ⟨rfl, by simp [xhci_rh_t.portsc_wr], ?_⟩
  intro k hk
  simp only [xhci_rh_t.portsc_wr, List.getD_eq_getElem?_getD]
  rw [List.getElem?_set_ne (Ne.symm hk)]

theorem ports_except_refl (i : Nat) (s : xhci_rh_t) : ports_except i s s :=
  ⟨rfl, rfl, fun _ _ => rfl⟩

theorem ports_except_trans {i : Nat} {s s1 s2 : xhci_rh_t} (h1 : ports_except i s s1)
    (h2 : ports_except i s1 s2) : ports_except i s s2 :=
  ⟨h2.1.trans h1.1, h2.2.1.trans h1.2.1, fun k hk => (h2.2.2 k hk).trans (h1.2.2 k hk)⟩

theorem ports_except_of_eq (i : Nat) (s s1 : xhci_rh_t) (h1 : s1.max_ports = s.max_ports)
    (h2 : s1.portsc = s.portsc) : ports_except i s s1 :=
  ⟨h1, by rw [h2], fun k _ => by rw [h2]⟩

theorem same_ports_trans {s s1 s2 : xhci_rh_t} {e1 e2 : List rh_action}
    (h1 : same_ports s s1 e1) (h2 : same_ports s1 s2 e2) : same_ports s s2 (e1 ++ e2) := by
  obtain ⟨a1, b1, c1⟩ := h1
  obtain ⟨a2, b2, c2⟩ := h2
  exact ⟨a2.trans a1, b2.trans b1, by rw [c2, c1, List.append_assoc]⟩

theorem same_ports_trans_nil {s s1 s2 : xhci_rh_t} (h1 : same_ports s s1 [])
    (h2 : same_ports s1 s2 []) : same_ports s s2 [] :=
  same_ports_trans h1 h2

theorem bus_register_endpoint_ports (X : xhci_ext) (s : xhci_rh_t) (dev : Nat)
    (desc : usb_endpoint_desc_t) : same_ports s (bus_register_endpoint X s dev desc).2 [] := by
  unfold bus_register_endpoint same_ports
  simp only []
  split <;> simp [rh_action.is_port_event]

@[simp] theorem bus_register_endpoint_max_ports (X : xhci_ext) (s : xhci_rh_t) (dev : Nat)
    (desc : usb_endpoint_desc_t) :
    ((bus_register_endpoint X s dev desc).2).max_ports = s.max_ports :=
  (bus_register_endpoint_ports X s dev desc).1

@[simp] theorem bus_register_endpoint_portsc (X : xhci_ext) (s : xhci_rh_t) (dev : Nat)
    (desc : usb_endpoint_desc_t) :
    ((bus_register_endpoint X s dev desc).2).portsc = s.portsc :=
  (bus_register_endpoint_ports X s dev desc).2.1

@[simp] theorem bus_register_endpoint_port_events (X : xhci_ext) (s : xhci_rh_t) (dev : Nat)
    (desc : usb_endpoint_desc_t) :
    ((bus_register_endpoint X s dev desc).2).port_events = s.port_events :=
  by simpa using (bus_register_endpoint_ports X s dev desc).2.2

theorem bus_unregister_endpoint_ports (X : xhci_ext) (s : xhci_rh_t) (dev ep : Nat) :
    same_ports s (bus_unregister_endpoint X s dev ep).2 [] := by
  unfold bus_unregister_endpoint same_ports
  simp only []
  split <;> simp [rh_action.is_port_event]

@[simp] theorem bus_unregister_endpoint_max_ports (X : xhci_ext) (s : xhci_rh_t) (dev ep : Nat) :
    ((bus_unregister_endpoint X s dev ep).2).max_ports = s.max_ports :=
  (bus_unregister_endpoint_ports X s dev ep).1

@[simp] theorem bus_unregister_endpoint_portsc (X : xhci_ext) (s : xhci_rh_t) (dev ep : Nat) :
    ((bus_unregister_endpoint X s dev ep).2).portsc = s.portsc :=
  (bus_unregister_endpoint_ports X s dev ep).2.1

@[simp] theorem bus_unregister_endpoint_port_events (X : xhci_ext) (s : xhci_rh_t) (dev ep : Nat) :
    ((bus_unregister_endpoint X s dev ep).2).port_events = s.port_events :=
  by simpa using (bus_unregister_endpoint_ports X s dev ep).2.2

theorem address_publish_ports (X : xhci_ext) (s : xhci_rh_t) (dev port : Nat) :
    same_ports s (address_publish X s dev port) [] := by
  unfold address_publish
  simp only []
  split <;> simp [same_ports, rh_action.is_port_event]

theorem xhci_rh_address_device_ports (E : errno_h) (X : xhci_ext) (s : xhci_rh_t) (dev : Nat) :
    same_ports s (xhci_rh_address_device E X s dev).2 [] := by
  unfold xhci_rh_address_device
  simp only []
  split
  · simp [same_ports, rh_action.is_port_event]
  · split
    · simp [same_ports, rh_action.is_port_event]
    · split
      · simp [same_ports, rh_action.is_port_event, address_err_ep]
      · split
        · simp [same_ports, rh_action.is_port_event, address_err_ep, address_err_ds]
        · split
          · simp [same_ports, rh_action.is_port_event, address_err_ep, address_err_ds,
              address_err_dctx]
          · have h := address_publish_ports X
            simp only [same_ports] at h ⊢
            simp [rh_action.is_port_event, h]

@[simp] theorem xhci_rh_address_device_max_ports (E : errno_h) (X : xhci_ext) (s : xhci_rh_t) (dev : Nat) :
    ((xhci_rh_address_device E X s dev).2).max_ports = s.max_ports :=
  (xhci_rh_address_device_ports E X s dev).1

@[simp] theorem xhci_rh_address_device_portsc (E : errno_h) (X : xhci_ext) (s : xhci_rh_t) (dev : Nat) :
    ((xhci_rh_address_device E X s dev).2).portsc = s.portsc :=
  (xhci_rh_address_device_ports E X s dev).2.1

@[simp] theorem xhci_rh_address_device_port_events (E : errno_h) (X : xhci_ext) (s : xhci_rh_t) (dev : Nat) :
    ((xhci_rh_address_device E X s dev).2).port_events = s.port_events :=
  by simpa using (xhci_rh_address_device_ports E X s dev).2.2

theorem rh_setup_device_ports (E : errno_h) (X : xhci_ext) (s : xhci_rh_t) (port_id : Nat) :
    same_ports s (rh_setup_device E X s port_id).2 [.hcd_ddf_device_create port_id] := by
  unfold rh_setup_device
  simp only [xhci_bus_enumerate_device, hcd_ddf_device_destroy]
  split
  · simp [same_ports, rh_action.is_port_event]
  · split
    · simp [same_ports, rh_action.is_port_event]
    · split <;> split <;> simp [same_ports, rh_action.is_port_event]

@[simp] theorem rh_setup_device_max_ports (E : errno_h) (X : xhci_ext) (s : xhci_rh_t) (port_id : Nat) :
    ((rh_setup_device E X s port_id).2).max_ports = s.max_ports :=
  (rh_setup_device_ports E X s port_id).1

@[simp] theorem rh_setup_device_portsc (E : errno_h) (X : xhci_ext) (s : xhci_rh_t) (port_id : Nat) :
    ((rh_setup_device E X s port_id).2).portsc = s.portsc :=
  (rh_setup_device_ports E X s port_id).2.1

@[simp] theorem rh_setup_device_port_events (E : errno_h) (X : xhci_ext) (s : xhci_rh_t) (port_id : Nat) :
    ((rh_setup_device E X s port_id).2).port_events = s.port_events ++ [.hcd_ddf_device_create port_id] :=
  (rh_setup_device_ports E X s port_id).2.2

theorem abort_active_transfers_ports (X : xhci_ext) (dev : Nat) :
    ∀ (eps : List (Option endpoint_t)) (i : Nat) (s : xhci_rh_t),
      same_ports s (abort_active_transfers X dev eps i s) [] := by
  intro eps
  induction eps with
  | nil => intro i s; simp [abort_active_transfers, same_ports]
  | cons ep eps ih =>
    intro i s
    cases ep with
    | none => simpa [abort_active_transfers] using ih (i + 1) s
    | some ep =>
      simp only [abort_active_transfers]
      split
      · exact ih (i + 1) s
      · refine same_ports_trans_nil ?_ (ih (i + 1) _)
        split <;> simp [same_ports, rh_action.is_port_event]

@[simp] theorem abort_active_transfers_max_ports (X : xhci_ext) (dev : Nat) (eps : List (Option endpoint_t))
    (i : Nat) (s : xhci_rh_t) :
    (abort_active_transfers X dev eps i s).max_ports = s.max_ports :=
  (abort_active_transfers_ports X dev eps i s).1

@[simp] theorem abort_active_transfers_portsc (X : xhci_ext) (dev : Nat) (eps : List (Option endpoint_t))
    (i : Nat) (s : xhci_rh_t) :
    (abort_active_transfers X dev eps i s).portsc = s.portsc :=
  (abort_active_transfers_ports X dev eps i s).2.1

@[simp] theorem abort_active_transfers_port_events (X : xhci_ext) (dev : Nat) (eps : List (Option endpoint_t))
    (i : Nat) (s : xhci_rh_t) :
    (abort_active_transfers X dev eps i s).port_events = s.port_events :=
  by simpa using (abort_active_transfers_ports X dev eps i s).2.2

theorem teardown_step_ports (s : xhci_rh_t) (a : rh_action) (f : xhci_rh_t → Int)
    (msg : Int → rh_msg) (ha : a.is_port_event = false) :
    same_ports s (teardown_step s a f msg) [] := by
  unfold teardown_step
  simp only []
  split
  · simp only [same_ports, emit_max_ports, emit_portsc, emit_port_events, ha]
    simp [rh_action.is_port_event]
  · simp only [same_ports, emit_max_ports, emit_portsc, emit_port_events, ha]
    simp

theorem disconnect_unpublish_ports (s : xhci_rh_t) (port_id dev : Nat) :
    same_ports s (disconnect_unpublish s port_id dev) [] := by
  simp [disconnect_unpublish, same_ports, rh_action.is_port_event]

theorem disconnect_teardown_ports (X : xhci_ext) (s : xhci_rh_t) (dev : Nat) :
    same_ports s (disconnect_teardown X s dev) [] := by
  have h1 := fun s a f msg ha => (teardown_step_ports s a f msg ha).1
  have h2 := fun s a f msg ha => (teardown_step_ports s a f msg ha).2.1
  have h3 := fun s a f msg ha => (teardown_step_ports s a f msg ha).2.2
  unfold disconnect_teardown
  simp only [hcd_ddf_device_destroy, same_ports]
  split <;> simp [rh_action.is_port_event, h1, h2, h3]

theorem handle_disconnected_device_ports (X : xhci_ext) (s : xhci_rh_t) (port_id : Nat) :
    same_ports s (handle_disconnected_device X s port_id).2 [] := by
  unfold handle_disconnected_device
  split
  · simp [same_ports]
  · exact same_ports_trans_nil (disconnect_unpublish_ports s port_id _)
      (disconnect_teardown_ports X _ _)

@[simp] theorem handle_disconnected_device_max_ports (X : xhci_ext) (s : xhci_rh_t) (port_id : Nat) :
    ((handle_disconnected_device X s port_id).2).max_ports = s.max_ports :=
  (handle_disconnected_device_ports X s port_id).1

@[simp] theorem handle_disconnected_device_portsc (X : xhci_ext) (s : xhci_rh_t) (port_id : Nat) :
    ((handle_disconnected_device X s port_id).2).portsc = s.portsc :=
  (handle_disconnected_device_ports X s port_id).2.1

@[simp] theorem handle_disconnected_device_port_events (X : xhci_ext) (s : xhci_rh_t) (port_id : Nat) :
    ((handle_disconnected_device X s port_id).2).port_events = s.port_events :=
  by simpa using (handle_disconnected_device_ports X s port_id).2.2

theorem land_land_ne_zero (x m b : Nat) (h : (x &&& m) &&& b ≠ 0) : x &&& b ≠ 0 := by
  intro h0
  apply h
  rw [Nat.land_assoc, Nat.land_comm m b, ← Nat.land_assoc, h0]
  simp

theorem clear_mask32_land_ne_zero (x m b : Nat) (h : clear_mask32 x m &&& b ≠ 0) :
    x &&& b ≠ 0 :=
  land_land_ne_zero x _ b h

theorem port_change_mask_land_CSC (P : xhci_port_layout) (x : Nat) :
    (x &&& port_change_mask P) &&& XHCI_REG_MASK P.CSC = x &&& XHCI_REG_MASK P.CSC := by
  apply Nat.eq_of_testBit_eq
  intro j
  simp only [port_change_mask, Nat.testBit_land, Nat.testBit_lor]
  cases (XHCI_REG_MASK P.CSC).testBit j <;> simp

theorem xhci_rh_reset_port_ports_except (X : xhci_ext) (s : xhci_rh_t) (port : Nat) :
    ports_except port s (xhci_rh_reset_port X s port).2 := by
  unfold xhci_rh_reset_port
  exact ports_except_trans (ports_except_of_eq port _ _ rfl rfl) (portsc_wr_ports_except X _ port _)

@[simp] theorem xhci_rh_reset_port_port_events (X : xhci_ext) (s : xhci_rh_t) (port : Nat) :
    (xhci_rh_reset_port X s port).2.port_events = s.port_events ++ [.reg_set_PR port] := by
  simp [xhci_rh_reset_port, rh_action.is_port_event]

theorem handle_connected_device_ports_except (E : errno_h) (X : xhci_ext) (s : xhci_rh_t)
    (port_id : Nat) : ports_except port_id s (handle_connected_device E X s port_id).2 := by
  unfold handle_connected_device
  simp only []
  split
  · split
    · exact ports_except_of_eq port_id _ _ (by simp) (by simp)
    · split <;> exact ports_except_of_eq port_id _ _ (by simp) (by simp)
  · exact ports_except_trans (ports_except_of_eq port_id s ((s.emit _).emit _) rfl rfl)
      (xhci_rh_reset_port_ports_except X _ port_id)

/-- The port events of `handle_connected_device`: an enumeration on a USB3
port in link state 0, nothing on a USB3 port in another link state, a port
reset on any other port. -/
theorem handle_connected_device_port_events (E : errno_h) (X : xhci_ext) (s : xhci_rh_t)
    (port_id : Nat) :
    (handle_connected_device E X s port_id).2.port_events = s.port_events ++
      (if (xhci_rh_get_port_speed X s port_id).major = 3 then
        (if port_link_state X s port_id = 0 then [.hcd_ddf_device_create port_id] else [])
       else [.reg_set_PR port_id]) := by
  unfold handle_connected_device
  simp only []
  split
  · split
    · simp [rh_action.is_port_event]
    · split <;> simp [rh_action.is_port_event]
  · simp [rh_action.is_port_event]

theorem port_change_flag_ports (events b : Nat) (msg : rh_msg) (s : xhci_rh_t) :
    same_ports s (port_change_flag events b msg s).2 [] := by
  unfold port_change_flag
  split <;> simp [same_ports, rh_action.is_port_event]

@[simp] theorem port_change_flag_max_ports (events b : Nat) (msg : rh_msg) (s : xhci_rh_t) :
    (port_change_flag events b msg s).2.max_ports = s.max_ports :=
  (port_change_flag_ports events b msg s).1

@[simp] theorem port_change_flag_portsc (events b : Nat) (msg : rh_msg) (s : xhci_rh_t) :
    (port_change_flag events b msg s).2.portsc = s.portsc :=
  (port_change_flag_ports events b msg s).2.1

@[simp] theorem port_change_flag_port_events (events b : Nat) (msg : rh_msg) (s : xhci_rh_t) :
    (port_change_flag events b msg s).2.port_events = s.port_events := by
  simpa using (port_change_flag_ports events b msg s).2.2

theorem port_change_flag_events (events b : Nat) (msg : rh_msg) (s : xhci_rh_t) (x : Nat)
    (h : (port_change_flag events b msg s).1 &&& x ≠ 0) : events &&& x ≠ 0 := by
  unfold port_change_flag at h
  split at h
  · exact clear_mask32_land_ne_zero _ _ _ h
  · exact h

theorem port_change_ack_ports_except (X : xhci_ext) (s : xhci_rh_t) (i : Nat) :
    ports_except i s (port_change_ack X s i) := by
  unfold port_change_ack
  exact ports_except_trans (ports_except_of_eq i s (s.emit _) rfl rfl)
    (portsc_wr_ports_except X _ i _)

@[simp] theorem port_change_ack_port_events (X : xhci_ext) (s : xhci_rh_t) (i : Nat) :
    (port_change_ack X s i).port_events = s.port_events := by
  simp [port_change_ack, rh_action.is_port_event]

theorem port_change_csc_ports_except (E : errno_h) (X : xhci_ext) (events : Nat)
    (s : xhci_rh_t) (i : Nat) : ports_except i s (port_change_csc E X events s i).2 := by
  unfold port_change_csc
  simp only []
  split
  · split
    · exact ports_except_trans (ports_except_of_eq i s (s.emit _) rfl rfl)
        (handle_connected_device_ports_except E X _ i)
    · exact ports_except_of_eq i _ _ (by simp) (by simp)
  · exact ports_except_refl i s

theorem port_change_csc_events (E : errno_h) (X : xhci_ext) (events : Nat) (s : xhci_rh_t)
    (i x : Nat) (h : (port_change_csc E X events s i).1 &&& x ≠ 0) : events &&& x ≠ 0 := by
  unfold port_change_csc at h
  simp only [] at h
  split at h
  · split at h <;> exact clear_mask32_land_ne_zero _ _ _ h
  · exact h

/-- The port events of the connect-status-change stage. -/
theorem port_change_csc_port_events (E : errno_h) (X : xhci_ext) (events : Nat)
    (s : xhci_rh_t) (i : Nat) :
    (port_change_csc E X events s i).2.port_events = s.port_events ++
      (if events &&& XHCI_REG_MASK X.layout.CSC ≠ 0 ∧
          XHCI_REG_RD_FLAG (s.portsc_rd i) X.layout.CCS ≠ 0 then
        (if (xhci_rh_get_port_speed X s i).major = 3 then
          (if port_link_state X s i = 0 then [.hcd_ddf_device_create i] else [])
         else [.reg_set_PR i])
       else []) := by
  unfold port_change_csc
  simp only []
  by_cases h1 : events &&& XHCI_REG_MASK X.layout.CSC ≠ 0
  · by_cases h2 : XHCI_REG_RD_FLAG (s.portsc_rd i) X.layout.CCS ≠ 0
    · simp only [h1, h2, emit_portsc_rd, if_true, and_self, ne_eq, not_false_eq_true]
      rw [handle_connected_device_port_events]
      simp [rh_action.is_port_event]
    · simp only [h1, h2, emit_portsc_rd, if_true, if_false, and_false, ne_eq,
        not_false_eq_true]
      simp [rh_action.is_port_event]
  · simp [h1]

theorem port_change_prc_events (E : errno_h) (X : xhci_ext) (events : Nat) (s : xhci_rh_t)
    (i x : Nat) (h : (port_change_prc E X events s i).1 &&& x ≠ 0) : events &&& x ≠ 0 := by
  unfold port_change_prc at h
  simp only [] at h
  split at h
  · split at h <;> exact clear_mask32_land_ne_zero _ _ _ h
  · exact h

/-- The port events of the port-reset-change stage. -/
theorem port_change_prc_ports (E : errno_h) (X : xhci_ext) (events : Nat) (s : xhci_rh_t)
    (i : Nat) :
    same_ports s (port_change_prc E X events s i).2
      (if events &&& XHCI_REG_MASK X.layout.PRC ≠ 0 ∧ (xhci_rh_get_port_speed X s i).major ≠ 3
       then [.hcd_ddf_device_create i] else []) := by
  unfold port_change_prc
  simp only []
  by_cases h1 : events &&& XHCI_REG_MASK X.layout.PRC ≠ 0
  · by_cases h2 : (xhci_rh_get_port_speed X s i).major ≠ 3
    · simp [same_ports, h1, h2, rh_action.is_port_event]
    · simp [same_ports, h1, h2, rh_action.is_port_event]
  · simp [same_ports, h1]

@[simp] theorem port_change_prc_max_ports (E : errno_h) (X : xhci_ext) (events : Nat)
    (s : xhci_rh_t) (i : Nat) : (port_change_prc E X events s i).2.max_ports = s.max_ports :=
  (port_change_prc_ports E X events s i).1

@[simp] theorem port_change_prc_portsc (E : errno_h) (X : xhci_ext) (events : Nat)
    (s : xhci_rh_t) (i : Nat) : (port_change_prc E X events s i).2.portsc = s.portsc :=
  (port_change_prc_ports E X events s i).2.1

theorem port_change_body_ports_except (E : errno_h) (X : xhci_ext) (s : xhci_rh_t) (i : Nat) :
    ports_except i s (port_change_body E X s i) := by
  have h := ports_except_trans (port_change_ack_ports_except X s i)
    (port_change_csc_ports_except E X (s.portsc_rd i &&& port_change_mask X.layout)
      (port_change_ack X s i) i)
  unfold port_change_body
  simp only []
  split <;> exact ports_except_trans h (ports_except_of_eq i _ _ (by simp) (by simp))

/-- The port events of one pass of the loop body over port `i`: those of the
connect-status-change stage, decided on the status read `s.portsc_rd i` and on
the register as it reads after the write-back, followed by at most an
enumeration of port `i`, which needs the port-reset-change bit in the status
read. -/
theorem port_change_body_port_events (E : errno_h) (X : xhci_ext) (s : xhci_rh_t) (i : Nat) :
    ∃ e2, (port_change_body E X s i).port_events = s.port_events ++
      (if s.portsc_rd i &&& XHCI_REG_MASK X.layout.CSC ≠ 0 ∧
          XHCI_REG_RD_FLAG ((port_change_ack X s i).portsc_rd i) X.layout.CCS ≠ 0 then
        (if (xhci_rh_get_port_speed X (port_change_ack X s i) i).major = 3 then
          (if port_link_state X (port_change_ack X s i) i = 0 then
            [.hcd_ddf_device_create i] else [])
         else [.reg_set_PR i])
       else []) ++ e2 ∧
      (e2 = [] ∨ e2 = [.hcd_ddf_device_create i]) ∧
      (e2 ≠ [] → s.portsc_rd i &&& XHCI_REG_MASK X.layout.PRC ≠ 0) := by
  unfold port_change_body
  simp only []
  generalize hr2 : port_change_csc E X (s.portsc_rd i &&& port_change_mask X.layout)
    (port_change_ack X s i) i = r2
  have e2 := port_change_csc_port_events E X (s.portsc_rd i &&& port_change_mask X.layout)
    (port_change_ack X s i) i
  rw [hr2, port_change_mask_land_CSC, port_change_ack_port_events] at e2
  have m2 : ∀ x, r2.1 &&& x ≠ 0 → s.portsc_rd i &&& x ≠ 0 := fun x h =>
    land_land_ne_zero _ _ _ (port_change_csc_events E X _ _ i x (hr2 ▸ h))
  generalize hr3 : port_change_flag r2.1 X.layout.PEC (.port_enabled_changed i) r2.2 = r3
  have e3 : r3.2.port_events = r2.2.port_events := by rw [← hr3]; simp
  have m3 : ∀ x, r3.1 &&& x ≠ 0 → r2.1 &&& x ≠ 0 := fun x h =>
    port_change_flag_events _ _ _ _ x (hr3 ▸ h)
  generalize hr4 : port_change_flag r3.1 X.layout.WRC (.warm_reset_completed i) r3.2 = r4
  have e4 : r4.2.port_events = r3.2.port_events := by rw [← hr4]; simp
  have m4 : ∀ x, r4.1 &&& x ≠ 0 → r3.1 &&& x ≠ 0 := fun x h =>
    port_change_flag_events _ _ _ _ x (hr4 ▸ h)
  generalize hr5 : port_change_flag r4.1 X.layout.OCC (.over_current_change i) r4.2 = r5
  have e5 : r5.2.port_events = r4.2.port_events := by rw [← hr5]; simp
  have m5 : ∀ x, r5.1 &&& x ≠ 0 → r4.1 &&& x ≠ 0 := fun x h =>
    port_change_flag_events _ _ _ _ x (hr5 ▸ h)
  have e6 := (port_change_prc_ports E X r5.1 r5.2 i).2.2
  generalize hr6 : port_change_prc E X r5.1 r5.2 i = r6 at e6
  refine ⟨if r5.1 &&& XHCI_REG_MASK X.layout.PRC ≠ 0 ∧
      (xhci_rh_get_port_speed X r5.2 i).major ≠ 3 then [.hcd_ddf_device_create i] else [],
    ?_, ?_, ?_⟩
  · rw [← e2, ← e3, ← e4, ← e5, ← e6]
    split <;> simp [rh_action.is_port_event]
  · split
    · exact Or.inr rfl
    · exact Or.inl rfl
  · intro hne
    split at hne
    · rename_i h
      exact m2 _ (m3 _ (m4 _ (m5 _ h.1)))
    · exact absurd rfl hne

/-- Every port event of the loop body over port `i` is an enumeration or a
reset of port `i`. -/
theorem port_change_body_port_events_of (E : errno_h) (X : xhci_ext) (s : xhci_rh_t)
    (i : Nat) :
    ∃ evs, (port_change_body E X s i).port_events = s.port_events ++ evs ∧
      ∀ a ∈ evs, a = .hcd_ddf_device_create i ∨ a = .reg_set_PR i := by
  obtain ⟨e2, h, h2, -⟩ := port_change_body_port_events E X s i
  refine ⟨_, by rw [h, List.append_assoc], ?_⟩
  intro a ha
  rw [List.mem_append] at ha
  rcases ha with ha | ha
  · split at ha
    · split at ha
      · split at ha <;> simp at ha
        exact Or.inl ha
      · simp at ha
        exact Or.inr ha
    · simp at ha
  · rcases h2 with h2 | h2 <;> rw [h2] at ha <;> simp at ha
    exact Or.inl ha

/-! ### The port map under enumeration and disconnect -/

theorem dev_frame_refl (dev : Nat) (s : xhci_rh_t) : dev_frame dev s s :=
  ⟨rfl, rfl, rfl, fun _ _ => rfl, rfl, rfl⟩

theorem dev_frame_trans {dev : Nat} {s s1 s2 : xhci_rh_t} (h1 : dev_frame dev s s1)
    (h2 : dev_frame dev s1 s2) : dev_frame dev s s2 :=
  ⟨h2.1.trans h1.1, h2.2.1.trans h1.2.1, h2.2.2.1.trans h1.2.2.1,
    fun d hd => (h2.2.2.2.1 d hd).trans (h1.2.2.2.1 d hd),
    h2.2.2.2.2.1.trans h1.2.2.2.2.1, h2.2.2.2.2.2.trans h1.2.2.2.2.2⟩

theorem dev_frame_emit {dev : Nat} {s s1 : xhci_rh_t} (a : rh_action)
    (h : dev_frame dev s s1) : dev_frame dev s (s1.emit a) :=
  dev_frame_trans h ⟨rfl, rfl, rfl, fun _ _ => rfl, rfl, rfl⟩

theorem dev_frame_dcbaa_store {dev : Nat} {s s1 : xhci_rh_t} (a b : Nat)
    (h : dev_frame dev s s1) : dev_frame dev s (s1.dcbaa_store a b) :=
  dev_frame_trans h ⟨rfl, rfl, rfl, fun _ _ => rfl, rfl, rfl⟩

theorem dev_frame_attach {dev : Nat} {s s1 : xhci_rh_t} (a : Nat)
    (h : dev_frame dev s s1) : dev_frame dev s (s1.attach a) :=
  dev_frame_trans h ⟨rfl, rfl, rfl, fun _ _ => rfl, rfl, rfl⟩

theorem upd_dev_dev_ne (s : xhci_rh_t) (dev d : Nat) (f : xhci_device_t → xhci_device_t)
    (h : d ≠ dev) : (s.upd_dev dev f).dev d = s.dev d := by
  simp only [xhci_rh_t.upd_dev, xhci_rh_t.set_dev, xhci_rh_t.dev, List.getD_eq_getElem?_getD]
  rw [List.getElem?_set_ne (Ne.symm h)]

theorem upd_dev_dev_self (s : xhci_rh_t) (dev : Nat) (f : xhci_device_t → xhci_device_t)
    (h : dev < s.devs.length) : (s.upd_dev dev f).dev dev = f (s.dev dev) := by
  simp only [xhci_rh_t.upd_dev, xhci_rh_t.set_dev, xhci_rh_t.dev, List.getD_eq_getElem?_getD]
  rw [List.getElem?_set_self h]
  rfl

theorem upd_dev_dev_field (s : xhci_rh_t) (dev : Nat) (f : xhci_device_t → xhci_device_t)
    {α : Type} (g : xhci_device_t → α) (hg : ∀ d, g (f d) = g d) :
    g ((s.upd_dev dev f).dev dev) = g (s.dev dev) := by
  by_cases h : dev < s.devs.length
  · rw [upd_dev_dev_self s dev f h, hg]
  · simp only [xhci_rh_t.upd_dev, xhci_rh_t.set_dev, xhci_rh_t.dev, List.getD_eq_getElem?_getD]
    rw [List.getElem?_eq_none (by simpa using h), List.getElem?_eq_none (by simpa using h)]

theorem upd_dev_devs_length (s : xhci_rh_t) (dev : Nat) (f : xhci_device_t → xhci_device_t) :
    (s.upd_dev dev f).devs.length = s.devs.length := by
  simp [xhci_rh_t.upd_dev, xhci_rh_t.set_dev]

/-- An update of device `dev` that keeps its `online` flag and its port. -/
theorem dev_frame_upd_dev {dev : Nat} {s s1 : xhci_rh_t} (f : xhci_device_t → xhci_device_t)
    (h1 : ∀ d, (f d).online = d.online) (h2 : ∀ d, (f d).base.port = d.base.port)
    (h : dev_frame dev s s1) : dev_frame dev s (s1.upd_dev dev f) :=
  dev_frame_trans h ⟨rfl, rfl, upd_dev_devs_length s1 dev f,
    fun d hd => upd_dev_dev_ne s1 dev d f hd,
    upd_dev_dev_field s1 dev f (fun d => d.online) h1,
    upd_dev_dev_field s1 dev f (fun d => d.base.port) h2⟩

theorem dev_frame_bus_register_endpoint {dev : Nat} {s s1 : xhci_rh_t} (X : xhci_ext)
    (desc : usb_endpoint_desc_t) (h : dev_frame dev s s1) :
    dev_frame dev s (bus_register_endpoint X s1 dev desc).2 := by
  unfold bus_register_endpoint
  simp only []
  split
  · exact dev_frame_emit _ h
  · exact dev_frame_upd_dev _ (fun _ => rfl) (fun _ => rfl) (dev_frame_emit _ h)

theorem device_at_congr {s s1 : xhci_rh_t} (p : Nat) (h : s1.devices = s.devices) :
    s1.device_at p = s.device_at p := by
  simp only [xhci_rh_t.device_at, h]

theorem devices_store_device_at (s : xhci_rh_t) (port p : Nat) (v : Option Nat) :
    (s.devices_store port v).device_at p = s.device_at p ∨
      (s.devices_store port v).device_at p = v := by
  simp only [xhci_rh_t.devices_store, xhci_rh_t.device_at, List.getD_eq_getElem?_getD,
    List.getElem?_set]
  split
  · split
    · exact Or.inr rfl
    · rename_i h1 h2
      left
      rw [← h1, List.getElem?_eq_none (by simpa using h2)]
  · exact Or.inl rfl

theorem devices_store_device_at_self (s : xhci_rh_t) (port : Nat) (v : Option Nat) (d : Nat)
    (h : s.device_at port = some d) : (s.devices_store port v).device_at port = v := by
  simp only [xhci_rh_t.devices_store, xhci_rh_t.device_at, List.getD_eq_getElem?_getD] at h ⊢
  have hlt : port - 1 < s.devices.length := by
    by_contra hn
    rw [List.getElem?_eq_none (by simpa using hn)] at h
    exact absurd h (by simp)
  rw [List.getElem?_set_self hlt]
  rfl

/-- The port-map effect of lines 147-159 of `xhci_rh_address_device`: device
`dev` is online afterwards, and an entry of the port map either stays or now
refers to `dev`. -/
theorem address_publish_port_map (X : xhci_ext) (s : xhci_rh_t) (dev port p : Nat)
    (hdev : dev < s.devs.length) :
    (address_publish X s dev port).destroyed = s.destroyed ∧
    (address_publish X s dev port).devs.length = s.devs.length ∧
    (∀ d, d ≠ dev → (address_publish X s dev port).dev d = s.dev d) ∧
    ((address_publish X s dev port).dev dev).online = true ∧
    ((address_publish X s dev port).device_at p = s.device_at p ∨
      (address_publish X s dev port).device_at p = some dev) := by
  have g := dev_frame_bus_register_endpoint X ep0_desc (dev_frame_refl dev
    ((s.upd_dev dev fun d => { d with online := true }).emit (.online_store dev true)))
  obtain ⟨g1, g2, g3, g4, g5, -⟩ := g
  have k1 : (((s.upd_dev dev fun d => { d with online := true }).emit
      (.online_store dev true)).dev dev).online = true := by
    show ((s.upd_dev dev fun d => { d with online := true }).dev dev).online = true
    rw [upd_dev_dev_self s dev _ hdev]
  have k5 : ((bus_register_endpoint X ((s.upd_dev dev fun d => { d with online := true }).emit
      (.online_store dev true)) dev ep0_desc).2.dev dev).online = true := by
    rw [g5, k1]
  have k4 : ∀ d, d ≠ dev → (bus_register_endpoint X ((s.upd_dev dev fun d =>
      { d with online := true }).emit (.online_store dev true)) dev ep0_desc).2.dev d
      = s.dev d := by
    intro d hd
    rw [g4 d hd]
    show (s.upd_dev dev fun d => { d with online := true }).dev d = s.dev d
    exact upd_dev_dev_ne s dev d _ hd
  have k3 : (bus_register_endpoint X ((s.upd_dev dev fun d => { d with online := true }).emit
      (.online_store dev true)) dev ep0_desc).2.devs.length = s.devs.length := by
    rw [g3]
    show (s.upd_dev dev fun d => { d with online := true }).devs.length = s.devs.length
    exact upd_dev_devs_length s dev _
  have k0 : (bus_register_endpoint X ((s.upd_dev dev fun d => { d with online := true }).emit
      (.online_store dev true)) dev ep0_desc).2.device_at p = s.device_at p :=
    device_at_congr p g1
  unfold address_publish
  simp only []
  split
  · refine ⟨g2, k3, k4, k5, ?_⟩
    rcases devices_store_device_at (bus_register_endpoint X ((s.upd_dev dev fun d =>
      { d with online := true }).emit (.online_store dev true)) dev ep0_desc).2 port p
      (some dev) with h | h
    · exact Or.inl (h.trans k0)
    · exact Or.inr h
  · exact ⟨g2, k3, k4, k5, Or.inl k0⟩

/-- The port-map effect of `xhci_rh_address_device`: apart from the device
object `dev` nothing the port map looks at changes, unless the call records
`dev`, which is online then. -/
theorem xhci_rh_address_device_port_map (E : errno_h) (X : xhci_ext) (s : xhci_rh_t)
    (dev p : Nat) (hdev : dev < s.devs.length) :
    (xhci_rh_address_device E X s dev).2.destroyed = s.destroyed ∧
    (xhci_rh_address_device E X s dev).2.devs.length = s.devs.length ∧
    (∀ d, d ≠ dev → (xhci_rh_address_device E X s dev).2.dev d = s.dev d) ∧
    ((xhci_rh_address_device E X s dev).2.device_at p = s.device_at p ∨
      ((xhci_rh_address_device E X s dev).2.device_at p = some dev ∧
        ((xhci_rh_address_device E X s dev).2.dev dev).online = true)) := by
  have key : ∀ s1, dev_frame dev s s1 →
      s1.destroyed = s.destroyed ∧ s1.devs.length = s.devs.length ∧
      (∀ d, d ≠ dev → s1.dev d = s.dev d) ∧
      (s1.device_at p = s.device_at p ∨
        (s1.device_at p = some dev ∧ (s1.dev dev).online = true)) :=
    fun s1 h => ⟨h.2.1, h.2.2.1, h.2.2.2.1, Or.inl (device_at_congr p h.1)⟩
  have pub : ∀ s1 port, dev_frame dev s s1 →
      (address_publish X s1 dev port).destroyed = s.destroyed ∧
      (address_publish X s1 dev port).devs.length = s.devs.length ∧
      (∀ d, d ≠ dev → (address_publish X s1 dev port).dev d = s.dev d) ∧
      ((address_publish X s1 dev port).device_at p = s.device_at p ∨
        ((address_publish X s1 dev port).device_at p = some dev ∧
          ((address_publish X s1 dev port).dev dev).online = true)) := by
    intro s1 port h
    obtain ⟨a1, a2, a3, a4, a5⟩ := address_publish_port_map X s1 dev port p (h.2.2.1 ▸ hdev)
    refine ⟨a1.trans h.2.1, a2.trans h.2.2.1, fun d hd => (a3 d hd).trans (h.2.2.2.1 d hd), ?_⟩
    rcases a5 with a5 | a5
    · exact Or.inl (a5.trans (device_at_congr p h.1))
    · exact Or.inr ⟨a5, a4⟩
  unfold xhci_rh_address_device
  simp only []
  split
  · apply key
    repeat first
      | with_reducible exact dev_frame_refl _ _
      | with_reducible apply dev_frame_emit
      | with_reducible apply dev_frame_dcbaa_store
      | with_reducible refine dev_frame_upd_dev _ ?_ ?_ ?_ <;>
          [exact fun _ => rfl; exact fun _ => rfl; skip]
  · split
    · apply key
      repeat first
        | with_reducible exact dev_frame_refl _ _
        | with_reducible apply dev_frame_emit
        | with_reducible apply dev_frame_dcbaa_store
        | with_reducible refine dev_frame_upd_dev _ ?_ ?_ ?_ <;>
            [exact fun _ => rfl; exact fun _ => rfl; skip]
    · split
      · apply key
        simp only [address_err_ep]
        repeat first
          | with_reducible exact dev_frame_refl _ _
          | with_reducible apply dev_frame_emit
          | with_reducible apply dev_frame_dcbaa_store
          | with_reducible refine dev_frame_upd_dev _ ?_ ?_ ?_ <;>
              [exact fun _ => rfl; exact fun _ => rfl; skip]
      · split
        · apply key
          simp only [address_err_ep, address_err_ds]
          repeat first
            | with_reducible exact dev_frame_refl _ _
            | with_reducible apply dev_frame_emit
            | with_reducible apply dev_frame_dcbaa_store
            | with_reducible refine dev_frame_upd_dev _ ?_ ?_ ?_ <;>
                [exact fun _ => rfl; exact fun _ => rfl; skip]
        · split
          · apply key
            simp only [address_err_ep, address_err_ds, address_err_dctx]
            repeat first
              | with_reducible exact dev_frame_refl _ _
              | with_reducible apply dev_frame_emit
              | with_reducible apply dev_frame_dcbaa_store
              | with_reducible refine dev_frame_upd_dev _ ?_ ?_ ?_ <;>
                  [exact fun _ => rfl; exact fun _ => rfl; skip]
          · apply pub
            repeat first
              | with_reducible exact dev_frame_refl _ _
              | with_reducible apply dev_frame_emit
              | with_reducible apply dev_frame_dcbaa_store
              | with_reducible refine dev_frame_upd_dev _ ?_ ?_ ?_ <;>
                  [exact fun _ => rfl; exact fun _ => rfl; skip]

theorem port_step_inv {port : Nat} {s s1 : xhci_rh_t} (h : port_inv s port)
    (hs : port_step port s s1) : port_inv s1 port := by
  obtain ⟨hok, hmap, hdes⟩ := h
  obtain ⟨h1, h2, h3, h4⟩ := hs
  unfold port_map_ok at hok
  rcases h4 with h4 | ⟨dev, h4, h5, h6, h7⟩
  · refine ⟨?_, ?_, ?_⟩
    · unfold port_map_ok
      rw [h4]
      cases hd : s.device_at port with
      | none => simp
      | some d =>
        rw [hd] at hok
        simp only
        rw [h1, h3 d (hmap d hd)]
        exact hok
    · intro d hd
      rw [h4] at hd
      exact lt_of_lt_of_le (hmap d hd) h2
    · intro d hd
      rw [h1] at hd
      exact lt_of_lt_of_le (hdes d hd) h2
  · refine ⟨?_, ?_, ?_⟩
    · unfold port_map_ok
      rw [h4]
      simp only
      refine ⟨?_, h7⟩
      rw [h1]
      intro hmem
      exact absurd (hdes dev hmem) (by omega)
    · intro d hd
      rw [h4] at hd
      cases hd
      exact h6
    · intro d hd
      rw [h1] at hd
      exact lt_of_lt_of_le (hdes d hd) h2

theorem port_step_refl (port : Nat) (s : xhci_rh_t) : port_step port s s :=
  ⟨rfl, le_refl _, fun _ _ => rfl, Or.inl rfl⟩

theorem port_step_emit {port : Nat} {s s1 : xhci_rh_t} (a : rh_action)
    (h : port_step port s s1) : port_step port s (s1.emit a) := h

theorem port_step_attach {port : Nat} {s s1 : xhci_rh_t} (a : Nat)
    (h : port_step port s s1) : port_step port s (s1.attach a) := h

theorem alloc_dev_dev_lt (s : xhci_rh_t) (v : xhci_device_t) (d : Nat)
    (h : d < s.devs.length) : (s.alloc_dev v).dev d = s.dev d := by
  simp only [xhci_rh_t.alloc_dev, xhci_rh_t.dev, List.getD_eq_getElem?_getD]
  rw [List.getElem?_append_left h]

/-- Enumeration of a freshly created device object is a step of the port
map. -/
theorem port_step_address_new (E : errno_h) (X : xhci_ext) (port : Nat) (s : xhci_rh_t)
    (a b : rh_action) (v : xhci_device_t) :
    port_step port s (xhci_rh_address_device E X (((s.emit a).alloc_dev v).emit b)
      (s.emit a).devs.length).2 := by
  have hlen : (((s.emit a).alloc_dev v).emit b).devs.length = s.devs.length + 1 := by
    simp [xhci_rh_t.emit, xhci_rh_t.alloc_dev]
  have hdev : (s.emit a).devs.length = s.devs.length := rfl
  obtain ⟨h1, h2, h3, h4⟩ := xhci_rh_address_device_port_map E X
    (((s.emit a).alloc_dev v).emit b) (s.emit a).devs.length port (by rw [hlen, hdev]; omega)
  refine ⟨h1, by rw [h2, hlen]; omega, ?_, ?_⟩
  · intro d hd
    rw [h3 d (by rw [hdev]; omega)]
    exact alloc_dev_dev_lt (s.emit a) v d hd
  · rcases h4 with h4 | ⟨h4, h5⟩
    · exact Or.inl h4
    · exact Or.inr ⟨_, h4, le_of_eq hdev.symm, by rw [h2, hlen, hdev]; omega, h5⟩

/-- When `ddf_fun_bind` does not fail, `rh_setup_device` keeps the invariant
of the port map. -/
theorem rh_setup_device_port_inv (E : errno_h) (X : xhci_ext) (s : xhci_rh_t) (port : Nat)
    (hbind : ∀ t, X.ddf_fun_bind t = 0) (h : port_inv s port) :
    port_inv (rh_setup_device E X s port).2 port := by
  apply port_step_inv h
  unfold rh_setup_device
  simp only [xhci_bus_enumerate_device]
  split
  · exact port_step_refl port s
  · split
    · exact port_step_emit _ (port_step_address_new E X port s _ _ _)
    · split
      · split
        · rename_i hb
          exact absurd (hbind _) hb
        · exact port_step_emit _ (port_step_attach _ (port_step_emit _ (port_step_emit _
            (port_step_address_new E X port s _ _ _))))
      · split
        · rename_i hb
          exact absurd (hbind _) hb
        · exact port_step_emit _ (port_step_attach _ (port_step_emit _
            (port_step_address_new E X port s _ _ _)))

theorem same_map_refl (s : xhci_rh_t) : same_map s s := ⟨rfl, rfl, rfl⟩

theorem same_map_trans {s s1 s2 : xhci_rh_t} (h1 : same_map s s1) (h2 : same_map s1 s2) :
    same_map s s2 :=
  ⟨h2.1.trans h1.1, h2.2.1.trans h1.2.1, h2.2.2.trans h1.2.2⟩

theorem same_map_emit {s s1 : xhci_rh_t} (a : rh_action) (h : same_map s s1) :
    same_map s (s1.emit a) := h

theorem same_map_detach {s s1 : xhci_rh_t} (a : Nat) (h : same_map s s1) :
    same_map s (s1.detach a) := h

theorem same_map_upd_dev {s s1 : xhci_rh_t} (d : Nat) (f : xhci_device_t → xhci_device_t)
    (h : same_map s s1) : same_map s (s1.upd_dev d f) :=
  ⟨h.1, h.2.1, (upd_dev_devs_length s1 d f).trans h.2.2⟩

theorem same_map_teardown_step {s s1 : xhci_rh_t} (a : rh_action) (f : xhci_rh_t → Int)
    (msg : Int → rh_msg) (h : same_map s s1) : same_map s (teardown_step s1 a f msg) := by
  unfold teardown_step
  simp only []
  split
  · exact h
  · exact h

theorem same_map_bus_unregister_endpoint {s s1 : xhci_rh_t} (X : xhci_ext) (dev ep : Nat)
    (h : same_map s s1) : same_map s (bus_unregister_endpoint X s1 dev ep).2 := by
  unfold bus_unregister_endpoint
  simp only []
  split
  · exact h
  · exact same_map_upd_dev _ _ (same_map_emit _ h)

theorem same_map_abort_active_transfers (X : xhci_ext) (dev : Nat) :
    ∀ (eps : List (Option endpoint_t)) (i : Nat) (s s1 : xhci_rh_t), same_map s s1 →
      same_map s (abort_active_transfers X dev eps i s1) := by
  intro eps
  induction eps with
  | nil => intro i s s1 h; exact h
  | cons ep eps ih =>
    intro i s s1 h
    cases ep with
    | none => exact ih (i + 1) s s1 h
    | some ep =>
      simp only [abort_active_transfers]
      split
      · exact ih (i + 1) s s1 h
      · split
        · exact ih (i + 1) s _ h
        · exact ih (i + 1) s _ h

theorem disconnect_teardown_map (X : xhci_ext) (s : xhci_rh_t) (dev : Nat) :
    (disconnect_teardown X s dev).devices = s.devices ∧
    (disconnect_teardown X s dev).destroyed = s.destroyed ++ [dev] ∧
    (disconnect_teardown X s dev).devs.length = s.devs.length := by
  have key : ∀ s1, same_map s s1 →
      (hcd_ddf_device_destroy s1 dev).devices = s.devices ∧
      (hcd_ddf_device_destroy s1 dev).destroyed = s.destroyed ++ [dev] ∧
      (hcd_ddf_device_destroy s1 dev).devs.length = s.devs.length := by
    intro s1 h
    refine ⟨h.1, ?_, h.2.2⟩
    show s1.destroyed ++ [dev] = s.destroyed ++ [dev]
    rw [h.2.1]
  unfold disconnect_teardown
  simp only []
  apply key
  repeat apply same_map_teardown_step
  split
  · exact same_map_emit _ (same_map_bus_unregister_endpoint X dev 0
      (same_map_teardown_step _ _ _
        (same_map_abort_active_transfers X dev _ 0 s s (same_map_refl s))))
  · exact same_map_bus_unregister_endpoint X dev 0
      (same_map_teardown_step _ _ _
        (same_map_abort_active_transfers X dev _ 0 s s (same_map_refl s)))

/-- The function `handle_disconnected_device` keeps the invariant of the port map: the
entry of the port is empty afterwards. -/
theorem handle_disconnected_device_port_inv (X : xhci_ext) (s : xhci_rh_t) (port : Nat)
    (h : port_inv s port) :
    port_inv (handle_disconnected_device X s port).2 port ∧
    (handle_disconnected_device X s port).2.device_at port = none := by
  unfold handle_disconnected_device
  split
  · rename_i hnone
    exact ⟨h, hnone⟩
  · rename_i dev hdev
    obtain ⟨t1, t2, t3⟩ := disconnect_teardown_map X (disconnect_unpublish s port dev) dev
    have u1 : (disconnect_unpublish s port dev).device_at port = none :=
      devices_store_device_at_self _ port none dev hdev
    have u2 : (disconnect_unpublish s port dev).destroyed = s.destroyed := rfl
    have u3 : (disconnect_unpublish s port dev).devs.length = s.devs.length := by
      simp [disconnect_unpublish, xhci_rh_t.emit, xhci_rh_t.detach, xhci_rh_t.devices_store,
        xhci_rh_t.upd_dev, xhci_rh_t.set_dev]
    have hat : (disconnect_teardown X (disconnect_unpublish s port dev) dev).device_at port
        = none := (device_at_congr port t1).trans u1
    refine ⟨⟨?_, ?_, ?_⟩, hat⟩
    · unfold port_map_ok
      rw [hat]
      trivial
    · intro d hd
      rw [hat] at hd
      exact absurd hd (by simp)
    · intro d hd
      rw [t2, u2, List.mem_append, List.mem_singleton] at hd
      rw [t3, u3]
      rcases hd with hd | rfl
      · exact h.2.2 d hd
      · exact h.2.1 d hdev

theorem rh_run_ops_port_inv (E : errno_h) (X : xhci_ext) (port : Nat)
    (hbind : ∀ t, X.ddf_fun_bind t = 0) :
    ∀ (ops : List rh_op) (s : xhci_rh_t), port_inv s port →
      port_inv (rh_run_ops E X port ops s) port := by
  intro ops
  induction ops with
  | nil => intro s h; exact h
  | cons op ops ih =>
    intro s h
    cases op with
    | enumerate => exact ih _ (rh_setup_device_port_inv E X s port hbind h)
    | disconnect => exact ih _ (handle_disconnected_device_port_inv X s port h).1

/-- The port map without bind failures: started with no device recorded for
the port and no device destroyed, every sequence of enumerations and disconnects on the
port in which `ddf_fun_bind` never fails leaves the entry of the port either
empty or referring to a device that has not been destroyed and is online. -/
theorem rh_run_ops_port_map_ok (E : errno_h) (X : xhci_ext) (port : Nat) (s : xhci_rh_t)
    (ops : List rh_op) (hbind : ∀ t, X.ddf_fun_bind t = 0)
    (hempty : s.device_at port = none) (hnew : s.destroyed = []) :
    port_map_ok (rh_run_ops E X port ops s) port := by
  refine (rh_run_ops_port_inv E X port hbind ops s ⟨?_, ?_, ?_⟩).1
  · unfold port_map_ok
    rw [hempty]
    trivial
  · intro d hd
    rw [hempty] at hd
    exact absurd hd (by simp)
  · intro d hd
    rw [hnew] at hd
    exact absurd hd (by simp)

/-- C1 fails on the code: on an empty port map, an enumeration whose slot and
address commands succeed and whose `ddf_fun_bind` fails returns the error and
leaves the port's map entry referring to the device that was just destroyed,
so the entry does not refer to a live online device. -/
theorem rh_setup_device_bind_failure_port_map :
    port_map_ok (rh_sample [0, 0, portsc_usb3_enabled]) 3 ∧
    (rh_setup_device errno_sample (xhci_ext_sample (-1))
      (rh_sample [0, 0, portsc_usb3_enabled]) 3).1 = -1 ∧
    (rh_setup_device errno_sample (xhci_ext_sample (-1))
      (rh_sample [0, 0, portsc_usb3_enabled]) 3).2.device_at 3 = some 0 ∧
    0 ∈ (rh_setup_device errno_sample (xhci_ext_sample (-1))
      (rh_sample [0, 0, portsc_usb3_enabled]) 3).2.destroyed ∧
    ¬ port_map_ok (rh_setup_device errno_sample (xhci_ext_sample (-1))
      (rh_sample [0, 0, portsc_usb3_enabled]) 3).2 3 := by
  refine ⟨by decide, by decide, by decide, by decide, by decide⟩

/-- C9: on a port whose speed has major version 3, `handle_connected_device`
depends on the link state only: for link state 0 it is the enumeration
`rh_setup_device` and returns its result; for link state 5 it returns `EAGAIN`
and for every other link state `EINVAL`, and in these two cases it only emits
two diagnostics, so nothing is enumerated and no port is reset. -/
theorem handle_connected_device_usb3 (E : errno_h) (X : xhci_ext) (s : xhci_rh_t)
    (port_id : Nat) (hspeed : (xhci_rh_get_port_speed X s port_id).major = 3) :
    (port_link_state X s port_id = 0 →
      handle_connected_device E X s port_id
        = rh_setup_device E X (s.emit (.usb_log (.detected_new_device port_id))) port_id) ∧
    (port_link_state X s port_id = 5 →
      handle_connected_device E X s port_id
        = (E.EAGAIN, (s.emit (.usb_log (.detected_new_device port_id))).emit
            (.usb_log .usb3_enable_failed))) ∧
    (port_link_state X s port_id ≠ 0 → port_link_state X s port_id ≠ 5 →
      handle_connected_device E X s port_id
        = (E.EINVAL, (s.emit (.usb_log (.detected_new_device port_id))).emit
            (.usb_log (.usb3_invalid_state (port_link_state X s port_id))))) := by
  refine ⟨?_, ?_, ?_⟩
  · intro h
    simp [handle_connected_device, hspeed, h]
  · intro h
    simp [handle_connected_device, hspeed, h]
  · intro h0 h5
    simp [handle_connected_device, hspeed, h0, h5]

/-- A connected USB 3.0 port in link state 5. -/
theorem handle_connected_device_usb3_witness :
    (xhci_rh_get_port_speed (xhci_ext_sample 0) (rh_sample [0, 0, 0x12a3]) 3).major = 3 ∧
    port_link_state (xhci_ext_sample 0) (rh_sample [0, 0, 0x12a3]) 3 = 5 ∧
    handle_connected_device errno_sample (xhci_ext_sample 0) (rh_sample [0, 0, 0x12a3]) 3
      = (errno_sample.EAGAIN, ((rh_sample [0, 0, 0x12a3]).emit
          (.usb_log (.detected_new_device 3))).emit (.usb_log .usb3_enable_failed)) :=
  ⟨by decide, by decide,
    (handle_connected_device_usb3 errno_sample (xhci_ext_sample 0) (rh_sample [0, 0, 0x12a3]) 3
      (by decide)).2.1 (by decide)⟩

theorem portsc_rd_congr {s s1 : xhci_rh_t} (p : Nat)
    (h : s1.portsc.getD (p - 1) 0 = s.portsc.getD (p - 1) 0) :
    s1.portsc_rd p = s.portsc_rd p := by
  simp only [xhci_rh_t.portsc_rd, h]

theorem port_change_ack_portsc_rd_congr (X : xhci_ext) {s s1 : xhci_rh_t} (p : Nat)
    (hl : s1.portsc.length = s.portsc.length)
    (h : s1.portsc.getD (p - 1) 0 = s.portsc.getD (p - 1) 0) :
    (port_change_ack X s1 p).portsc_rd p = (port_change_ack X s p).portsc_rd p := by
  simp only [port_change_ack, xhci_rh_t.portsc_wr, xhci_rh_t.portsc_rd, xhci_rh_t.emit,
    List.getD_eq_getElem?_getD, List.getElem?_set_self'] at *
  rw [h]
  by_cases hlt : p - 1 < s.portsc.length
  · rw [List.getElem?_eq_getElem hlt, List.getElem?_eq_getElem (hl ▸ hlt)]
    simp
  · rw [List.getElem?_eq_none (Nat.not_lt.mp hlt),
      List.getElem?_eq_none (hl ▸ Nat.not_lt.mp hlt)]

/-- With at most 254 ports, a register for each of them and enough fuel, the
port loop started at index `i` ends after the loop body has run once for each
of the ports `i`, ..., `max_ports`, in this order. -/
theorem port_change_loop_finished (E : errno_h) (X : xhci_ext) :
    ∀ (n i : Nat) (s : xhci_rh_t) (fuel : Nat), 1 ≤ i → i + n = s.max_ports + 1 →
      s.max_ports < 255 → s.max_ports ≤ s.portsc.length → n < fuel →
      port_change_loop E X fuel i s = .finished (port_change_from E X n i s) := by
  intro n
  induction n with
  | zero =>
    intro i s fuel _ hin _ _ hf
    obtain ⟨f, rfl⟩ : ∃ f, fuel = f + 1 := ⟨fuel - 1, by omega⟩
    have : ¬ i ≤ s.max_ports := by omega
    simp [port_change_loop, port_change_from, this]
  | succ n ih =>
    intro i s fuel hi hin hmax hregs hf
    obtain ⟨f, rfl⟩ : ∃ f, fuel = f + 1 := ⟨fuel - 1, by omega⟩
    have h1 : i ≤ s.max_ports := by omega
    have h2 : 1 ≤ i ∧ i ≤ s.portsc.length := ⟨hi, by omega⟩
    have h3 : (i + 1) % 256 = i + 1 := Nat.mod_eq_of_lt (by omega)
    obtain ⟨b1, b2, -⟩ := port_change_body_ports_except E X s i
    simp only [port_change_loop, port_change_from, h1, h2, h3, if_true, and_self]
    exact ih (i + 1) _ f (by omega) (by omega) (by omega) (by omega) (by omega)

/-- Running the loop body over ports other than `p` leaves the register of
port `p` alone and neither enumerates nor resets port `p`. -/
theorem port_change_from_other (E : errno_h) (X : xhci_ext) (p : Nat) (hp : 1 ≤ p) :
    ∀ (n i : Nat) (s : xhci_rh_t), 1 ≤ i → (p < i ∨ i + n ≤ p) →
      (port_change_from E X n i s).portsc.length = s.portsc.length ∧
      (port_change_from E X n i s).portsc.getD (p - 1) 0 = s.portsc.getD (p - 1) 0 ∧
      ∃ evs, (port_change_from E X n i s).port_events = s.port_events ++ evs ∧
        ∀ a ∈ evs, a ≠ .hcd_ddf_device_create p ∧ a ≠ .reg_set_PR p := by
  intro n
  induction n with
  | zero => intro i s _ _; exact ⟨rfl, rfl, [], by simp [port_change_from], by simp⟩
  | succ n ih =>
    intro i s hi hr
    have hip : i ≠ p := by omega
    obtain ⟨-, b2, b3⟩ := port_change_body_ports_except E X s i
    obtain ⟨ev1, c1, c2⟩ := port_change_body_port_events_of E X s i
    obtain ⟨d1, d2, ev2, d3, d4⟩ := ih (i + 1) (port_change_body E X s i) (by omega) (by omega)
    refine ⟨d1.trans b2, d2.trans (b3 _ (by omega)), ev1 ++ ev2, ?_, ?_⟩
    · simp only [port_change_from]
      rw [d3, c1, List.append_assoc]
    · intro a ha
      rw [List.mem_append] at ha
      rcases ha with ha | ha
      · rcases c2 a ha with rfl | rfl <;> simp [hip]
      · exact d4 a ha

/-- The loop body run over a range of ports that contains the pre-USB3 port
`p`, on which a connect is pending: exactly one reset of `p`, and an
enumeration of `p` only with the port-reset-change bit in its status. -/
theorem port_change_from_usb2_connect (E : errno_h) (X : xhci_ext) (p : Nat) (hp : 1 ≤ p) :
    ∀ (n i : Nat) (s : xhci_rh_t), 1 ≤ i → i ≤ p → p < i + n →
      s.portsc_rd p &&& XHCI_REG_MASK X.layout.CSC ≠ 0 →
      XHCI_REG_RD_FLAG ((port_change_ack X s p).portsc_rd p) X.layout.CCS ≠ 0 →
      (xhci_rh_get_port_speed X (port_change_ack X s p) p).major ≠ 3 →
      ∃ evs, (port_change_from E X n i s).port_events = s.port_events ++ evs ∧
        evs.count (.reg_set_PR p) = 1 ∧
        (rh_action.hcd_ddf_device_create p ∈ evs →
          s.portsc_rd p &&& XHCI_REG_MASK X.layout.PRC ≠ 0) := by
  intro n
  induction n with
  | zero => intro i s _ h1 h2; omega
  | succ n ih =>
    intro i s hi hip hpn hcsc hccs hspeed
    by_cases heq : i = p
    · subst heq
      obtain ⟨e2, c1, c2, c3⟩ := port_change_body_port_events E X s i
      simp only [hcsc, hccs, hspeed, and_self, ne_eq, not_false_eq_true, if_true,
        if_false] at c1
      obtain ⟨-, -, ev2, d3, d4⟩ := port_change_from_other E X i hp n (i + 1)
        (port_change_body E X s i) (by omega) (Or.inl (by omega))
      refine ⟨[.reg_set_PR i] ++ e2 ++ ev2, ?_, ?_, ?_⟩
      · simp only [port_change_from]
        rw [d3, c1]
        simp
      · have hz : ev2.count (.reg_set_PR i) = 0 :=
          List.count_eq_zero.mpr fun hmem => (d4 _ hmem).2 rfl
        rcases c2 with rfl | rfl <;> simp [hz]
      · intro hmem
        simp only [List.mem_append, List.mem_singleton] at hmem
        rcases hmem with (hmem | hmem) | hmem
        · cases hmem
        · exact c3 (List.ne_nil_of_mem hmem)
        · exact absurd rfl (d4 _ hmem).1
    · obtain ⟨-, b2, b3⟩ := port_change_body_ports_except E X s i
      have hreg := b3 (p - 1) (by omega)
      obtain ⟨ev1, c1, c2⟩ := port_change_body_port_events_of E X s i
      have hrd := portsc_rd_congr p hreg
      have hack := port_change_ack_portsc_rd_congr X p b2 hreg
      obtain ⟨ev2, d1, d2, d3⟩ := ih (i + 1) (port_change_body E X s i) (by omega) (by omega)
        (by omega) (by rw [hrd]; exact hcsc) (by rw [hack]; exact hccs)
        (by
          simp only [xhci_rh_get_port_speed] at hspeed ⊢
          rw [hack]
          exact hspeed)
      refine ⟨ev1 ++ ev2, ?_, ?_, ?_⟩
      · simp only [port_change_from]
        rw [d1, c1, List.append_assoc]
      · have hz : ev1.count (.reg_set_PR p) = 0 :=
          List.count_eq_zero.mpr fun hmem => by
            rcases c2 _ hmem with h | h
            · cases h
            · injection h with h
              exact heq h.symm
        simp [hz, d2]
      · intro hmem
        rw [List.mem_append] at hmem
        rcases hmem with hmem | hmem
        · rcases c2 _ hmem with h | h
          · injection h with h
            exact absurd h.symm heq
          · cases h
        · rw [← hrd]
          exact d3 hmem

/-- C10 fails on the code: on a connected USB 2 port whose status has both the
connect-status-change and the port-reset-change bit set (PORTSC 0x220e01), one
invocation of `xhci_rh_handle_port_change` resets the port and, in the same
pass of the loop, enumerates it: the port-reset-change bit that was read before
the reset was issued is taken for the completion of that reset. -/
theorem xhci_rh_handle_port_change_reset_and_enumerate :
    (xhci_rh_get_port_speed (xhci_ext_sample 0) (rh_sample [0x220e01]) 1).major = 2 ∧
    XHCI_REG_RD_FLAG ((rh_sample [0x220e01]).portsc_rd 1) xhci_layout_sample.CCS = 1 ∧
    (rh_sample [0x220e01]).portsc_rd 1 &&& XHCI_REG_MASK xhci_layout_sample.CSC ≠ 0 ∧
    ∃ s1, xhci_rh_handle_port_change errno_sample (xhci_ext_sample 0) 2 (rh_sample [0x220e01])
        = .finished s1 ∧
      s1.port_events = [.reg_set_PR 1, .hcd_ddf_device_create 1] :=
  ⟨by decide, by decide, by decide, _, rfl, by decide⟩

/-- In an invocation of `xhci_rh_handle_port_change` that runs to its end, a
pre-USB3 port whose connect-status-change bit is set while the port is
connected is reset exactly once, and an enumeration of the port in this
invocation implies that the port-reset-change bit is set in the same status
value. -/
theorem xhci_rh_handle_port_change_usb2_connect (E : errno_h) (X : xhci_ext)
    (s : xhci_rh_t) (p fuel : Nat) (hmax : s.max_ports < 255)
    (hregs : s.max_ports ≤ s.portsc.length) (hp1 : 1 ≤ p) (hp2 : p ≤ s.max_ports)
    (hfuel : s.max_ports < fuel)
    (hcsc : s.portsc_rd p &&& XHCI_REG_MASK X.layout.CSC ≠ 0)
    (hccs : XHCI_REG_RD_FLAG ((port_change_ack X s p).portsc_rd p) X.layout.CCS ≠ 0)
    (hspeed : (xhci_rh_get_port_speed X (port_change_ack X s p) p).major ≠ 3) :
    ∃ s1 evs, xhci_rh_handle_port_change E X fuel s = .finished s1 ∧
      s1.port_events = s.port_events ++ evs ∧
      evs.count (.reg_set_PR p) = 1 ∧
      (rh_action.hcd_ddf_device_create p ∈ evs →
        s.portsc_rd p &&& XHCI_REG_MASK X.layout.PRC ≠ 0) := by
  obtain ⟨evs, h1, h2, h3⟩ := port_change_from_usb2_connect E X p hp1 s.max_ports 1 s
    (le_refl 1) hp1 (by omega) hcsc hccs hspeed
  exact ⟨_, evs, port_change_loop_finished E X s.max_ports 1 s fuel (le_refl 1) (by omega)
    hmax hregs hfuel, h1, h2, h3⟩

/-- A hub of two ports with a connect pending on the USB 2 port 2. -/
theorem xhci_rh_handle_port_change_usb2_connect_witness :
    (rh_sample [0, 0x20e01]).max_ports < 255 ∧
    (rh_sample [0, 0x20e01]).portsc_rd 2 &&& XHCI_REG_MASK (xhci_ext_sample 0).layout.CSC ≠ 0 ∧
    XHCI_REG_RD_FLAG ((port_change_ack (xhci_ext_sample 0) (rh_sample [0, 0x20e01]) 2).portsc_rd 2)
      (xhci_ext_sample 0).layout.CCS ≠ 0 ∧
    (xhci_rh_get_port_speed (xhci_ext_sample 0)
      (port_change_ack (xhci_ext_sample 0) (rh_sample [0, 0x20e01]) 2) 2).major ≠ 3 ∧
    ∃ s1 evs, xhci_rh_handle_port_change errno_sample (xhci_ext_sample 0) 3
        (rh_sample [0, 0x20e01]) = .finished s1 ∧
      s1.port_events = (rh_sample [0, 0x20e01]).port_events ++ evs ∧
      evs.count (.reg_set_PR 2) = 1 ∧
      (rh_action.hcd_ddf_device_create 2 ∈ evs →
        (rh_sample [0, 0x20e01]).portsc_rd 2 &&& XHCI_REG_MASK (xhci_ext_sample 0).layout.PRC ≠ 0) :=
  ⟨by decide, by decide, by decide, by decide,
    xhci_rh_handle_port_change_usb2_connect errno_sample (xhci_ext_sample 0)
      (rh_sample [0, 0x20e01]) 2 3 (by decide) (by decide) (by decide) (by decide) (by decide)
      (by decide) (by decide) (by decide)⟩

/-! ### The paths of `xhci_rh_address_device` -/

theorem xhci_rh_address_device_path_slot (E : errno_h) (X : xhci_ext) (s : xhci_rh_t)
    (dev : Nat) (h : (X.hc_enable_slot (address_slot_state X s dev)).1 ≠ EOK) :
    xhci_rh_address_device E X s dev
      = ((X.hc_enable_slot (address_slot_state X s dev)).1, address_slot_state X s dev) := by
  unfold address_slot_state at h
  simp only [xhci_rh_address_device, address_slot_state, h, ne_eq, not_false_eq_true, if_true]

theorem xhci_rh_address_device_path_cmd_failed (E : errno_h) (X : xhci_ext) (s : xhci_rh_t)
    (dev ctx : Nat) (hr : address_cmd_reached X s dev ctx)
    (h : (X.hc_address_rh_device (address_cmd_state X s dev ctx)).1 ≠ 0) :
    xhci_rh_address_device E X s dev
      = ((X.hc_address_rh_device (address_cmd_state X s dev ctx)).1,
          address_err_dctx (address_cmd_state X s dev ctx) (address_slot X s dev)) := by
  obtain ⟨h1, h2, h3, h4⟩ := hr
  unfold address_cmd_state at h
  unfold address_ctx_state at h h4
  unfold address_ds_state at h h3 h4
  unfold address_ep_state at h h2 h3 h4
  unfold address_slot at h h2 h3 h4
  unfold address_slot_state at h h1 h2 h3 h4
  simp only [xhci_rh_address_device, address_cmd_state, address_ctx_state, address_ds_state,
    address_ep_state, address_slot, address_slot_state, h1, h2, h3, h4, h, ne_eq,
    not_true_eq_false, not_false_eq_true, if_true, if_false, Bool.true_eq_false]

theorem xhci_rh_address_device_path_ok (E : errno_h) (X : xhci_ext) (s : xhci_rh_t)
    (dev ctx : Nat) (hr : address_cmd_reached X s dev ctx)
    (h : (X.hc_address_rh_device (address_cmd_state X s dev ctx)).1 = 0) :
    xhci_rh_address_device E X s dev
      = (EOK, address_publish X ((address_cmd_state X s dev ctx).upd_dev dev fun d =>
          { d with base := { d.base with
              address := (X.hc_address_rh_device (address_cmd_state X s dev ctx)).2 } })
          dev (s.dev dev).base.port) := by
  obtain ⟨h1, h2, h3, h4⟩ := hr
  unfold address_cmd_state at h
  unfold address_ctx_state at h h4
  unfold address_ds_state at h h3 h4
  unfold address_ep_state at h h2 h3 h4
  unfold address_slot at h h2 h3 h4
  unfold address_slot_state at h h1 h2 h3 h4
  simp only [xhci_rh_address_device, address_cmd_state, address_ctx_state, address_ds_state,
    address_ep_state, address_slot, address_slot_state, h1, h2, h3, h4, h, ne_eq,
    not_true_eq_false, not_false_eq_true, if_true, if_false, Bool.true_eq_false]

theorem upd_dev_dev_keep (s : xhci_rh_t) (dev d : Nat) (f : xhci_device_t → xhci_device_t)
    {α : Type} (g : xhci_device_t → α) (hg : ∀ x, g (f x) = g x) :
    g ((s.upd_dev dev f).dev d) = g (s.dev d) := by
  by_cases h : d = dev
  · subst h
    exact upd_dev_dev_field s d f g hg
  · rw [upd_dev_dev_ne s dev d f h]

/-- C16: when `hc_enable_slot` fails, `xhci_rh_address_device` returns the
error of `hc_enable_slot` and its only action is the call of `hc_enable_slot`:
the trace has no `bus_create_endpoint` and no `hc_address_rh_device`, no
device has its `online` flag or its endpoints changed, and the port map, the
device list, the device-context array and the destroyed handles are those of
before. -/
theorem xhci_rh_address_device_enable_slot_failed (E : errno_h) (X : xhci_ext)
    (s : xhci_rh_t) (dev : Nat)
    (hfail : (X.hc_enable_slot (address_slot_state X s dev)).1 ≠ EOK) :
    (xhci_rh_address_device E X s dev).1 = (X.hc_enable_slot (address_slot_state X s dev)).1 ∧
    (xhci_rh_address_device E X s dev).2.trace = s.trace ++ [.hc_enable_slot dev] ∧
    (∀ d, ((xhci_rh_address_device E X s dev).2.dev d).online = (s.dev d).online) ∧
    (∀ d, ((xhci_rh_address_device E X s dev).2.dev d).endpoints = (s.dev d).endpoints) ∧
    (xhci_rh_address_device E X s dev).2.devices = s.devices ∧
    (xhci_rh_address_device E X s dev).2.attached = s.attached ∧
    (xhci_rh_address_device E X s dev).2.dcbaa = s.dcbaa ∧
    (xhci_rh_address_device E X s dev).2.destroyed = s.destroyed := by
  rw [xhci_rh_address_device_path_slot E X s dev hfail]
  refine ⟨rfl, rfl, ?_, ?_, rfl, rfl, rfl, rfl⟩
  · intro d
    exact upd_dev_dev_keep s dev d (fun d => { d with
        usb3 := decide ((xhci_rh_get_port_speed X s (s.dev dev).base.port).major = 3) })
      (fun x => x.online) (fun _ => rfl)
  · intro d
    exact upd_dev_dev_keep s dev d (fun d => { d with
        usb3 := decide ((xhci_rh_get_port_speed X s (s.dev dev).base.port).major = 3) })
      (fun x => x.endpoints) (fun _ => rfl)

/-- A device on a USB 3 port and a controller without a free slot. -/
theorem xhci_rh_address_device_enable_slot_failed_witness :
    ((xhci_ext_enable_slot_fails (-2)).hc_enable_slot (address_slot_state
      (xhci_ext_enable_slot_fails (-2)) (rh_one_device [portsc_usb3_enabled] 1) 0)).1 ≠ EOK ∧
    (xhci_rh_address_device errno_sample (xhci_ext_enable_slot_fails (-2))
      (rh_one_device [portsc_usb3_enabled] 1) 0).1 = -2 ∧
    (xhci_rh_address_device errno_sample (xhci_ext_enable_slot_fails (-2))
      (rh_one_device [portsc_usb3_enabled] 1) 0).2.trace = [.hc_enable_slot 0] :=
  ⟨by decide,
    (xhci_rh_address_device_enable_slot_failed errno_sample (xhci_ext_enable_slot_fails (-2))
      (rh_one_device [portsc_usb3_enabled] 1) 0 (by decide)).1,
    (xhci_rh_address_device_enable_slot_failed errno_sample (xhci_ext_enable_slot_fails (-2))
      (rh_one_device [portsc_usb3_enabled] 1) 0 (by decide)).2.1⟩

@[simp] theorem emit_trace (s : xhci_rh_t) (a : rh_action) :
    (s.emit a).trace = s.trace ++ [a] := rfl

@[simp] theorem upd_dev_trace (s : xhci_rh_t) (d : Nat) (f : xhci_device_t → xhci_device_t) :
    (s.upd_dev d f).trace = s.trace := rfl

@[simp] theorem dcbaa_store_trace (s : xhci_rh_t) (a b : Nat) :
    (s.dcbaa_store a b).trace = s.trace := rfl

@[simp] theorem devices_store_trace (s : xhci_rh_t) (a : Nat) (b : Option Nat) :
    (s.devices_store a b).trace = s.trace := rfl

@[simp] theorem emit_devices (s : xhci_rh_t) (a : rh_action) :
    (s.emit a).devices = s.devices := rfl

@[simp] theorem upd_dev_devices (s : xhci_rh_t) (d : Nat) (f : xhci_device_t → xhci_device_t) :
    (s.upd_dev d f).devices = s.devices := rfl

@[simp] theorem dcbaa_store_devices (s : xhci_rh_t) (a b : Nat) :
    (s.dcbaa_store a b).devices = s.devices := rfl

@[simp] theorem emit_dcbaa (s : xhci_rh_t) (a : rh_action) :
    (s.emit a).dcbaa = s.dcbaa := rfl

@[simp] theorem upd_dev_dcbaa (s : xhci_rh_t) (d : Nat) (f : xhci_device_t → xhci_device_t) :
    (s.upd_dev d f).dcbaa = s.dcbaa := rfl

@[simp] theorem dcbaa_store_dcbaa (s : xhci_rh_t) (a b : Nat) :
    (s.dcbaa_store a b).dcbaa = s.dcbaa.set a b := rfl

/-- Up to the address-device command, `xhci_rh_address_device` changes of the
device objects only the fields `usb3`, `slot_id` and `dev_ctx` of `dev`. -/
theorem address_cmd_state_dev (X : xhci_ext) (s : xhci_rh_t) (dev ctx d : Nat) {α : Type}
    (g : xhci_device_t → α) (h1 : ∀ x v, g { x with usb3 := v } = g x)
    (h2 : ∀ x v, g { x with slot_id := v } = g x)
    (h3 : ∀ x v, g { x with dev_ctx := v } = g x) :
    g ((address_cmd_state X s dev ctx).dev d) = g (s.dev d) := by
  have e1 : g ((address_slot_state X s dev).dev d) = g (s.dev d) :=
    upd_dev_dev_keep s dev d
      (fun d => { d with
        usb3 := decide ((xhci_rh_get_port_speed X s (s.dev dev).base.port).major = 3) })
      g (fun x => h1 x _)
  have e2 : g ((address_ctx_state X s dev).dev d) = g ((address_slot_state X s dev).dev d) :=
    upd_dev_dev_keep (address_slot_state X s dev) dev d
      (fun d => { d with slot_id := address_slot X s dev }) g (fun x => h2 x _)
  have e3 : g ((address_cmd_state X s dev ctx).dev d) = g ((address_ctx_state X s dev).dev d) :=
    upd_dev_dev_keep (address_ctx_state X s dev) dev d
      (fun d => { d with dev_ctx := some ctx }) g (fun x => h3 x _)
  rw [e3, e2, e1]

theorem address_cmd_state_trace (X : xhci_ext) (s : xhci_rh_t) (dev ctx : Nat) :
    (address_cmd_state X s dev ctx).trace = s.trace ++
      [.hc_enable_slot dev, .bus_create_endpoint, .xhci_endpoint_alloc_transfer_ds, .malloc32,
        .hc_address_rh_device (address_slot X s dev) (s.dev dev).base.port
          (setup_control_ep0_ctx xhci_ep_ctx_zero (X.ring_dequeue (address_ds_state X s dev))
            (xhci_rh_get_port_speed X s (s.dev dev).base.port))] := by
  simp [address_cmd_state, address_ctx_state, address_ds_state, address_ep_state,
    address_slot_state]

theorem address_cmd_state_devices (X : xhci_ext) (s : xhci_rh_t) (dev ctx : Nat) :
    (address_cmd_state X s dev ctx).devices = s.devices := by
  simp [address_cmd_state, address_ctx_state, address_ds_state, address_ep_state,
    address_slot_state]

theorem address_cmd_state_dcbaa (X : xhci_ext) (s : xhci_rh_t) (dev ctx : Nat) :
    (address_cmd_state X s dev ctx).dcbaa
      = s.dcbaa.set (address_slot X s dev) (X.addr_to_phys ctx) := by
  simp [address_cmd_state, address_ctx_state, address_ds_state, address_ep_state,
    address_slot_state]

theorem address_err_dctx_dev (s : xhci_rh_t) (slot d : Nat) :
    (address_err_dctx s slot).dev d = s.dev d := rfl

theorem address_err_dctx_devices (s : xhci_rh_t) (slot : Nat) :
    (address_err_dctx s slot).devices = s.devices := rfl

theorem address_err_dctx_dcbaa (s : xhci_rh_t) (slot : Nat) :
    (address_err_dctx s slot).dcbaa = s.dcbaa.set slot 0 := rfl

theorem address_err_dctx_trace (s : xhci_rh_t) (slot : Nat) :
    (address_err_dctx s slot).trace = s.trace ++
      [.free32, .xhci_endpoint_free_transfer_ds, .xhci_endpoint_fini, .free_endpoint] := by
  simp [address_err_dctx, address_err_ds, address_err_ep]

theorem set_set_getD_zero (l : List Nat) (k v : Nat) : ((l.set k v).set k 0).getD k 0 = 0 := by
  rw [List.getD_eq_getElem?_getD, List.getElem?_set]
  simp only [if_true]
  split <;> rfl

/-- C17: when the address-device command `hc_address_rh_device` is reached and
fails, `xhci_rh_address_device` returns the error of the command; no device
has its `online` flag or its registered endpoints changed, the port map is the
one of before, the trace ends with the command and the four release calls, so
no endpoint registration was issued, and `dcbaa[slot]` is 0 again while every
other entry of the device-context array is the one of before. -/
theorem xhci_rh_address_device_address_failed (E : errno_h) (X : xhci_ext) (s : xhci_rh_t)
    (dev ctx : Nat) (hr : address_cmd_reached X s dev ctx)
    (hfail : (X.hc_address_rh_device (address_cmd_state X s dev ctx)).1 ≠ 0) :
    (xhci_rh_address_device E X s dev).1
      = (X.hc_address_rh_device (address_cmd_state X s dev ctx)).1 ∧
    (∀ d, ((xhci_rh_address_device E X s dev).2.dev d).online = (s.dev d).online) ∧
    (xhci_rh_address_device E X s dev).2.devices = s.devices ∧
    (∀ d, ((xhci_rh_address_device E X s dev).2.dev d).endpoints = (s.dev d).endpoints) ∧
    (∃ ep_ctx, (xhci_rh_address_device E X s dev).2.trace = s.trace ++
      [.hc_enable_slot dev, .bus_create_endpoint, .xhci_endpoint_alloc_transfer_ds, .malloc32,
        .hc_address_rh_device (address_slot X s dev) (s.dev dev).base.port ep_ctx,
        .free32, .xhci_endpoint_free_transfer_ds, .xhci_endpoint_fini, .free_endpoint]) ∧
    (xhci_rh_address_device E X s dev).2.dcbaa.getD (address_slot X s dev) 0 = 0 ∧
    (∀ k, k ≠ address_slot X s dev →
      (xhci_rh_address_device E X s dev).2.dcbaa.getD k 0 = s.dcbaa.getD k 0) := by
  rw [xhci_rh_address_device_path_cmd_failed E X s dev ctx hr hfail]
  simp only [address_err_dctx_dev, address_err_dctx_devices, address_err_dctx_trace,
    address_err_dctx_dcbaa, address_cmd_state_trace, address_cmd_state_devices,
    address_cmd_state_dcbaa]
  refine ⟨trivial, ?_, trivial, ?_, ⟨setup_control_ep0_ctx xhci_ep_ctx_zero
    (X.ring_dequeue (address_ds_state X s dev))
    (xhci_rh_get_port_speed X s (s.dev dev).base.port), ?_⟩, ?_, ?_⟩
  · intro d
    exact address_cmd_state_dev X s dev ctx d (fun x => x.online) (fun _ _ => rfl)
      (fun _ _ => rfl) (fun _ _ => rfl)
  · intro d
    exact address_cmd_state_dev X s dev ctx d (fun x => x.endpoints) (fun _ _ => rfl)
      (fun _ _ => rfl) (fun _ _ => rfl)
  · rw [List.append_assoc]
    rfl
  · exact set_set_getD_zero s.dcbaa _ _
  · intro k hk
    rw [List.getD_eq_getElem?_getD, List.getD_eq_getElem?_getD,
      List.getElem?_set_ne (Ne.symm hk), List.getElem?_set_ne (Ne.symm hk)]

/-- A device on a USB 3 port whose address-device command fails. -/
theorem xhci_rh_address_device_address_failed_witness :
    address_cmd_reached (xhci_ext_address_fails (-5)) (rh_one_device [portsc_usb3_enabled] 1)
      0 4096 ∧
    (xhci_rh_address_device errno_sample (xhci_ext_address_fails (-5))
      (rh_one_device [portsc_usb3_enabled] 1) 0).1 = -5 ∧
    (xhci_rh_address_device errno_sample (xhci_ext_address_fails (-5))
      (rh_one_device [portsc_usb3_enabled] 1) 0).2.dcbaa.getD 1 0 = 0 :=
  ⟨by decide,
    (xhci_rh_address_device_address_failed errno_sample (xhci_ext_address_fails (-5))
      (rh_one_device [portsc_usb3_enabled] 1) 0 4096 (by decide) (by decide)).1,
    (xhci_rh_address_device_address_failed errno_sample (xhci_ext_address_fails (-5))
      (rh_one_device [portsc_usb3_enabled] 1) 0 4096 (by decide) (by decide)).2.2.2.2.2.1⟩

/-- C18 fails on the code: when the slot allocation succeeds (slot 1) and the
address-device command fails, `xhci_rh_address_device` returns the error of
the command after the four calls that release the device context and the
endpoint; it issues no `hc_disable_slot`, for slot 1 or any other, and neither
does its caller `rh_setup_device`, which only adds the error message. -/
theorem xhci_rh_address_device_address_failure_keeps_slot :
    address_slot (xhci_ext_address_fails (-5)) (rh_one_device [portsc_usb3_enabled] 1) 0 = 1 ∧
    (xhci_rh_address_device errno_sample (xhci_ext_address_fails (-5))
      (rh_one_device [portsc_usb3_enabled] 1) 0).1 = -5 ∧
    ((xhci_rh_address_device errno_sample (xhci_ext_address_fails (-5))
      (rh_one_device [portsc_usb3_enabled] 1) 0).2.dev 0).slot_id = 1 ∧
    (xhci_rh_address_device errno_sample (xhci_ext_address_fails (-5))
      (rh_one_device [portsc_usb3_enabled] 1) 0).2.trace
      = [.hc_enable_slot 0, .bus_create_endpoint, .xhci_endpoint_alloc_transfer_ds, .malloc32,
          .hc_address_rh_device 1 1 (setup_control_ep0_ctx xhci_ep_ctx_zero 0 ⟨3, 0⟩),
          .free32, .xhci_endpoint_free_transfer_ds, .xhci_endpoint_fini, .free_endpoint] ∧
    (∀ slot, rh_action.hc_disable_slot slot ∉ (xhci_rh_address_device errno_sample
      (xhci_ext_address_fails (-5)) (rh_one_device [portsc_usb3_enabled] 1) 0).2.trace) ∧
    (rh_setup_device errno_sample (xhci_ext_address_fails (-5))
      (rh_sample [portsc_usb3_enabled]) 1).2.trace
      = [.hcd_ddf_device_create 1, .xhci_bus_enumerate_device 0, .hc_enable_slot 0,
          .bus_create_endpoint, .xhci_endpoint_alloc_transfer_ds, .malloc32,
          .hc_address_rh_device 1 1 (setup_control_ep0_ctx xhci_ep_ctx_zero 0 ⟨3, 0⟩),
          .free32, .xhci_endpoint_free_transfer_ds, .xhci_endpoint_fini, .free_endpoint,
          .usb_log (.enumerate_failed (-5))] := by
  refine ⟨by decide, by decide, by decide, by decide, ?_, by decide⟩
  intro slot
  have h : (xhci_rh_address_device errno_sample (xhci_ext_address_fails (-5))
      (rh_one_device [portsc_usb3_enabled] 1) 0).2.trace
      = [.hc_enable_slot 0, .bus_create_endpoint, .xhci_endpoint_alloc_transfer_ds, .malloc32,
          .hc_address_rh_device 1 1 (setup_control_ep0_ctx xhci_ep_ctx_zero 0 ⟨3, 0⟩),
          .free32, .xhci_endpoint_free_transfer_ds, .xhci_endpoint_fini, .free_endpoint] := by
    decide
  rw [h]
  simp

/-- A successful `xhci_rh_address_device` has passed every step. -/
theorem xhci_rh_address_device_ok_reached (E : errno_h) (X : xhci_ext) (s : xhci_rh_t)
    (dev : Nat) (hE : E.ENOMEM ≠ EOK) (hok : (xhci_rh_address_device E X s dev).1 = EOK) :
    ∃ ctx, address_cmd_reached X s dev ctx ∧
      (X.hc_address_rh_device (address_cmd_state X s dev ctx)).1 = 0 := by
  by_cases h1 : (X.hc_enable_slot (address_slot_state X s dev)).1 = EOK
  · by_cases h2 : X.bus_create_endpoint (address_ep_state X s dev) = true
    · by_cases h3 : X.xhci_endpoint_alloc_transfer_ds (address_ds_state X s dev) = 0
      · rcases h4 : X.malloc32 (address_ctx_state X s dev) with _ | ctx
        · exfalso
          unfold address_ctx_state at h4
          unfold address_ds_state at h3 h4
          unfold address_ep_state at h2 h3 h4
          unfold address_slot at h2 h3 h4
          unfold address_slot_state at h1 h2 h3 h4
          simp only [xhci_rh_address_device, h1, h2, h3, h4, ne_eq, not_true_eq_false,
            if_false, Bool.true_eq_false] at hok
          exact hE hok
        · by_cases h5 : (X.hc_address_rh_device (address_cmd_state X s dev ctx)).1 = 0
          · exact ⟨ctx, ⟨h1, h2, h3, h4⟩, h5⟩
          · exfalso
            rw [xhci_rh_address_device_path_cmd_failed E X s dev ctx ⟨h1, h2, h3, h4⟩ h5] at hok
            exact h5 hok
      · exfalso
        unfold address_ds_state at h3
        unfold address_ep_state at h2 h3
        unfold address_slot at h2 h3
        unfold address_slot_state at h1 h2 h3
        simp only [xhci_rh_address_device, h1, h2, h3, ne_eq, not_true_eq_false,
          not_false_eq_true, if_true, if_false, Bool.true_eq_false] at hok
        exact h3 hok
    · exfalso
      have h2f : X.bus_create_endpoint (address_ep_state X s dev) = false := by
        simpa using h2
      unfold address_ep_state at h2f
      unfold address_slot at h2f
      unfold address_slot_state at h1 h2f
      simp only [xhci_rh_address_device, h1, h2f, ne_eq, not_true_eq_false, if_true,
        if_false] at hok
      exact hE hok
  · exfalso
    rw [xhci_rh_address_device_path_slot E X s dev h1] at hok
    exact h1 hok

theorem address_cmd_state_dev_ne (X : xhci_ext) (s : xhci_rh_t) (dev ctx d : Nat)
    (h : d ≠ dev) : (address_cmd_state X s dev ctx).dev d = s.dev d := by
  have e1 : (address_slot_state X s dev).dev d = s.dev d :=
    upd_dev_dev_ne s dev d
      (fun d => { d with
        usb3 := decide ((xhci_rh_get_port_speed X s (s.dev dev).base.port).major = 3) }) h
  have e2 : (address_ctx_state X s dev).dev d = (address_slot_state X s dev).dev d :=
    upd_dev_dev_ne (address_slot_state X s dev) dev d
      (fun d => { d with slot_id := address_slot X s dev }) h
  have e3 : (address_cmd_state X s dev ctx).dev d = (address_ctx_state X s dev).dev d :=
    upd_dev_dev_ne (address_ctx_state X s dev) dev d
      (fun d => { d with dev_ctx := some ctx }) h
  rw [e3, e2, e1]

theorem address_cmd_state_devs_length (X : xhci_ext) (s : xhci_rh_t) (dev ctx : Nat) :
    (address_cmd_state X s dev ctx).devs.length = s.devs.length := by
  have e1 : (address_slot_state X s dev).devs.length = s.devs.length :=
    upd_dev_devs_length s dev
      (fun d => { d with
        usb3 := decide ((xhci_rh_get_port_speed X s (s.dev dev).base.port).major = 3) })
  have e2 : (address_ctx_state X s dev).devs.length = (address_slot_state X s dev).devs.length :=
    upd_dev_devs_length (address_slot_state X s dev) dev
      (fun d => { d with slot_id := address_slot X s dev })
  have e3 : (address_cmd_state X s dev ctx).devs.length
      = (address_ctx_state X s dev).devs.length :=
    upd_dev_devs_length (address_ctx_state X s dev) dev
      (fun d => { d with dev_ctx := some ctx })
  rw [e3, e2, e1]

/-- The port map after lines 147-159 of `xhci_rh_address_device`: the entry of
`port` is set if it was empty, and nothing else changes. -/
theorem address_publish_devices (X : xhci_ext) (s : xhci_rh_t) (dev port : Nat) :
    (address_publish X s dev port).devices
      = if s.device_at port = none then s.devices.set (port - 1) (some dev) else s.devices := by
  have g := (dev_frame_bus_register_endpoint X ep0_desc (dev_frame_refl dev
    ((s.upd_dev dev fun d => { d with online := true }).emit (.online_store dev true)))).1
  have g0 : (bus_register_endpoint X ((s.upd_dev dev fun d => { d with online := true }).emit
      (.online_store dev true)) dev ep0_desc).2.devices = s.devices := g
  have k0 : (bus_register_endpoint X ((s.upd_dev dev fun d => { d with online := true }).emit
      (.online_store dev true)) dev ep0_desc).2.device_at port = s.device_at port :=
    device_at_congr port g0
  unfold address_publish
  simp only [k0]
  split
  · show ((bus_register_endpoint X ((s.upd_dev dev fun d => { d with online := true }).emit
      (.online_store dev true)) dev ep0_desc).2.devices).set (port - 1) (some dev) = _
    rw [g0]
  · exact g0

/-- C20 fails on the code: when `ddf_fun_bind` fails after the device has
been addressed, `rh_setup_device` returns the error of `ddf_fun_bind` and
destroys the device object, but takes none of the teardown steps of
`handle_disconnected_device`: the `online` flag of the device is still set,
the port map still refers to the device, and the device is neither taken off
the bus nor is its slot disabled. -/
theorem rh_setup_device_bind_failure_no_teardown :
    (rh_setup_device errno_sample (xhci_ext_sample (-1)) (rh_sample [portsc_usb3_enabled]) 1).1
      = -1 ∧
    ((rh_setup_device errno_sample (xhci_ext_sample (-1)) (rh_sample [portsc_usb3_enabled])
      1).2.dev 0).online = true ∧
    (rh_setup_device errno_sample (xhci_ext_sample (-1)) (rh_sample [portsc_usb3_enabled])
      1).2.device_at 1 = some 0 ∧
    (rh_setup_device errno_sample (xhci_ext_sample (-1)) (rh_sample [portsc_usb3_enabled])
      1).2.destroyed = [0] ∧
    (rh_setup_device errno_sample (xhci_ext_sample (-1)) (rh_sample [portsc_usb3_enabled])
      1).2.trace
      = [.hcd_ddf_device_create 1, .xhci_bus_enumerate_device 0, .hc_enable_slot 0,
          .bus_create_endpoint, .xhci_endpoint_alloc_transfer_ds, .malloc32,
          .hc_address_rh_device 1 1 (setup_control_ep0_ctx xhci_ep_ctx_zero 0 ⟨3, 0⟩),
          .online_store 0 true, .bus_register_endpoint 0 ep0_desc, .devices_store 1 (some 0),
          .ddf_fun_bind 0, .usb_log (.bind_failed (-1)), .hcd_ddf_device_destroy 0] ∧
    (handle_disconnected_device (xhci_ext_sample 0)
      (rh_setup_device errno_sample (xhci_ext_sample 0) (rh_sample [portsc_usb3_enabled]) 1).2
      1).2.trace
      = (rh_setup_device errno_sample (xhci_ext_sample 0) (rh_sample [portsc_usb3_enabled])
          1).2.trace ++
        [.usb_log (.disconnected 1), .online_store 0 false, .list_remove 0,
          .devices_store 1 none, .ddf_fun_unbind 0, .bus_unregister_endpoint 0 0,
          .hc_deconfigure_device 1, .xhci_bus_remove_device 0, .hc_disable_slot 1,
          .hcd_ddf_device_destroy 0] := by
  refine ⟨by decide, by decide, by decide, by decide, by decide, by decide⟩

/-! ### The examination of the ports -/

@[simp] theorem upd_dev_scan_events (s : xhci_rh_t) (d : Nat) (f : xhci_device_t → xhci_device_t) :
    (s.upd_dev d f).scan_events = s.scan_events := rfl

@[simp] theorem dcbaa_store_scan_events (s : xhci_rh_t) (a b : Nat) :
    (s.dcbaa_store a b).scan_events = s.scan_events := rfl

@[simp] theorem devices_store_scan_events (s : xhci_rh_t) (a : Nat) (b : Option Nat) :
    (s.devices_store a b).scan_events = s.scan_events := rfl

@[simp] theorem attach_scan_events (s : xhci_rh_t) (a : Nat) :
    (s.attach a).scan_events = s.scan_events := rfl

@[simp] theorem detach_scan_events (s : xhci_rh_t) (a : Nat) :
    (s.detach a).scan_events = s.scan_events := rfl

@[simp] theorem alloc_dev_scan_events (s : xhci_rh_t) (a : xhci_device_t) :
    (s.alloc_dev a).scan_events = s.scan_events := rfl

@[simp] theorem destroy_scan_events (s : xhci_rh_t) (a : Nat) :
    (s.destroy a).scan_events = s.scan_events := rfl

@[simp] theorem portsc_wr_scan_events (X : xhci_ext) (s : xhci_rh_t) (i v : Nat) :
    (s.portsc_wr X i v).scan_events = s.scan_events := rfl

@[simp] theorem emit_scan_events (s : xhci_rh_t) (a : rh_action) :
    (s.emit a).scan_events = s.scan_events ++ (if a.is_scan_event then [a] else []) := by
  simp only [xhci_rh_t.scan_events, xhci_rh_t.emit, List.filter_append]
  cases h : a.is_scan_event <;> simp [List.filter, h]

@[simp] theorem bus_register_endpoint_scan_events (X : xhci_ext) (s : xhci_rh_t) (dev : Nat)
    (desc : usb_endpoint_desc_t) :
    (bus_register_endpoint X s dev desc).2.scan_events = s.scan_events := by
  unfold bus_register_endpoint
  simp only []
  split <;> simp [rh_action.is_scan_event]

@[simp] theorem bus_unregister_endpoint_scan_events (X : xhci_ext) (s : xhci_rh_t)
    (dev ep : Nat) : (bus_unregister_endpoint X s dev ep).2.scan_events = s.scan_events := by
  unfold bus_unregister_endpoint
  simp only []
  split <;> simp [rh_action.is_scan_event]

@[simp] theorem address_publish_scan_events (X : xhci_ext) (s : xhci_rh_t) (dev port : Nat) :
    (address_publish X s dev port).scan_events = s.scan_events := by
  unfold address_publish
  simp only []
  split <;> simp [rh_action.is_scan_event]

@[simp] theorem xhci_rh_address_device_scan_events (E : errno_h) (X : xhci_ext) (s : xhci_rh_t)
    (dev : Nat) : (xhci_rh_address_device E X s dev).2.scan_events = s.scan_events := by
  unfold xhci_rh_address_device
  simp only []
  split
  · simp [rh_action.is_scan_event]
  · split
    · simp [rh_action.is_scan_event]
    · split
      · simp [rh_action.is_scan_event, address_err_ep]
      · split
        · simp [rh_action.is_scan_event, address_err_ep, address_err_ds]
        · split
          · simp [rh_action.is_scan_event, address_err_ep, address_err_ds, address_err_dctx]
          · simp [rh_action.is_scan_event]

@[simp] theorem rh_setup_device_scan_events (E : errno_h) (X : xhci_ext) (s : xhci_rh_t)
    (port_id : Nat) : (rh_setup_device E X s port_id).2.scan_events = s.scan_events := by
  unfold rh_setup_device
  simp only [xhci_bus_enumerate_device, hcd_ddf_device_destroy]
  split
  · simp [rh_action.is_scan_event]
  · split
    · simp [rh_action.is_scan_event]
    · split <;> split <;> simp [rh_action.is_scan_event]

@[simp] theorem abort_active_transfers_scan_events (X : xhci_ext) (dev : Nat) :
    ∀ (eps : List (Option endpoint_t)) (i : Nat) (s : xhci_rh_t),
      (abort_active_transfers X dev eps i s).scan_events = s.scan_events := by
  intro eps
  induction eps with
  | nil => intro i s; simp [abort_active_transfers]
  | cons ep eps ih =>
    intro i s
    cases ep with
    | none => simpa [abort_active_transfers] using ih (i + 1) s
    | some ep =>
      simp only [abort_active_transfers]
      split
      · exact ih (i + 1) s
      · rw [ih]
        split <;> simp [rh_action.is_scan_event]

theorem teardown_step_scan_events (s : xhci_rh_t) (a : rh_action) (f : xhci_rh_t → Int)
    (msg : Int → rh_msg) (ha : a.is_scan_event = false)
    (hmsg : ∀ e, (rh_action.usb_log (msg e)).is_scan_event = false) :
    (teardown_step s a f msg).scan_events = s.scan_events := by
  unfold teardown_step
  simp only []
  split <;> simp [ha, hmsg]

@[simp] theorem disconnect_unpublish_scan_events (s : xhci_rh_t) (port_id dev : Nat) :
    (disconnect_unpublish s port_id dev).scan_events = s.scan_events := by
  simp [disconnect_unpublish, rh_action.is_scan_event]

@[simp] theorem disconnect_teardown_scan_events (X : xhci_ext) (s : xhci_rh_t) (dev : Nat) :
    (disconnect_teardown X s dev).scan_events = s.scan_events := by
  have h := teardown_step_scan_events
  unfold disconnect_teardown
  simp only [hcd_ddf_device_destroy]
  split <;> simp [rh_action.is_scan_event, h]

@[simp] theorem handle_disconnected_device_scan_events (X : xhci_ext) (s : xhci_rh_t)
    (port_id : Nat) : (handle_disconnected_device X s port_id).2.scan_events = s.scan_events := by
  unfold handle_disconnected_device
  split <;> simp

@[simp] theorem xhci_rh_reset_port_scan_events (X : xhci_ext) (s : xhci_rh_t) (port : Nat) :
    (xhci_rh_reset_port X s port).2.scan_events = s.scan_events := by
  simp [xhci_rh_reset_port, rh_action.is_scan_event]

@[simp] theorem handle_connected_device_scan_events (E : errno_h) (X : xhci_ext)
    (s : xhci_rh_t) (port_id : Nat) :
    (handle_connected_device E X s port_id).2.scan_events = s.scan_events := by
  unfold handle_connected_device
  simp only []
  split
  · split
    · simp [rh_action.is_scan_event]
    · split <;> simp [rh_action.is_scan_event]
  · simp [rh_action.is_scan_event]

theorem port_change_flag_scan_events (events b : Nat) (msg : rh_msg) (s : xhci_rh_t)
    (hmsg : (rh_action.usb_log msg).is_scan_event = false) :
    (port_change_flag events b msg s).2.scan_events = s.scan_events := by
  unfold port_change_flag
  split <;> simp [hmsg]

@[simp] theorem port_change_ack_scan_events (X : xhci_ext) (s : xhci_rh_t) (i : Nat) :
    (port_change_ack X s i).scan_events = s.scan_events ++ [.portsc_write i (s.portsc_rd i)] := by
  simp [port_change_ack, rh_action.is_scan_event]

@[simp] theorem port_change_csc_scan_events (E : errno_h) (X : xhci_ext) (events : Nat)
    (s : xhci_rh_t) (i : Nat) :
    (port_change_csc E X events s i).2.scan_events = s.scan_events := by
  unfold port_change_csc
  simp only []
  split
  · split <;> simp [rh_action.is_scan_event]
  · rfl

@[simp] theorem port_change_prc_scan_events (E : errno_h) (X : xhci_ext) (events : Nat)
    (s : xhci_rh_t) (i : Nat) :
    (port_change_prc E X events s i).2.scan_events = s.scan_events := by
  unfold port_change_prc
  simp only []
  split
  · split <;> simp [rh_action.is_scan_event]
  · rfl

theorem XHCI_REG_MASK_testBit (b j : Nat) : (XHCI_REG_MASK b).testBit j = decide (b = j) := by
  rw [XHCI_REG_MASK, Nat.one_shiftLeft, Nat.testBit_two_pow]

theorem land_mask_ne_zero_iff (x b : Nat) : x &&& XHCI_REG_MASK b ≠ 0 ↔ x.testBit b = true := by
  constructor
  · intro h
    by_contra hb
    apply h
    apply Nat.eq_of_testBit_eq
    intro j
    rw [Nat.testBit_land, XHCI_REG_MASK_testBit, Nat.zero_testBit]
    by_cases hj : b = j
    · subst hj
      simp [hb]
    · simp [hj]
  · intro h h0
    have := congrArg (fun y => Nat.testBit y b) h0
    simp [Nat.testBit_land, XHCI_REG_MASK_testBit, h] at this

theorem testBit_lt_32 (x j : Nat) (hx : x < 2 ^ 32) (hj : x.testBit j = true) : j < 32 := by
  by_contra h
  have h2 : x < 2 ^ j := lt_of_lt_of_le hx (Nat.pow_le_pow_right (by norm_num) (by omega))
  rw [Nat.testBit_lt_two_pow h2] at hj
  exact absurd hj (by simp)

/-- A handled change bit is gone from the pending events afterwards, and no
other bit of them changes. -/
theorem clear_step_testBit (ev b j : Nat) (h : ev < 2 ^ 32) :
    (if ev &&& XHCI_REG_MASK b ≠ 0 then clear_mask32 ev (XHCI_REG_MASK b) else ev).testBit j
      = (ev.testBit j && !decide (b = j)) := by
  split
  · rw [clear_mask32, Nat.testBit_land, Nat.testBit_xor, XHCI_REG_MASK_testBit]
    have : (0xFFFFFFFF : Nat) = 2 ^ 32 - 1 := by norm_num
    rw [this, Nat.testBit_two_pow_sub_one]
    cases hj : ev.testBit j
    · simp
    · have := testBit_lt_32 ev j h hj
      simp [this]
  · rename_i hc
    have hb : ev.testBit b = false := by
      have := (land_mask_ne_zero_iff ev b).not.mp hc
      simpa using this
    by_cases hj : b = j
    · subst hj
      simp [hb]
    · simp [hj]

theorem clear_step_lt (ev b : Nat) (h : ev < 2 ^ 32) :
    (if ev &&& XHCI_REG_MASK b ≠ 0 then clear_mask32 ev (XHCI_REG_MASK b) else ev) < 2 ^ 32 := by
  split
  · exact lt_of_le_of_lt Nat.and_le_left h
  · exact h

theorem port_change_flag_fst (events b : Nat) (msg : rh_msg) (s : xhci_rh_t) :
    (port_change_flag events b msg s).1
      = if events &&& XHCI_REG_MASK b ≠ 0 then clear_mask32 events (XHCI_REG_MASK b)
        else events := by
  unfold port_change_flag
  split <;> rfl

theorem port_change_csc_fst (E : errno_h) (X : xhci_ext) (events : Nat) (s : xhci_rh_t)
    (i : Nat) :
    (port_change_csc E X events s i).1
      = if events &&& XHCI_REG_MASK X.layout.CSC ≠ 0 then
          clear_mask32 events (XHCI_REG_MASK X.layout.CSC)
        else events := by
  unfold port_change_csc
  simp only []
  split
  · split <;> rfl
  · rfl

theorem port_change_prc_fst (E : errno_h) (X : xhci_ext) (events : Nat) (s : xhci_rh_t)
    (i : Nat) :
    (port_change_prc E X events s i).1
      = if events &&& XHCI_REG_MASK X.layout.PRC ≠ 0 then
          clear_mask32 events (XHCI_REG_MASK X.layout.PRC)
        else events := by
  unfold port_change_prc
  simp only []
  split
  · split <;> rfl
  · rfl

theorem portsc_rd_lt (s : xhci_rh_t) (i : Nat) : s.portsc_rd i < 2 ^ 32 :=
  Nat.mod_lt _ (by norm_num)

theorem port_change_mask_testBit (P : xhci_port_layout) (j : Nat) :
    (port_change_mask P).testBit j
      = (decide (P.CSC = j) || decide (P.PEC = j) || decide (P.WRC = j) || decide (P.OCC = j)
          || decide (P.PRC = j) || decide (P.PLC = j) || decide (P.CEC = j)) := by
  simp only [port_change_mask, Nat.testBit_lor, XHCI_REG_MASK_testBit]

/-- The loop body is the write-back, the connect-status-change stage and the
rest, in this order. -/
theorem port_change_body_eq_rest (E : errno_h) (X : xhci_ext) (s : xhci_rh_t) (i : Nat) :
    port_change_body E X s i
      = port_change_rest E X (port_change_csc E X (s.portsc_rd i &&& port_change_mask X.layout)
          (port_change_ack X s i) i) i := rfl

/-- After the seven stages of the loop body no event is pending: the warning
of line 420 is never given. -/
theorem port_change_rest_scan_events (E : errno_h) (X : xhci_ext) (r : Nat × xhci_rh_t)
    (i : Nat) (hlt : r.1 < 2 ^ 32)
    (hbits : ∀ j, r.1.testBit j = true → X.layout.PEC = j ∨ X.layout.WRC = j ∨
      X.layout.OCC = j ∨ X.layout.PRC = j ∨ X.layout.PLC = j ∨ X.layout.CEC = j) :
    (port_change_rest E X r i).scan_events = r.2.scan_events := by
  unfold port_change_rest
  simp only []
  generalize hr3 : port_change_flag r.1 X.layout.PEC (.port_enabled_changed i) r.2 = r3
  have e3 : r3.2.scan_events = r.2.scan_events := by
    rw [← hr3]
    exact port_change_flag_scan_events _ _ _ _ rfl
  have f3 := port_change_flag_fst r.1 X.layout.PEC (.port_enabled_changed i) r.2
  rw [hr3] at f3
  have t3 : ∀ j, r3.1.testBit j = (r.1.testBit j && !decide (X.layout.PEC = j)) := fun j => by
    rw [f3]
    exact clear_step_testBit _ _ j hlt
  have b3 : r3.1 < 2 ^ 32 := by
    rw [f3]
    exact clear_step_lt _ _ hlt
  generalize hr4 : port_change_flag r3.1 X.layout.WRC (.warm_reset_completed i) r3.2 = r4
  have e4 : r4.2.scan_events = r3.2.scan_events := by
    rw [← hr4]
    exact port_change_flag_scan_events _ _ _ _ rfl
  have f4 := port_change_flag_fst r3.1 X.layout.WRC (.warm_reset_completed i) r3.2
  rw [hr4] at f4
  have t4 : ∀ j, r4.1.testBit j = (r3.1.testBit j && !decide (X.layout.WRC = j)) := fun j => by
    rw [f4]
    exact clear_step_testBit _ _ j b3
  have b4 : r4.1 < 2 ^ 32 := by
    rw [f4]
    exact clear_step_lt _ _ b3
  generalize hr5 : port_change_flag r4.1 X.layout.OCC (.over_current_change i) r4.2 = r5
  have e5 : r5.2.scan_events = r4.2.scan_events := by
    rw [← hr5]
    exact port_change_flag_scan_events _ _ _ _ rfl
  have f5 := port_change_flag_fst r4.1 X.layout.OCC (.over_current_change i) r4.2
  rw [hr5] at f5
  have t5 : ∀ j, r5.1.testBit j = (r4.1.testBit j && !decide (X.layout.OCC = j)) := fun j => by
    rw [f5]
    exact clear_step_testBit _ _ j b4
  have b5 : r5.1 < 2 ^ 32 := by
    rw [f5]
    exact clear_step_lt _ _ b4
  generalize hr6 : port_change_prc E X r5.1 r5.2 i = r6
  have e6 : r6.2.scan_events = r5.2.scan_events := by
    rw [← hr6]
    exact port_change_prc_scan_events E X _ _ i
  have f6 := port_change_prc_fst E X r5.1 r5.2 i
  rw [hr6] at f6
  have t6 : ∀ j, r6.1.testBit j = (r5.1.testBit j && !decide (X.layout.PRC = j)) := fun j => by
    rw [f6]
    exact clear_step_testBit _ _ j b5
  have b6 : r6.1 < 2 ^ 32 := by
    rw [f6]
    exact clear_step_lt _ _ b5
  generalize hr7 : port_change_flag r6.1 X.layout.PLC (.link_state_changed i) r6.2 = r7
  have e7 : r7.2.scan_events = r6.2.scan_events := by
    rw [← hr7]
    exact port_change_flag_scan_events _ _ _ _ rfl
  have f7 := port_change_flag_fst r6.1 X.layout.PLC (.link_state_changed i) r6.2
  rw [hr7] at f7
  have t7 : ∀ j, r7.1.testBit j = (r6.1.testBit j && !decide (X.layout.PLC = j)) := fun j => by
    rw [f7]
    exact clear_step_testBit _ _ j b6
  have b7 : r7.1 < 2 ^ 32 := by
    rw [f7]
    exact clear_step_lt _ _ b6
  generalize hr8 : port_change_flag r7.1 X.layout.CEC (.configure_link_failed i) r7.2 = r8
  have e8 : r8.2.scan_events = r7.2.scan_events := by
    rw [← hr8]
    exact port_change_flag_scan_events _ _ _ _ rfl
  have f8 := port_change_flag_fst r7.1 X.layout.CEC (.configure_link_failed i) r7.2
  rw [hr8] at f8
  have t8 : ∀ j, r8.1.testBit j = (r7.1.testBit j && !decide (X.layout.CEC = j)) := fun j => by
    rw [f8]
    exact clear_step_testBit _ _ j b7
  have z : r8.1 = 0 := by
    apply Nat.eq_of_testBit_eq
    intro j
    rw [t8, t7, t6, t5, t4, t3, Nat.zero_testBit]
    cases hj : r.1.testBit j
    · simp
    · rcases hbits j hj with h | h | h | h | h | h <;> simp [h]
  rw [if_neg (by simp [z]), e8, e7, e6, e5, e4, e3]

/-- The scan events of one pass of the loop body over port `i`: the write-back
of the status read and nothing else, whatever the status is. -/
theorem port_change_body_scan_events (E : errno_h) (X : xhci_ext) (s : xhci_rh_t) (i : Nat) :
    (port_change_body E X s i).scan_events
      = s.scan_events ++ [.portsc_write i (s.portsc_rd i)] := by
  rw [port_change_body_eq_rest, port_change_rest_scan_events, port_change_csc_scan_events,
    port_change_ack_scan_events]
  · rw [port_change_csc_fst]
    exact clear_step_lt _ _ (lt_of_le_of_lt Nat.and_le_left (portsc_rd_lt s i))
  · intro j hj
    rw [port_change_csc_fst, clear_step_testBit _ _ j
      (lt_of_le_of_lt Nat.and_le_left (portsc_rd_lt s i)), Nat.testBit_land,
      port_change_mask_testBit] at hj
    simp only [Bool.and_eq_true, Bool.or_eq_true, decide_eq_true_eq, Bool.not_eq_true',
      decide_eq_false_iff_not] at hj
    obtain ⟨⟨-, h⟩, hn⟩ := hj
    tauto

theorem port_change_body_portsc_rd (E : errno_h) (X : xhci_ext) (s : xhci_rh_t) (i p : Nat)
    (hi : 1 ≤ i) (hp : 1 ≤ p) (hne : p ≠ i) :
    (port_change_body E X s i).portsc_rd p = s.portsc_rd p :=
  portsc_rd_congr p ((port_change_body_ports_except E X s i).2.2 (p - 1) (by omega))

/-- The scan events of a run of the port loop from index `i`, however it
ends: the write-backs for the ports `i`, `i + 1`, ... up to the port at which
the run ended, each with the status of its port, and for all ports up to
`max_ports` when the run left the loop. -/
theorem port_change_loop_scan_events (E : errno_h) (X : xhci_ext) :
    ∀ (fuel i : Nat) (s : xhci_rh_t), 1 ≤ i → i ≤ 255 → i ≤ s.max_ports + 1 →
      ∃ k, i + k ≤ s.max_ports + 1 ∧
        (port_change_loop E X fuel i s).state.scan_events = s.scan_events ++
          (List.range' i k).map (fun p => rh_action.portsc_write p (s.portsc_rd p)) ∧
        (∀ s1, port_change_loop E X fuel i s = .finished s1 → i + k = s.max_ports + 1) := by
  intro fuel
  induction fuel with
  | zero =>
    intro i s _ _ hle
    exact ⟨0, hle, by simp [port_change_loop, rh_run.state], by simp [port_change_loop]⟩
  | succ fuel ih =>
    intro i s hi h8 hle
    by_cases h1 : i ≤ s.max_ports
    · by_cases h2 : 1 ≤ i ∧ i ≤ s.portsc.length
      · have hmax : (port_change_body E X s i).max_ports = s.max_ports :=
          (port_change_body_ports_except E X s i).1
        by_cases h3 : i + 1 < 256
        · have hmod : (i + 1) % 256 = i + 1 := Nat.mod_eq_of_lt h3
          obtain ⟨k, k1, k2, k3⟩ := ih (i + 1) (port_change_body E X s i) (by omega)
            (by omega) (by rw [hmax]; omega)
          rw [hmax] at k1 k3
          refine ⟨k + 1, by omega, ?_, ?_⟩
          · simp only [port_change_loop, h1, h2, hmod, if_true, and_self]
            rw [k2, port_change_body_scan_events, List.range'_succ, List.map_cons,
              List.append_assoc, List.singleton_append]
            congr 2
            apply List.map_congr_left
            intro p hp
            rw [List.mem_range'_1] at hp
            rw [port_change_body_portsc_rd E X s i p hi (by omega) (by omega)]
          · intro s1 hs1
            simp only [port_change_loop, h1, h2, hmod, if_true, and_self] at hs1
            have := k3 s1 hs1
            omega
        · have hmod : (i + 1) % 256 = 0 := by omega
          have hend : (port_change_loop E X fuel 0 (port_change_body E X s i)).state
                = port_change_body E X s i ∧
              ∀ s1, port_change_loop E X fuel 0 (port_change_body E X s i) ≠ .finished s1 := by
            cases fuel with
            | zero => exact ⟨rfl, fun s1 h => by simp [port_change_loop] at h⟩
            | succ f => exact ⟨by simp [port_change_loop, rh_run.state],
                fun s1 h => by simp [port_change_loop] at h⟩
          refine ⟨1, by omega, ?_, ?_⟩
          · simp only [port_change_loop, h1, h2, hmod, if_true, and_self]
            rw [hend.1, port_change_body_scan_events]
            rfl
          · intro s1 hs1
            simp only [port_change_loop, h1, h2, hmod, if_true, and_self] at hs1
            exact absurd hs1 (hend.2 s1)
      · exact ⟨0, hle, by simp [port_change_loop, h1, h2, rh_run.state],
          by simp [port_change_loop, h1, h2]⟩
    · exact ⟨0, hle, by simp [port_change_loop, h1, rh_run.state],
        fun _ _ => by omega⟩

/-- C13: the register write-backs with which the examinations of the ports
begin are, in every run of `xhci_rh_handle_port_change`, those for the ports
1, 2, ..., `k` in this order, each with the status read from its port, where
`k` is `max_ports` when the run left the loop; with at most 254 ports, a
register for each and enough fuel the run leaves the loop, having run the loop
body once for each of the ports 1, ..., `max_ports` in this order.  Within one
port the loop body is the write-back, then the connect-status-change stage
(lines 370-380), then the handling of the other change bits (lines 382-422). -/
theorem xhci_rh_handle_port_change_order (E : errno_h) (X : xhci_ext) (fuel : Nat)
    (s : xhci_rh_t) :
    (∃ k, k ≤ s.max_ports ∧
      (xhci_rh_handle_port_change E X fuel s).state.scan_events = s.scan_events ++
        (List.range' 1 k).map (fun p => rh_action.portsc_write p (s.portsc_rd p)) ∧
      (∀ s1, xhci_rh_handle_port_change E X fuel s = .finished s1 → k = s.max_ports)) ∧
    (s.max_ports < 255 → s.max_ports ≤ s.portsc.length → s.max_ports < fuel →
      xhci_rh_handle_port_change E X fuel s
        = .finished (port_change_from E X s.max_ports 1 s)) ∧
    (∀ t i, port_change_body E X t i
      = port_change_rest E X (port_change_csc E X (t.portsc_rd i &&& port_change_mask X.layout)
          (port_change_ack X t i) i) i) := by
  refine ⟨?_, ?_, fun _ _ => rfl⟩
  · obtain ⟨k, k1, k2, k3⟩ := port_change_loop_scan_events E X fuel 1 s (le_refl 1)
      (by norm_num) (by omega)
    exact ⟨k, by omega, k2, fun s1 h => by have := k3 s1 h; omega⟩
  · intro hmax hregs hfuel
    exact port_change_loop_finished E X s.max_ports 1 s fuel (le_refl 1) (by omega) hmax hregs
      hfuel

/-- A hub of three ports with changes pending on ports 1 and 3. -/
theorem xhci_rh_handle_port_change_order_witness :
    (rh_sample [0x20e01, 0, 0x221203]).max_ports < 255 ∧
    xhci_rh_handle_port_change errno_sample (xhci_ext_sample 0) 4
        (rh_sample [0x20e01, 0, 0x221203])
      = .finished (port_change_from errno_sample (xhci_ext_sample 0) 3 1
          (rh_sample [0x20e01, 0, 0x221203])) ∧
    (port_change_from errno_sample (xhci_ext_sample 0) 3 1
        (rh_sample [0x20e01, 0, 0x221203])).scan_events
      = [.portsc_write 1 0x20e01, .portsc_write 2 0, .portsc_write 3 0x221203] :=
  ⟨by decide,
    (xhci_rh_handle_port_change_order errno_sample (xhci_ext_sample 0) 4
      (rh_sample [0x20e01, 0, 0x221203])).2.1 (by decide) (by decide) (by decide),
    by decide⟩

/-- C15 as stated fails: the status 0x1203 of a connected, enabled and powered
USB 3 port has four bits set, none of them one of the seven change bits, and
the invocation writes the status back and logs nothing. -/
theorem xhci_rh_handle_port_change_logs_nothing :
    (rh_sample [portsc_usb3_enabled]).portsc_rd 1 = 0x1203 ∧
    (rh_sample [portsc_usb3_enabled]).portsc_rd 1 &&& port_change_mask xhci_layout_sample = 0 ∧
    xhci_rh_handle_port_change errno_sample (xhci_ext_sample 0) 2
        (rh_sample [portsc_usb3_enabled])
      = .finished (port_change_from errno_sample (xhci_ext_sample 0) 1 1
          (rh_sample [portsc_usb3_enabled])) ∧
    (port_change_from errno_sample (xhci_ext_sample 0) 1 1
      (rh_sample [portsc_usb3_enabled])).trace = [.portsc_write 1 0x1203] := by
  refine ⟨by decide, by decide, by decide, by decide⟩

/-- C15, amended: no run of `xhci_rh_handle_port_change` adds a warning
"change ignored" to the trace, whatever the status values of the ports are:
the bits outside the seven change bits are masked off before the change bits
are looked at, so they are neither handled nor logged, and the run has no
error to report. -/
theorem xhci_rh_handle_port_change_nothing_ignored (E : errno_h) (X : xhci_ext) (fuel : Nat)
    (s : xhci_rh_t) (events port : Nat) :
    (xhci_rh_handle_port_change E X fuel s).state.trace.count
        (.usb_log (.change_ignored events port))
      = s.trace.count (.usb_log (.change_ignored events port)) := by
  obtain ⟨k, -, k2, -⟩ := port_change_loop_scan_events E X fuel 1 s (le_refl 1)
    (by norm_num) (by omega)
  have h1 : ∀ t : xhci_rh_t, t.scan_events.count (.usb_log (.change_ignored events port))
      = t.trace.count (.usb_log (.change_ignored events port)) := fun t =>
    List.count_filter rfl
  have h2 : ((List.range' 1 k).map (fun p => rh_action.portsc_write p (s.portsc_rd p))).count
      (.usb_log (.change_ignored events port)) = 0 := by
    rw [List.count_eq_zero]
    intro hmem
    rw [List.mem_map] at hmem
    obtain ⟨p, -, hp⟩ := hmem
    cases hp
  unfold xhci_rh_handle_port_change
  rw [← h1, k2, List.count_append, h2, h1, Nat.add_zero]

/-- C11: the pass of the loop body of `xhci_rh_handle_port_change` over port
`i` invokes `handle_connected_device` for port `i`, and not
`handle_disconnected_device`, when the connect-status-change bit is set in the
status read and the CCS flag reads 1 after the write-back; it invokes
`handle_disconnected_device` for port `i`, and not `handle_connected_device`,
when the bit is set and the CCS flag reads 0; and it invokes neither when the
bit is clear.  In each case the pass goes on with `port_change_rest`, lines
382-422, on the state that the handler, if any, has left. -/
theorem port_change_body_connect_status (E : errno_h) (X : xhci_ext) (s : xhci_rh_t)
    (i : Nat) :
    (s.portsc_rd i &&& XHCI_REG_MASK X.layout.CSC ≠ 0 →
      XHCI_REG_RD_FLAG ((port_change_ack X s i).portsc_rd i) X.layout.CCS ≠ 0 →
      port_change_body E X s i = port_change_rest E X
        (clear_mask32 (s.portsc_rd i &&& port_change_mask X.layout)
            (XHCI_REG_MASK X.layout.CSC),
          (handle_connected_device E X
            ((port_change_ack X s i).emit (.usb_log (.connected_state_changed i))) i).2) i) ∧
    (s.portsc_rd i &&& XHCI_REG_MASK X.layout.CSC ≠ 0 →
      XHCI_REG_RD_FLAG ((port_change_ack X s i).portsc_rd i) X.layout.CCS = 0 →
      port_change_body E X s i = port_change_rest E X
        (clear_mask32 (s.portsc_rd i &&& port_change_mask X.layout)
            (XHCI_REG_MASK X.layout.CSC),
          (handle_disconnected_device X
            ((port_change_ack X s i).emit (.usb_log (.connected_state_changed i))) i).2) i) ∧
    (s.portsc_rd i &&& XHCI_REG_MASK X.layout.CSC = 0 →
      port_change_body E X s i = port_change_rest E X
        (s.portsc_rd i &&& port_change_mask X.layout, port_change_ack X s i) i) := by
  refine ⟨?_, ?_, ?_⟩
  · intro hcsc hccs
    rw [port_change_body_eq_rest]
    congr 1
    simp only [port_change_csc, port_change_mask_land_CSC, hcsc, hccs, emit_portsc_rd, ne_eq,
      not_false_eq_true, if_true]
  · intro hcsc hccs
    rw [port_change_body_eq_rest]
    congr 1
    simp only [port_change_csc, port_change_mask_land_CSC, hcsc, hccs, emit_portsc_rd, ne_eq,
      not_false_eq_true, not_true_eq_false, if_true, if_false]
  · intro hcsc
    rw [port_change_body_eq_rest]
    congr 1
    simp only [port_change_csc, port_change_mask_land_CSC, hcsc, ne_eq, not_true_eq_false,
      if_false]

/-- A port without a device whose status has the connect-status-change bit
set and the CCS flag clear. -/
theorem port_change_body_connect_status_witness :
    (rh_sample [0x20000]).portsc_rd 1 &&& XHCI_REG_MASK (xhci_ext_sample 0).layout.CSC ≠ 0 ∧
    XHCI_REG_RD_FLAG ((port_change_ack (xhci_ext_sample 0) (rh_sample [0x20000]) 1).portsc_rd 1)
      (xhci_ext_sample 0).layout.CCS = 0 ∧
    port_change_body errno_sample (xhci_ext_sample 0) (rh_sample [0x20000]) 1
      = port_change_rest errno_sample (xhci_ext_sample 0)
        (clear_mask32 ((rh_sample [0x20000]).portsc_rd 1 &&&
            port_change_mask (xhci_ext_sample 0).layout)
            (XHCI_REG_MASK (xhci_ext_sample 0).layout.CSC),
          (handle_disconnected_device (xhci_ext_sample 0)
            ((port_change_ack (xhci_ext_sample 0) (rh_sample [0x20000]) 1).emit
              (.usb_log (.connected_state_changed 1))) 1).2) 1 :=
  ⟨by decide, by decide,
    (port_change_body_connect_status errno_sample (xhci_ext_sample 0) (rh_sample [0x20000])
      1).2.1 (by decide) (by decide)⟩

theorem xhci_rh_get_port_speed_congr (X : xhci_ext) {s s1 : xhci_rh_t} (i : Nat)
    (h : s1.portsc = s.portsc) :
    xhci_rh_get_port_speed X s1 i = xhci_rh_get_port_speed X s i := by
  simp only [xhci_rh_get_port_speed, xhci_rh_t.portsc_rd, h]

/-- The port events of lines 382-422 when the port-reset-change bit is among
the pending events and is none of the three bits handled before it: an
enumeration of port `i` exactly when the speed of the port is not USB 3. -/
theorem port_change_rest_port_events (E : errno_h) (X : xhci_ext) (r : Nat × xhci_rh_t)
    (i : Nat) (hlt : r.1 < 2 ^ 32) (hprc : r.1.testBit X.layout.PRC = true)
    (h1 : X.layout.PEC ≠ X.layout.PRC) (h2 : X.layout.WRC ≠ X.layout.PRC)
    (h3 : X.layout.OCC ≠ X.layout.PRC) :
    (port_change_rest E X r i).port_events = r.2.port_events ++
      (if (xhci_rh_get_port_speed X r.2 i).major ≠ 3 then [.hcd_ddf_device_create i] else []) := by
  unfold port_change_rest
  simp only []
  generalize hr3 : port_change_flag r.1 X.layout.PEC (.port_enabled_changed i) r.2 = r3
  have e3 : r3.2.port_events = r.2.port_events := by rw [← hr3]; simp
  have p3 : r3.2.portsc = r.2.portsc := by rw [← hr3]; simp
  have f3 := port_change_flag_fst r.1 X.layout.PEC (.port_enabled_changed i) r.2
  rw [hr3] at f3
  have t3 : r3.1.testBit X.layout.PRC = true := by
    rw [f3, clear_step_testBit _ _ _ hlt, hprc]
    simp [h1]
  have b3 : r3.1 < 2 ^ 32 := by
    rw [f3]
    exact clear_step_lt _ _ hlt
  generalize hr4 : port_change_flag r3.1 X.layout.WRC (.warm_reset_completed i) r3.2 = r4
  have e4 : r4.2.port_events = r3.2.port_events := by rw [← hr4]; simp
  have p4 : r4.2.portsc = r3.2.portsc := by rw [← hr4]; simp
  have f4 := port_change_flag_fst r3.1 X.layout.WRC (.warm_reset_completed i) r3.2
  rw [hr4] at f4
  have t4 : r4.1.testBit X.layout.PRC = true := by
    rw [f4, clear_step_testBit _ _ _ b3, t3]
    simp [h2]
  have b4 : r4.1 < 2 ^ 32 := by
    rw [f4]
    exact clear_step_lt _ _ b3
  generalize hr5 : port_change_flag r4.1 X.layout.OCC (.over_current_change i) r4.2 = r5
  have e5 : r5.2.port_events = r4.2.port_events := by rw [← hr5]; simp
  have p5 : r5.2.portsc = r4.2.portsc := by rw [← hr5]; simp
  have f5 := port_change_flag_fst r4.1 X.layout.OCC (.over_current_change i) r4.2
  rw [hr5] at f5
  have t5 : r5.1.testBit X.layout.PRC = true := by
    rw [f5, clear_step_testBit _ _ _ b4, t4]
    simp [h3]
  have hspeed : xhci_rh_get_port_speed X r5.2 i = xhci_rh_get_port_speed X r.2 i :=
    xhci_rh_get_port_speed_congr X i (p5.trans (p4.trans p3))
  have e6 := (port_change_prc_ports E X r5.1 r5.2 i).2.2
  rw [hspeed] at e6
  generalize hr6 : port_change_prc E X r5.1 r5.2 i = r6 at e6
  have c6 : r5.1 &&& XHCI_REG_MASK X.layout.PRC ≠ 0 := (land_mask_ne_zero_iff _ _).mpr t5
  simp only [c6, ne_eq, not_false_eq_true, true_and] at e6
  rw [← e3, ← e4, ← e5, ← e6]
  split <;> simp [rh_action.is_port_event]

theorem with_history_emit (t : xhci_rh_t) (tr : List rh_action) (a : rh_action) :
    (t.with_history tr).emit a = (t.emit a).with_history tr := by
  simp only [xhci_rh_t.with_history, xhci_rh_t.emit, List.append_assoc]

theorem with_history_upd_dev (t : xhci_rh_t) (tr : List rh_action) (d : Nat)
    (f : xhci_device_t → xhci_device_t) :
    (t.with_history tr).upd_dev d f = (t.upd_dev d f).with_history tr := rfl

theorem with_history_dcbaa_store (t : xhci_rh_t) (tr : List rh_action) (a b : Nat) :
    (t.with_history tr).dcbaa_store a b = (t.dcbaa_store a b).with_history tr := rfl

theorem with_history_devices_store (t : xhci_rh_t) (tr : List rh_action) (a : Nat)
    (b : Option Nat) :
    (t.with_history tr).devices_store a b = (t.devices_store a b).with_history tr := rfl

theorem with_history_attach (t : xhci_rh_t) (tr : List rh_action) (a : Nat) :
    (t.with_history tr).attach a = (t.attach a).with_history tr := rfl

theorem with_history_detach (t : xhci_rh_t) (tr : List rh_action) (a : Nat) :
    (t.with_history tr).detach a = (t.detach a).with_history tr := rfl

theorem with_history_alloc_dev (t : xhci_rh_t) (tr : List rh_action) (a : xhci_device_t) :
    (t.with_history tr).alloc_dev a = (t.alloc_dev a).with_history tr := rfl

theorem with_history_destroy (t : xhci_rh_t) (tr : List rh_action) (a : Nat) :
    (t.with_history tr).destroy a = (t.destroy a).with_history tr := rfl

theorem with_history_portsc_wr (X : xhci_ext) (t : xhci_rh_t) (tr : List rh_action)
    (i v : Nat) : (t.with_history tr).portsc_wr X i v = (t.portsc_wr X i v).with_history tr := rfl

theorem emit_devs (s : xhci_rh_t) (a : rh_action) : (s.emit a).devs = s.devs := rfl

theorem with_history_dev (t : xhci_rh_t) (tr : List rh_action) (d : Nat) :
    (t.with_history tr).dev d = t.dev d := rfl

theorem with_history_devs (t : xhci_rh_t) (tr : List rh_action) :
    (t.with_history tr).devs = t.devs := rfl

theorem with_history_device_at (t : xhci_rh_t) (tr : List rh_action) (p : Nat) :
    (t.with_history tr).device_at p = t.device_at p := rfl

theorem with_history_portsc_rd (t : xhci_rh_t) (tr : List rh_action) (p : Nat) :
    (t.with_history tr).portsc_rd p = t.portsc_rd p := rfl

theorem with_history_portsc (t : xhci_rh_t) (tr : List rh_action) :
    (t.with_history tr).portsc = t.portsc := rfl

theorem with_history_max_ports (t : xhci_rh_t) (tr : List rh_action) :
    (t.with_history tr).max_ports = t.max_ports := rfl

theorem with_history_get_port_speed (X : xhci_ext) (t : xhci_rh_t) (tr : List rh_action)
    (p : Nat) : xhci_rh_get_port_speed X (t.with_history tr) p = xhci_rh_get_port_speed X t p :=
  rfl

theorem with_history_port_link_state (X : xhci_ext) (t : xhci_rh_t) (tr : List rh_action)
    (p : Nat) : port_link_state X (t.with_history tr) p = port_link_state X t p := rfl

theorem with_history_reset_port (X : xhci_ext) (t : xhci_rh_t) (tr : List rh_action)
    (p : Nat) :
    xhci_rh_reset_port X (t.with_history tr) p
      = ((xhci_rh_reset_port X t p).1, (xhci_rh_reset_port X t p).2.with_history tr) := by
  simp only [xhci_rh_reset_port, with_history_emit, with_history_portsc_rd,
    with_history_portsc_wr]

theorem with_history_bus_register_endpoint (X : xhci_ext) (H : ext_ignores_history X)
    (t : xhci_rh_t) (tr : List rh_action) (dev : Nat) (desc : usb_endpoint_desc_t) :
    bus_register_endpoint X (t.with_history tr) dev desc
      = ((bus_register_endpoint X t dev desc).1,
          (bus_register_endpoint X t dev desc).2.with_history tr) := by
  simp only [bus_register_endpoint, with_history_emit, with_history_upd_dev,
    H.bus_register_endpoint]
  split <;> rfl

theorem with_history_bus_unregister_endpoint (X : xhci_ext) (H : ext_ignores_history X)
    (t : xhci_rh_t) (tr : List rh_action) (dev ep : Nat) :
    bus_unregister_endpoint X (t.with_history tr) dev ep
      = ((bus_unregister_endpoint X t dev ep).1,
          (bus_unregister_endpoint X t dev ep).2.with_history tr) := by
  simp only [bus_unregister_endpoint, with_history_emit, with_history_upd_dev,
    H.bus_unregister_endpoint]
  split <;> rfl

theorem with_history_address_publish (X : xhci_ext) (H : ext_ignores_history X)
    (t : xhci_rh_t) (tr : List rh_action) (dev port : Nat) :
    address_publish X (t.with_history tr) dev port
      = (address_publish X t dev port).with_history tr := by
  simp only [address_publish, with_history_emit, with_history_upd_dev,
    with_history_bus_register_endpoint X H, with_history_device_at,
    with_history_devices_store]
  split <;> rfl

theorem with_history_address_device (E : errno_h) (X : xhci_ext) (H : ext_ignores_history X)
    (t : xhci_rh_t) (tr : List rh_action) (dev : Nat) :
    xhci_rh_address_device E X (t.with_history tr) dev
      = ((xhci_rh_address_device E X t dev).1,
          (xhci_rh_address_device E X t dev).2.with_history tr) := by
  simp only [xhci_rh_address_device, with_history_emit, with_history_upd_dev,
    with_history_dcbaa_store, with_history_dev, with_history_get_port_speed,
    with_history_address_publish X H, H.hc_enable_slot, H.bus_create_endpoint,
    H.xhci_endpoint_alloc_transfer_ds, H.ring_dequeue, H.malloc32, H.hc_address_rh_device,
    address_err_ep, address_err_ds, address_err_dctx]
  split
  · rfl
  · split
    · rfl
    · split
      · rfl
      · split
        · rename_i h
          simp only [h]
        · rename_i ctx h
          simp only [h]
          split <;> rfl

theorem with_history_setup_device (E : errno_h) (X : xhci_ext) (H : ext_ignores_history X)
    (t : xhci_rh_t) (tr : List rh_action) (port_id : Nat) :
    rh_setup_device E X (t.with_history tr) port_id
      = ((rh_setup_device E X t port_id).1,
          (rh_setup_device E X t port_id).2.with_history tr) := by
  simp only [rh_setup_device, xhci_bus_enumerate_device, hcd_ddf_device_destroy,
    with_history_emit, with_history_alloc_dev, with_history_attach, with_history_destroy,
    with_history_devs, with_history_address_device E X H, H.hcd_ddf_device_create,
    H.ddf_fun_get_name, H.ddf_fun_bind, emit_devs]
  split
  · rfl
  · split
    · rfl
    · split
      · simp only [with_history_emit, with_history_attach, with_history_destroy,
          H.ddf_fun_bind]
        split <;> rfl
      · simp only [with_history_emit, with_history_attach, with_history_destroy,
          H.ddf_fun_bind]
        split <;> rfl

theorem with_history_connected_device (E : errno_h) (X : xhci_ext) (H : ext_ignores_history X)
    (t : xhci_rh_t) (tr : List rh_action) (port_id : Nat) :
    handle_connected_device E X (t.with_history tr) port_id
      = ((handle_connected_device E X t port_id).1,
          (handle_connected_device E X t port_id).2.with_history tr) := by
  simp only [handle_connected_device, with_history_emit, with_history_get_port_speed,
    with_history_port_link_state, with_history_setup_device E X H, with_history_reset_port]
  split
  · split
    · rfl
    · split <;> rfl
  · rfl

theorem with_history_abort_active_transfers (X : xhci_ext) (H : ext_ignores_history X)
    (dev : Nat) (tr : List rh_action) :
    ∀ (eps : List (Option endpoint_t)) (i : Nat) (t : xhci_rh_t),
      abort_active_transfers X dev eps i (t.with_history tr)
        = (abort_active_transfers X dev eps i t).with_history tr := by
  intro eps
  induction eps with
  | nil => intro i t; rfl
  | cons ep eps ih =>
    intro i t
    cases ep with
    | none => simpa [abort_active_transfers] using ih (i + 1) t
    | some ep =>
      simp only [abort_active_transfers, with_history_emit, H.xhci_transfer_abort]
      split
      · exact ih (i + 1) t
      · split
        · rw [ih]
        · rw [ih]

theorem with_history_teardown_step (t : xhci_rh_t) (tr : List rh_action) (a : rh_action)
    (f : xhci_rh_t → Int) (msg : Int → rh_msg)
    (hf : ∀ (t : xhci_rh_t) (tr : List rh_action), f (t.with_history tr) = f t) :
    teardown_step (t.with_history tr) a f msg = (teardown_step t a f msg).with_history tr := by
  simp only [teardown_step, with_history_emit, hf]
  split <;> rfl

theorem with_history_disconnect_unpublish (t : xhci_rh_t) (tr : List rh_action)
    (port_id dev : Nat) :
    disconnect_unpublish (t.with_history tr) port_id dev
      = (disconnect_unpublish t port_id dev).with_history tr := by
  simp only [disconnect_unpublish, with_history_emit, with_history_upd_dev,
    with_history_detach, with_history_devices_store]

theorem with_history_disconnect_teardown (X : xhci_ext) (H : ext_ignores_history X)
    (t : xhci_rh_t) (tr : List rh_action) (dev : Nat) :
    disconnect_teardown X (t.with_history tr) dev
      = (disconnect_teardown X t dev).with_history tr := by
  simp only [disconnect_teardown, hcd_ddf_device_destroy, with_history_dev,
    with_history_abort_active_transfers X H,
    with_history_teardown_step _ _ _ _ _ H.ddf_fun_unbind,
    with_history_bus_unregister_endpoint X H]
  split
  · simp only [with_history_emit, with_history_dev, with_history_destroy,
      with_history_teardown_step _ _ _ _ _ H.hc_deconfigure_device,
      with_history_teardown_step _ _ _ _ _ H.xhci_bus_remove_device,
      with_history_teardown_step _ _ _ _ _ H.hc_disable_slot]
  · simp only [with_history_emit, with_history_dev, with_history_destroy,
      with_history_teardown_step _ _ _ _ _ H.hc_deconfigure_device,
      with_history_teardown_step _ _ _ _ _ H.xhci_bus_remove_device,
      with_history_teardown_step _ _ _ _ _ H.hc_disable_slot]

theorem with_history_disconnected_device (X : xhci_ext) (H : ext_ignores_history X)
    (t : xhci_rh_t) (tr : List rh_action) (port_id : Nat) :
    handle_disconnected_device X (t.with_history tr) port_id
      = ((handle_disconnected_device X t port_id).1,
          (handle_disconnected_device X t port_id).2.with_history tr) := by
  simp only [handle_disconnected_device, with_history_device_at,
    with_history_disconnect_unpublish, with_history_disconnect_teardown X H]
  split <;> rfl

theorem with_history_flag (events b : Nat) (msg : rh_msg) (t : xhci_rh_t)
    (tr : List rh_action) :
    port_change_flag events b msg (t.with_history tr)
      = ((port_change_flag events b msg t).1,
          (port_change_flag events b msg t).2.with_history tr) := by
  simp only [port_change_flag, with_history_emit]
  split <;> rfl

theorem with_history_ack (X : xhci_ext) (t : xhci_rh_t) (tr : List rh_action) (i : Nat) :
    port_change_ack X (t.with_history tr) i = (port_change_ack X t i).with_history tr := by
  simp only [port_change_ack, with_history_emit, with_history_portsc_rd, with_history_portsc_wr]

theorem with_history_csc (E : errno_h) (X : xhci_ext) (H : ext_ignores_history X)
    (events : Nat) (t : xhci_rh_t) (tr : List rh_action) (i : Nat) :
    port_change_csc E X events (t.with_history tr) i
      = ((port_change_csc E X events t i).1,
          (port_change_csc E X events t i).2.with_history tr) := by
  simp only [port_change_csc, with_history_emit, with_history_portsc_rd,
    with_history_connected_device E X H, with_history_disconnected_device X H]
  split
  · split <;> rfl
  · rfl

theorem with_history_prc (E : errno_h) (X : xhci_ext) (H : ext_ignores_history X)
    (events : Nat) (t : xhci_rh_t) (tr : List rh_action) (i : Nat) :
    port_change_prc E X events (t.with_history tr) i
      = ((port_change_prc E X events t i).1,
          (port_change_prc E X events t i).2.with_history tr) := by
  simp only [port_change_prc, with_history_emit, with_history_get_port_speed,
    with_history_setup_device E X H]
  split
  · split <;> rfl
  · rfl

theorem with_history_body (E : errno_h) (X : xhci_ext) (H : ext_ignores_history X)
    (t : xhci_rh_t) (tr : List rh_action) (i : Nat) :
    port_change_body E X (t.with_history tr) i
      = (port_change_body E X t i).with_history tr := by
  simp only [port_change_body, with_history_ack, with_history_portsc_rd,
    with_history_csc E X H, with_history_flag, with_history_prc E X H]
  split
  · rw [with_history_emit]
  · rfl

/-- A run of the port loop after a history is the run without the history,
with the history put before its trace. -/
theorem with_history_loop (E : errno_h) (X : xhci_ext) (H : ext_ignores_history X)
    (tr : List rh_action) :
    ∀ (fuel i : Nat) (t : xhci_rh_t),
      port_change_loop E X fuel i (t.with_history tr)
        = (port_change_loop E X fuel i t).with_history tr := by
  intro fuel
  induction fuel with
  | zero => intro i t; rfl
  | succ fuel ih =>
    intro i t
    simp only [port_change_loop, with_history_max_ports, with_history_portsc,
      with_history_body E X H]
    split
    · split
      · exact ih _ _
      · rfl
    · rfl

theorem emit_eq_with_history (s : xhci_rh_t) (a : rh_action) :
    s.emit a = s.no_history.with_history (s.trace ++ [a]) := by
  simp only [xhci_rh_t.emit, xhci_rh_t.no_history, xhci_rh_t.with_history, List.append_nil]

/-- The event handler is a debug message that names the port of the event,
followed by `xhci_rh_handle_port_change`. -/
theorem xhci_rh_handle_port_status_change_event_run (E : errno_h) (X : xhci_ext)
    (H : ext_ignores_history X) (fuel : Nat) (s : xhci_rh_t) (parameter : Nat) :
    xhci_rh_handle_port_status_change_event E X fuel s parameter
      = ((match xhci_rh_handle_port_change E X fuel s.no_history with
          | .finished _ => some EOK
          | _ => none),
        (xhci_rh_handle_port_change E X fuel s.no_history).with_history
          (s.trace ++ [.usb_log (.port_status_change_event ((parameter >>> 24) % 256))])) := by
  simp only [xhci_rh_handle_port_status_change_event, xhci_rh_handle_port_change,
    emit_eq_with_history, with_history_loop E X H]
  cases port_change_loop E X fuel 1 s.no_history <;> rfl

theorem xhci_ext_sample_ignores_history (bind : Int) :
    ext_ignores_history (xhci_ext_sample bind) :=
  ⟨fun _ _ => rfl, fun _ _ => rfl, fun _ _ => rfl, fun _ _ => rfl, fun _ _ => rfl,
    fun _ _ => rfl, fun _ _ => rfl, fun _ _ => rfl, fun _ _ => rfl, fun _ _ => rfl,
    fun _ _ => rfl, fun _ _ => rfl, fun _ _ => rfl, fun _ _ => rfl, fun _ _ => rfl,
    fun _ _ => rfl⟩

/-- C21: the context written by `setup_control_ep0_ctx` has endpoint type
control and a max packet size of 512 for a speed of major version 3 and of 8
for every other speed; and the context that `xhci_rh_address_device` hands to
the address-device command is such a context for the speed of the port of the
device. -/
theorem setup_control_ep0_ctx_max_packet_size (ctx : xhci_ep_ctx_t) (dequeue : Nat)
    (speed : xhci_port_speed_t) (X : xhci_ext) (s : xhci_rh_t) (dev c : Nat) :
    (setup_control_ep0_ctx ctx dequeue speed).ep_type = .EP_TYPE_CONTROL ∧
    (setup_control_ep0_ctx ctx dequeue speed).max_packet_size
      = (if speed.major = 3 then 512 else 8) ∧
    ∃ ep_ctx, (address_cmd_state X s dev c).trace = s.trace ++
        [.hc_enable_slot dev, .bus_create_endpoint, .xhci_endpoint_alloc_transfer_ds, .malloc32,
          .hc_address_rh_device (address_slot X s dev) (s.dev dev).base.port ep_ctx] ∧
      ep_ctx.ep_type = .EP_TYPE_CONTROL ∧
      ep_ctx.max_packet_size
        = (if (xhci_rh_get_port_speed X s (s.dev dev).base.port).major = 3 then 512 else 8) :=
  ⟨rfl, rfl, _, address_cmd_state_trace X s dev c, rfl, rfl⟩

/-- C22 fails on the code: after the successful enumeration of a device on a
USB 3 port the device is online and the endpoint context handed to the
address-device command has a max packet size of 512, but the control endpoint
is registered with `ep0_desc`, whose max packet size is
`CTRL_PIPE_MIN_PACKET_SIZE`: the registered endpoint 0 has a max packet size
of 8. -/
theorem rh_setup_device_usb3_registered_packet_size :
    (xhci_rh_get_port_speed (xhci_ext_sample 0) (rh_sample [portsc_usb3_enabled]) 1).major = 3 ∧
    (rh_setup_device errno_sample (xhci_ext_sample 0) (rh_sample [portsc_usb3_enabled]) 1).1
      = EOK ∧
    ((rh_setup_device errno_sample (xhci_ext_sample 0) (rh_sample [portsc_usb3_enabled])
      1).2.dev 0).online = true ∧
    rh_action.hc_address_rh_device 1 1
        { ep_type := .EP_TYPE_CONTROL, max_packet_size := 512, max_burst_size := 0, tr_dptr := 0,
          dcs := 1, interval := 0, max_p_streams := 0, mult := 0, error_count := 3 }
      ∈ (rh_setup_device errno_sample (xhci_ext_sample 0) (rh_sample [portsc_usb3_enabled])
          1).2.trace ∧
    rh_action.bus_register_endpoint 0 ep0_desc
      ∈ (rh_setup_device errno_sample (xhci_ext_sample 0) (rh_sample [portsc_usb3_enabled])
          1).2.trace ∧
    ep0_desc.max_packet_size = 8 ∧
    (((rh_setup_device errno_sample (xhci_ext_sample 0) (rh_sample [portsc_usb3_enabled])
      1).2.dev 0).endpoints.getD 0 none).map (fun ep => ep.max_packet_size) = some 8 := by
  refine ⟨by decide, by decide, by decide, by decide, by decide, by decide, by decide⟩

/-! ### Disconnect -/

/-- C23: when no device is recorded for the port, `handle_disconnected_device`
returns `EOK` and leaves the state as it is, trace included: nothing is stored
and no call is made. -/
theorem handle_disconnected_device_no_device (X : xhci_ext) (s : xhci_rh_t) (port_id : Nat)
    (h : s.device_at port_id = none) :
    handle_disconnected_device X s port_id = (EOK, s) := by
  simp only [handle_disconnected_device, h]

/-- A disconnect on port 2 of a hub without devices. -/
theorem handle_disconnected_device_no_device_witness :
    (rh_sample [0, 0x20000]).device_at 2 = none ∧
    handle_disconnected_device (xhci_ext_sample 0) (rh_sample [0, 0x20000]) 2
      = (EOK, rh_sample [0, 0x20000]) :=
  ⟨by decide,
    handle_disconnected_device_no_device (xhci_ext_sample 0) (rh_sample [0, 0x20000]) 2
      (by decide)⟩

theorem disconnect_unpublish_devices (s : xhci_rh_t) (port_id dev : Nat) :
    (disconnect_unpublish s port_id dev).devices = s.devices.set (port_id - 1) none := rfl

/-- After `handle_disconnected_device` no device is recorded for the port. -/
theorem handle_disconnected_device_device_at (X : xhci_ext) (s : xhci_rh_t) (port_id : Nat) :
    (handle_disconnected_device X s port_id).2.device_at port_id = none := by
  unfold handle_disconnected_device
  split
  · rename_i h
    exact h
  · rename_i dev h
    have h1 := (disconnect_teardown_map X (disconnect_unpublish s port_id dev) dev).1
    show (disconnect_teardown X (disconnect_unpublish s port_id dev) dev).device_at port_id = none
    rw [device_at_congr port_id h1]
    exact devices_store_device_at_self _ port_id none dev h

/-- C25: a second call of `handle_disconnected_device` for the same port,
right after the first, returns `EOK` and leaves the state that the first call
left, trace included; the first call returns `EOK` as well. -/
theorem handle_disconnected_device_idempotent (X : xhci_ext) (s : xhci_rh_t) (port_id : Nat) :
    (handle_disconnected_device X s port_id).1 = EOK ∧
    handle_disconnected_device X (handle_disconnected_device X s port_id).2 port_id
      = (EOK, (handle_disconnected_device X s port_id).2) := by
  refine ⟨?_, ?_⟩
  · unfold handle_disconnected_device
    split <;> rfl
  · have h := handle_disconnected_device_device_at X s port_id
    generalize (handle_disconnected_device X s port_id).2 = s1 at h
    simp only [handle_disconnected_device, h]

@[simp] theorem emit_commands (s : xhci_rh_t) (a : rh_action) :
    (s.emit a).commands = s.commands ++ (if a.is_command then [a] else []) := by
  simp only [xhci_rh_t.commands, xhci_rh_t.emit, List.filter_append]
  cases h : a.is_command <;> simp [List.filter, h]

@[simp] theorem upd_dev_commands (s : xhci_rh_t) (d : Nat) (f : xhci_device_t → xhci_device_t) :
    (s.upd_dev d f).commands = s.commands := rfl

@[simp] theorem detach_commands (s : xhci_rh_t) (a : Nat) :
    (s.detach a).commands = s.commands := rfl

@[simp] theorem devices_store_commands (s : xhci_rh_t) (a : Nat) (b : Option Nat) :
    (s.devices_store a b).commands = s.commands := rfl

@[simp] theorem destroy_commands (s : xhci_rh_t) (a : Nat) :
    (s.destroy a).commands = s.commands := rfl

theorem abort_active_transfers_commands (X : xhci_ext) (dev : Nat) :
    ∀ (eps : List (Option endpoint_t)) (i : Nat) (s : xhci_rh_t),
      (abort_active_transfers X dev eps i s).commands = s.commands ++
        (active_endpoints eps i).map (fun k => rh_action.xhci_transfer_abort dev k) := by
  intro eps
  induction eps with
  | nil => intro i s; simp [abort_active_transfers, active_endpoints]
  | cons ep eps ih =>
    intro i s
    cases ep with
    | none => simpa [abort_active_transfers, active_endpoints] using ih (i + 1) s
    | some ep =>
      simp only [abort_active_transfers, active_endpoints]
      split
      · exact ih (i + 1) s
      · rw [ih]
        split <;> simp [rh_action.is_command]

theorem abort_active_transfers_devs (X : xhci_ext) (dev : Nat) :
    ∀ (eps : List (Option endpoint_t)) (i : Nat) (s : xhci_rh_t),
      (abort_active_transfers X dev eps i s).devs = s.devs := by
  intro eps
  induction eps with
  | nil => intro i s; rfl
  | cons ep eps ih =>
    intro i s
    cases ep with
    | none => exact ih (i + 1) s
    | some ep =>
      simp only [abort_active_transfers]
      split
      · exact ih (i + 1) s
      · rw [ih]
        split <;> rfl

theorem teardown_step_commands (s : xhci_rh_t) (a : rh_action) (f : xhci_rh_t → Int)
    (msg : Int → rh_msg) (ha : a.is_command = true) :
    (teardown_step s a f msg).commands = s.commands ++ [a] := by
  have hlog : ∀ m, (rh_action.usb_log m).is_command = false := fun _ => rfl
  unfold teardown_step
  simp only []
  split <;> simp [ha, hlog]

theorem teardown_step_devs (s : xhci_rh_t) (a : rh_action) (f : xhci_rh_t → Int)
    (msg : Int → rh_msg) : (teardown_step s a f msg).devs = s.devs := by
  unfold teardown_step
  simp only []
  split <;> rfl

theorem dev_congr {s s1 : xhci_rh_t} (d : Nat) (h : s1.devs = s.devs) : s1.dev d = s.dev d := by
  simp only [xhci_rh_t.dev, h]

theorem bus_unregister_endpoint_commands (X : xhci_ext) (s : xhci_rh_t) (dev ep : Nat) :
    (bus_unregister_endpoint X s dev ep).2.commands
      = s.commands ++ [.bus_unregister_endpoint dev ep] := by
  unfold bus_unregister_endpoint
  simp only []
  split <;> simp [rh_action.is_command]

/-- The function `bus_unregister_endpoint` changes of the device objects at most the
endpoints of `dev`. -/
theorem bus_unregister_endpoint_dev_keep (X : xhci_ext) (s : xhci_rh_t) (dev ep d : Nat)
    {α : Type} (g : xhci_device_t → α) (hg : ∀ x v, g { x with endpoints := v } = g x) :
    g ((bus_unregister_endpoint X s dev ep).2.dev d) = g (s.dev d) := by
  unfold bus_unregister_endpoint
  simp only []
  split
  · rfl
  · exact upd_dev_dev_keep (s.emit (.bus_unregister_endpoint dev ep)) dev d
      (fun d => { d with endpoints := d.endpoints.set ep none }) g (fun x => hg x _)

theorem disconnect_unpublish_commands (s : xhci_rh_t) (port_id dev : Nat) :
    (disconnect_unpublish s port_id dev).commands = s.commands ++
      [.online_store dev false, .list_remove dev, .devices_store port_id none] := by
  simp [disconnect_unpublish, rh_action.is_command]

theorem disconnect_unpublish_dev_keep (s : xhci_rh_t) (port_id dev d : Nat) {α : Type}
    (g : xhci_device_t → α) (hg : ∀ x v, g { x with online := v } = g x) :
    g ((disconnect_unpublish s port_id dev).dev d) = g (s.dev d) :=
  upd_dev_dev_keep (s.emit (.usb_log (.disconnected port_id))) dev d
    (fun d => { d with online := false }) g (fun x => hg x _)

/-- The calls and stores of lines 282-334 of `handle_disconnected_device`,
whatever the calls return: an abort for each active endpoint of the device in
increasing order, then unbind, the unregistration of endpoint 0, deconfigure,
removal from the bus, disable-slot and the destruction of the device. -/
theorem disconnect_teardown_commands (X : xhci_ext) (t : xhci_rh_t) (dev : Nat) :
    (disconnect_teardown X t dev).commands = t.commands ++
      (active_endpoints (t.dev dev).endpoints 0).map (fun k => rh_action.xhci_transfer_abort dev k)
      ++ [.ddf_fun_unbind dev, .bus_unregister_endpoint dev 0,
        .hc_deconfigure_device (t.dev dev).slot_id, .xhci_bus_remove_device dev,
        .hc_disable_slot (t.dev dev).slot_id, .hcd_ddf_device_destroy dev] := by
  unfold disconnect_teardown
  simp only [hcd_ddf_device_destroy]
  generalize h5 : abort_active_transfers X dev (t.dev dev).endpoints 0 t = s5
  have c5 : s5.commands = t.commands ++ (active_endpoints (t.dev dev).endpoints 0).map
      (fun k => rh_action.xhci_transfer_abort dev k) := by
    rw [← h5]
    exact abort_active_transfers_commands X dev _ 0 t
  have d5 : s5.dev dev = t.dev dev := by
    rw [← h5]
    exact dev_congr dev (abort_active_transfers_devs X dev _ 0 t)
  generalize h6 : teardown_step s5 (.ddf_fun_unbind dev) X.ddf_fun_unbind .unbind_failed = s6
  have c6 : s6.commands = s5.commands ++ [.ddf_fun_unbind dev] := by
    rw [← h6]
    exact teardown_step_commands _ _ _ _ rfl
  have d6 : s6.dev dev = s5.dev dev := by
    rw [← h6]
    exact dev_congr dev (teardown_step_devs _ _ _ _)
  generalize h7 : bus_unregister_endpoint X s6 dev 0 = r7
  have c7 : r7.2.commands = s6.commands ++ [.bus_unregister_endpoint dev 0] := by
    rw [← h7]
    exact bus_unregister_endpoint_commands X s6 dev 0
  have d7 : (r7.2.dev dev).slot_id = (s6.dev dev).slot_id := by
    rw [← h7]
    exact bus_unregister_endpoint_dev_keep X s6 dev 0 dev (fun x => x.slot_id) (fun _ _ => rfl)
  generalize h7a : (if r7.1 ≠ 0 then r7.2.emit (.usb_log (.unregister_failed r7.1)) else r7.2)
    = s7
  have c7a : s7.commands = r7.2.commands := by
    rw [← h7a]
    split <;> simp [rh_action.is_command]
  have d7a : s7.dev dev = r7.2.dev dev := by
    rw [← h7a]
    split <;> rfl
  have e7 : (s7.dev dev).slot_id = (t.dev dev).slot_id := by
    rw [d7a, d7, d6, d5]
  rw [e7]
  generalize h8 : teardown_step s7 (.hc_deconfigure_device (t.dev dev).slot_id)
    X.hc_deconfigure_device .deconfigure_failed = s8
  have c8 : s8.commands = s7.commands ++ [.hc_deconfigure_device (t.dev dev).slot_id] := by
    rw [← h8]
    exact teardown_step_commands _ _ _ _ rfl
  have d8 : s8.dev dev = s7.dev dev := by
    rw [← h8]
    exact dev_congr dev (teardown_step_devs _ _ _ _)
  generalize h9 : teardown_step s8 (.xhci_bus_remove_device dev) X.xhci_bus_remove_device
    .remove_failed = s9
  have c9 : s9.commands = s8.commands ++ [.xhci_bus_remove_device dev] := by
    rw [← h9]
    exact teardown_step_commands _ _ _ _ rfl
  have d9 : s9.dev dev = s8.dev dev := by
    rw [← h9]
    exact dev_congr dev (teardown_step_devs _ _ _ _)
  have e9 : (s9.dev dev).slot_id = (t.dev dev).slot_id := by
    rw [d9, d8, e7]
  rw [e9, destroy_commands, emit_commands,
    teardown_step_commands _ _ _ _ (rfl : (rh_action.hc_disable_slot
      (t.dev dev).slot_id).is_command = true), c9, c8, c7a, c7, c6, c5]
  simp [rh_action.is_command]

/-- The calls and stores of `handle_disconnected_device` for a port with a
recorded device, whatever the calls return. -/
theorem handle_disconnected_device_commands (X : xhci_ext) (s : xhci_rh_t) (port_id dev : Nat)
    (h : s.device_at port_id = some dev) :
    (handle_disconnected_device X s port_id).2.commands = s.commands ++
      [.online_store dev false, .list_remove dev, .devices_store port_id none] ++
      (active_endpoints (s.dev dev).endpoints 0).map (fun k => rh_action.xhci_transfer_abort dev k)
      ++ [.ddf_fun_unbind dev, .bus_unregister_endpoint dev 0,
        .hc_deconfigure_device (s.dev dev).slot_id, .xhci_bus_remove_device dev,
        .hc_disable_slot (s.dev dev).slot_id, .hcd_ddf_device_destroy dev] := by
  have e1 : ((disconnect_unpublish s port_id dev).dev dev).endpoints = (s.dev dev).endpoints :=
    disconnect_unpublish_dev_keep s port_id dev dev (fun x => x.endpoints) (fun _ _ => rfl)
  have e2 : ((disconnect_unpublish s port_id dev).dev dev).slot_id = (s.dev dev).slot_id :=
    disconnect_unpublish_dev_keep s port_id dev dev (fun x => x.slot_id) (fun _ _ => rfl)
  simp only [handle_disconnected_device, h]
  rw [disconnect_teardown_commands, disconnect_unpublish_commands, e1, e2]

/-- C24: for a port with a recorded device `handle_disconnected_device`
returns `EOK`, leaves the port without a recorded device and destroys the
device, whatever the calls of the teardown return; its calls and stores are,
in this order, the three stores that take the device offline and out of the
list and the map, the aborts, and then one call each of unbind, the
unregistration of endpoint 0, deconfigure, removal from the bus, disable-slot
and the destruction of the device. -/
theorem handle_disconnected_device_teardown (X : xhci_ext) (s : xhci_rh_t) (port_id dev : Nat)
    (h : s.device_at port_id = some dev) :
    (handle_disconnected_device X s port_id).1 = EOK ∧
    (handle_disconnected_device X s port_id).2.device_at port_id = none ∧
    (handle_disconnected_device X s port_id).2.destroyed = s.destroyed ++ [dev] ∧
    (handle_disconnected_device X s port_id).2.commands = s.commands ++
      [.online_store dev false, .list_remove dev, .devices_store port_id none] ++
      (active_endpoints (s.dev dev).endpoints 0).map (fun k => rh_action.xhci_transfer_abort dev k)
      ++ [.ddf_fun_unbind dev, .bus_unregister_endpoint dev 0,
        .hc_deconfigure_device (s.dev dev).slot_id, .xhci_bus_remove_device dev,
        .hc_disable_slot (s.dev dev).slot_id, .hcd_ddf_device_destroy dev] := by
  refine ⟨?_, handle_disconnected_device_device_at X s port_id, ?_,
    handle_disconnected_device_commands X s port_id dev h⟩
  · simp only [handle_disconnected_device, h]
  · simp only [handle_disconnected_device, h]
    exact (disconnect_teardown_map X (disconnect_unpublish s port_id dev) dev).2.1

/-- The disconnect of a device with two active endpoints in an environment in
which every teardown command fails. -/
theorem handle_disconnected_device_teardown_witness :
    rh_active_sample.device_at 1 = some 0 ∧
    (handle_disconnected_device (xhci_ext_teardown_fails (-1)) rh_active_sample 1).1 = EOK ∧
    (handle_disconnected_device (xhci_ext_teardown_fails (-1)) rh_active_sample 1).2.device_at 1
      = none ∧
    (handle_disconnected_device (xhci_ext_teardown_fails (-1)) rh_active_sample
      1).2.destroyed = rh_active_sample.destroyed ++ [0] :=
  ⟨by decide,
    (handle_disconnected_device_teardown (xhci_ext_teardown_fails (-1)) rh_active_sample 1 0
      (by decide)).1,
    (handle_disconnected_device_teardown (xhci_ext_teardown_fails (-1)) rh_active_sample 1 0
      (by decide)).2.1,
    (handle_disconnected_device_teardown (xhci_ext_teardown_fails (-1)) rh_active_sample 1 0
      (by decide)).2.2.1⟩

theorem active_endpoints_mem :
    ∀ (eps : List (Option endpoint_t)) (i k : Nat),
      k ∈ active_endpoints eps i ↔
        i ≤ k ∧ ∃ ep, eps[k - i]? = some (some ep) ∧ ep.active = true := by
  intro eps
  induction eps with
  | nil => intro i k; simp [active_endpoints]
  | cons e eps ih =>
    intro i k
    have hstep : ∀ (k : Nat), i + 1 ≤ k → (e :: eps)[k - i]? = eps[k - (i + 1)]? := by
      intro k hk
      obtain ⟨m, rfl⟩ : ∃ m, k = i + 1 + m := ⟨k - (i + 1), by omega⟩
      have e1 : i + 1 + m - i = m + 1 := by omega
      have e2 : i + 1 + m - (i + 1) = m := by omega
      rw [e1, e2, List.getElem?_cons_succ]
    have htail : k ∈ active_endpoints eps (i + 1) ↔
        i + 1 ≤ k ∧ ∃ ep, (e :: eps)[k - i]? = some (some ep) ∧ ep.active = true := by
      rw [ih (i + 1) k]
      constructor
      · rintro ⟨h1, h2⟩
        exact ⟨h1, by rw [hstep k h1]; exact h2⟩
      · rintro ⟨h1, h2⟩
        exact ⟨h1, by rw [← hstep k h1]; exact h2⟩
    cases e with
    | none =>
      simp only [active_endpoints]
      rw [htail]
      constructor
      · rintro ⟨h1, h2⟩
        exact ⟨by omega, h2⟩
      · rintro ⟨h1, ep, h2, h3⟩
        by_cases hk : k = i
        · subst hk
          simp at h2
        · exact ⟨by omega, ep, h2, h3⟩
    | some e0 =>
      simp only [active_endpoints]
      by_cases ha : e0.active = false
      · rw [if_pos ha, htail]
        constructor
        · rintro ⟨h1, h2⟩
          exact ⟨by omega, h2⟩
        · rintro ⟨h1, ep, h2, h3⟩
          by_cases hk : k = i
          · subst hk
            simp at h2
            subst h2
            rw [ha] at h3
            exact absurd h3 (by simp)
          · exact ⟨by omega, ep, h2, h3⟩
      · rw [if_neg ha, List.mem_cons, htail]
        constructor
        · rintro (h1 | ⟨h1, h2⟩)
          · subst h1
            exact ⟨le_refl _, e0, by simp, by simpa using ha⟩
          · exact ⟨by omega, h2⟩
        · rintro ⟨h1, ep, h2, h3⟩
          by_cases hk : k = i
          · exact Or.inl hk
          · exact Or.inr ⟨by omega, ep, h2, h3⟩

theorem active_endpoints_sorted :
    ∀ (eps : List (Option endpoint_t)) (i : Nat),
      (active_endpoints eps i).Pairwise (fun a b => a < b) := by
  intro eps
  induction eps with
  | nil => intro i; simp [active_endpoints]
  | cons e eps ih =>
    intro i
    cases e with
    | none => exact ih (i + 1)
    | some e0 =>
      simp only [active_endpoints]
      split
      · exact ih (i + 1)
      · rw [List.pairwise_cons]
        refine ⟨?_, ih (i + 1)⟩
        intro k hk
        have := ((active_endpoints_mem eps (i + 1) k).mp hk).1
        omega

theorem filter_transfer_abort_commands (t : xhci_rh_t) :
    t.commands.filter rh_action.is_transfer_abort
      = t.trace.filter rh_action.is_transfer_abort := by
  simp only [xhci_rh_t.commands, List.filter_filter]
  congr
  funext a
  cases a <;> rfl

/-- C27: the aborts that `handle_disconnected_device` requests for the device
recorded for the port are, in this order and whatever the aborts return, one
for each index of the endpoint array of the device at which there is an
endpoint whose `active` flag is set, the indices in increasing order; no abort
is requested for another index. -/
theorem handle_disconnected_device_aborts (X : xhci_ext) (s : xhci_rh_t) (port_id dev : Nat)
    (h : s.device_at port_id = some dev) :
    (handle_disconnected_device X s port_id).2.trace.filter rh_action.is_transfer_abort
      = s.trace.filter rh_action.is_transfer_abort ++
        (active_endpoints (s.dev dev).endpoints 0).map
          (fun k => rh_action.xhci_transfer_abort dev k) ∧
    (∀ k, k ∈ active_endpoints (s.dev dev).endpoints 0 ↔
      ∃ ep, (s.dev dev).endpoints[k]? = some (some ep) ∧ ep.active = true) ∧
    (active_endpoints (s.dev dev).endpoints 0).Pairwise (fun a b => a < b) := by
  refine ⟨?_, ?_, active_endpoints_sorted _ 0⟩
  · have hmap : ((active_endpoints (s.dev dev).endpoints 0).map
        (fun k => rh_action.xhci_transfer_abort dev k)).filter rh_action.is_transfer_abort
        = (active_endpoints (s.dev dev).endpoints 0).map
          (fun k => rh_action.xhci_transfer_abort dev k) := by
      rw [List.filter_eq_self]
      intro a ha
      rw [List.mem_map] at ha
      obtain ⟨k, -, rfl⟩ := ha
      rfl
    rw [← filter_transfer_abort_commands, handle_disconnected_device_commands X s port_id dev h,
      List.filter_append, List.filter_append, List.filter_append, hmap,
      filter_transfer_abort_commands]
    simp [rh_action.is_transfer_abort]
  · intro k
    rw [active_endpoints_mem]
    simp

/-- The disconnect of a device with two active endpoints whose aborts fail. -/
theorem handle_disconnected_device_aborts_witness :
    rh_active_sample.device_at 1 = some 0 ∧
    (handle_disconnected_device (xhci_ext_teardown_fails (-1)) rh_active_sample
      1).2.trace.filter rh_action.is_transfer_abort
      = [.xhci_transfer_abort 0 0, .xhci_transfer_abort 0 1] :=
  ⟨by decide,
    (handle_disconnected_device_aborts (xhci_ext_teardown_fails (-1)) rh_active_sample 1 0
      (by decide)).1.trans (by decide)⟩

theorem abort_active_transfers_trace_ext (X : xhci_ext) (dev : Nat) :
    ∀ (eps : List (Option endpoint_t)) (i : Nat) (s : xhci_rh_t),
      ∃ tr, (abort_active_transfers X dev eps i s).trace = s.trace ++ tr := by
  intro eps
  induction eps with
  | nil => intro i s; exact ⟨[], by simp [abort_active_transfers]⟩
  | cons ep eps ih =>
    intro i s
    cases ep with
    | none => exact ih (i + 1) s
    | some ep =>
      simp only [abort_active_transfers]
      split
      · exact ih (i + 1) s
      · split
        · obtain ⟨tr, h⟩ := ih (i + 1) ((s.emit (.xhci_transfer_abort dev i)).emit
            (.usb_log (.abort_failed i (X.xhci_transfer_abort
              (s.emit (.xhci_transfer_abort dev i))))))
          exact ⟨_, by rw [h, emit_trace, emit_trace, List.append_assoc, List.append_assoc]⟩
        · obtain ⟨tr, h⟩ := ih (i + 1) (s.emit (.xhci_transfer_abort dev i))
          exact ⟨_, by rw [h, emit_trace, List.append_assoc]⟩

theorem teardown_step_trace_ext (s : xhci_rh_t) (a : rh_action) (f : xhci_rh_t → Int)
    (msg : Int → rh_msg) : ∃ tr, (teardown_step s a f msg).trace = s.trace ++ tr := by
  unfold teardown_step
  simp only []
  split
  · exact ⟨_, by rw [emit_trace, emit_trace, List.append_assoc]⟩
  · exact ⟨_, emit_trace s a⟩

theorem bus_unregister_endpoint_trace_ext (X : xhci_ext) (s : xhci_rh_t) (dev ep : Nat) :
    ∃ tr, (bus_unregister_endpoint X s dev ep).2.trace = s.trace ++ tr := by
  unfold bus_unregister_endpoint
  simp only []
  split
  · exact ⟨_, emit_trace s _⟩
  · exact ⟨_, emit_trace s _⟩

theorem disconnect_teardown_trace_ext (X : xhci_ext) (t : xhci_rh_t) (dev : Nat) :
    ∃ tr, (disconnect_teardown X t dev).trace = t.trace ++ tr := by
  unfold disconnect_teardown
  simp only [hcd_ddf_device_destroy]
  obtain ⟨t5, h5⟩ := abort_active_transfers_trace_ext X dev (t.dev dev).endpoints 0 t
  generalize abort_active_transfers X dev (t.dev dev).endpoints 0 t = s5 at h5 ⊢
  obtain ⟨t6, h6⟩ := teardown_step_trace_ext s5 (.ddf_fun_unbind dev) X.ddf_fun_unbind
    .unbind_failed
  generalize teardown_step s5 (.ddf_fun_unbind dev) X.ddf_fun_unbind .unbind_failed = s6
    at h6 ⊢
  obtain ⟨t7, h7⟩ := bus_unregister_endpoint_trace_ext X s6 dev 0
  generalize bus_unregister_endpoint X s6 dev 0 = r7 at h7 ⊢
  have h7a : ∃ tr, (if r7.1 ≠ 0 then r7.2.emit (.usb_log (.unregister_failed r7.1))
      else r7.2).trace = r7.2.trace ++ tr := by
    split
    · exact ⟨_, emit_trace _ _⟩
    · exact ⟨[], by simp⟩
  obtain ⟨t7a, h7a⟩ := h7a
  generalize (if r7.1 ≠ 0 then r7.2.emit (.usb_log (.unregister_failed r7.1)) else r7.2) = s7
    at h7a ⊢
  obtain ⟨t8, h8⟩ := teardown_step_trace_ext s7 (.hc_deconfigure_device (s7.dev dev).slot_id)
    X.hc_deconfigure_device .deconfigure_failed
  generalize teardown_step s7 (.hc_deconfigure_device (s7.dev dev).slot_id)
    X.hc_deconfigure_device .deconfigure_failed = s8 at h8 ⊢
  obtain ⟨t9, h9⟩ := teardown_step_trace_ext s8 (.xhci_bus_remove_device dev)
    X.xhci_bus_remove_device .remove_failed
  generalize teardown_step s8 (.xhci_bus_remove_device dev) X.xhci_bus_remove_device
    .remove_failed = s9 at h9 ⊢
  obtain ⟨t10, h10⟩ := teardown_step_trace_ext s9 (.hc_disable_slot (s9.dev dev).slot_id)
    X.hc_disable_slot .disable_slot_failed
  generalize teardown_step s9 (.hc_disable_slot (s9.dev dev).slot_id) X.hc_disable_slot
    .disable_slot_failed = s10 at h10 ⊢
  refine ⟨t5 ++ t6 ++ t7 ++ t7a ++ t8 ++ t9 ++ t10 ++ [.hcd_ddf_device_destroy dev], ?_⟩
  show s10.trace ++ [.hcd_ddf_device_destroy dev] = _
  rw [h10, h9, h8, h7a, h7, h6, h5]
  simp only [List.append_assoc]

@[simp] theorem detach_trace (s : xhci_rh_t) (a : Nat) : (s.detach a).trace = s.trace := rfl

@[simp] theorem destroy_trace (s : xhci_rh_t) (a : Nat) : (s.destroy a).trace = s.trace := rfl

/-- Lines 282-334 of `handle_disconnected_device` change of the device objects
at most the endpoints. -/
theorem disconnect_teardown_dev_keep (X : xhci_ext) (t : xhci_rh_t) (dev d : Nat) {α : Type}
    (g : xhci_device_t → α) (hg : ∀ x v, g { x with endpoints := v } = g x) :
    g ((disconnect_teardown X t dev).dev d) = g (t.dev d) := by
  unfold disconnect_teardown
  simp only [hcd_ddf_device_destroy]
  have h5 := dev_congr d (abort_active_transfers_devs X dev (t.dev dev).endpoints 0 t)
  generalize abort_active_transfers X dev (t.dev dev).endpoints 0 t = s5 at h5 ⊢
  have h6 := dev_congr d (teardown_step_devs s5 (.ddf_fun_unbind dev) X.ddf_fun_unbind
    .unbind_failed)
  generalize teardown_step s5 (.ddf_fun_unbind dev) X.ddf_fun_unbind .unbind_failed = s6
    at h6 ⊢
  have h7 := bus_unregister_endpoint_dev_keep X s6 dev 0 d g hg
  generalize bus_unregister_endpoint X s6 dev 0 = r7 at h7 ⊢
  have h7a : (if r7.1 ≠ 0 then r7.2.emit (.usb_log (.unregister_failed r7.1))
      else r7.2).dev d = r7.2.dev d := by
    split <;> rfl
  generalize (if r7.1 ≠ 0 then r7.2.emit (.usb_log (.unregister_failed r7.1)) else r7.2) = s7
    at h7a ⊢
  have h8 := dev_congr d (teardown_step_devs s7 (.hc_deconfigure_device (s7.dev dev).slot_id)
    X.hc_deconfigure_device .deconfigure_failed)
  generalize teardown_step s7 (.hc_deconfigure_device (s7.dev dev).slot_id)
    X.hc_deconfigure_device .deconfigure_failed = s8 at h8 ⊢
  have h9 := dev_congr d (teardown_step_devs s8 (.xhci_bus_remove_device dev)
    X.xhci_bus_remove_device .remove_failed)
  generalize teardown_step s8 (.xhci_bus_remove_device dev) X.xhci_bus_remove_device
    .remove_failed = s9 at h9 ⊢
  have h10 := dev_congr d (teardown_step_devs s9 (.hc_disable_slot (s9.dev dev).slot_id)
    X.hc_disable_slot .disable_slot_failed)
  generalize teardown_step s9 (.hc_disable_slot (s9.dev dev).slot_id) X.hc_disable_slot
    .disable_slot_failed = s10 at h10 ⊢
  show g (s10.dev d) = _
  rw [h10, h9, h8, h7a, h7, h6, h5]

/-- C28: in `handle_disconnected_device` for a port with a recorded device,
the store of `false` to the `online` flag of the device comes right after the
message that the device has been disconnected, and every other call and store
of the function comes after it: the removal from the device list and from the
port map, the aborts, and the unbind, unregister, deconfigure, bus-remove,
disable-slot and destroy steps; none of them stores to the flag again, so the
flag of an existing device object is `false` at the return. -/
theorem handle_disconnected_device_offline_first (X : xhci_ext) (s : xhci_rh_t)
    (port_id dev : Nat) (h : s.device_at port_id = some dev) :
    ∃ rest : List rh_action, (handle_disconnected_device X s port_id).2.trace = s.trace ++
        .usb_log (.disconnected port_id) :: .online_store dev false :: rest ∧
      rest.filter rh_action.is_command
        = [.list_remove dev, .devices_store port_id none] ++
          (active_endpoints (s.dev dev).endpoints 0).map
            (fun k => rh_action.xhci_transfer_abort dev k) ++
          [.ddf_fun_unbind dev, .bus_unregister_endpoint dev 0,
            .hc_deconfigure_device (s.dev dev).slot_id, .xhci_bus_remove_device dev,
            .hc_disable_slot (s.dev dev).slot_id, .hcd_ddf_device_destroy dev] ∧
      (dev < s.devs.length →
        ((handle_disconnected_device X s port_id).2.dev dev).online = false) := by
  obtain ⟨tr, htr⟩ := disconnect_teardown_trace_ext X (disconnect_unpublish s port_id dev) dev
  have hc := handle_disconnected_device_commands X s port_id dev h
  have hu : (disconnect_unpublish s port_id dev).trace = s.trace ++
      [.usb_log (.disconnected port_id), .online_store dev false, .list_remove dev,
        .devices_store port_id none] := by
    simp [disconnect_unpublish]
  have ht : (handle_disconnected_device X s port_id).2.trace = s.trace ++
      .usb_log (.disconnected port_id) :: .online_store dev false ::
        ([.list_remove dev, .devices_store port_id none] ++ tr) := by
    simp only [handle_disconnected_device, h]
    rw [htr, hu]
    simp
  refine ⟨[.list_remove dev, .devices_store port_id none] ++ tr, ht, ?_, ?_⟩
  · have hc2 : (handle_disconnected_device X s port_id).2.commands = s.commands ++
        (.online_store dev false ::
          List.filter rh_action.is_command
            ([rh_action.list_remove dev, rh_action.devices_store port_id none] ++ tr)) := by
      simp only [xhci_rh_t.commands, ht, List.filter_append, List.filter_cons]
      simp [rh_action.is_command]
    rw [hc, List.append_assoc, List.append_assoc] at hc2
    have hc3 := List.append_cancel_left hc2
    simp only [List.cons_append, List.nil_append, List.cons.injEq, true_and] at hc3
    simp only [List.cons_append, List.nil_append, List.append_assoc]
    exact hc3.symm
  · intro hlen
    simp only [handle_disconnected_device, h]
    rw [disconnect_teardown_dev_keep X _ dev dev (fun x => x.online) (fun _ _ => rfl)]
    show ((s.upd_dev dev fun d => { d with online := false }).dev dev).online = false
    rw [upd_dev_dev_self s dev _ hlen]

/-- The disconnect of the device of `rh_active_sample`. -/
theorem handle_disconnected_device_offline_first_witness :
    rh_active_sample.device_at 1 = some 0 ∧ 0 < rh_active_sample.devs.length ∧
    ((handle_disconnected_device (xhci_ext_teardown_fails (-1)) rh_active_sample 1).2.dev
      0).online = false :=
  ⟨by decide, by decide,
    (handle_disconnected_device_offline_first (xhci_ext_teardown_fails (-1)) rh_active_sample 1
      0 (by decide)).elim fun _ hrest => hrest.2.2 (by decide)⟩

/-! ### The bandwidth query -/

/-- C29 fails on the code: when the allocation succeeds and `xhci_cmd_wait`
returns an error, `get_hub_available_bandwidth` frees the context and returns
`EOK`; it returns `EOK` for every result of the wait. -/
theorem get_hub_available_bandwidth_wait_failed :
    get_hub_available_bandwidth errno_sample (some 4096) (-1) 3
      = { ret := EOK, ctx := none,
          trace := [.malloc, .xhci_cmd_init, .xhci_get_port_bandwidth_command 3,
            .xhci_cmd_wait, .free] } ∧
    ∀ (E : errno_h) (ctx : Nat) (wait : Int) (speed : Nat),
      (get_hub_available_bandwidth E (some ctx) wait speed).ret = EOK := by
  refine ⟨by decide, ?_⟩
  intro E ctx wait speed
  simp only [get_hub_available_bandwidth]
  split <;> rfl

/-! ## Theorems: str.c -/

/-- C30 fails on the code: for the string "20500000000000000000" and base 10,
in strict mode, `str_uint64` consumes all twenty digits and returns `EOK` with
the result 2053255926290448384, although the digits denote
20500000000000000000, which is more than 2^64 - 1: the multiplication wraps
around to a value that is not smaller than the value before it, so the test
`*result < prev` does not see the overflow. -/
theorem str_uint64_overflow_undetected :
    str_uint64 isspace_sample str_errno_sample str_overflow_sample 10 true 0
      = { ret := EOK, endptr := 20, result := 2053255926290448384 } ∧
    digits_value 10 (str_overflow_sample.take 20) = 20500000000000000000 ∧
    2 ^ 64 - 1 < digits_value 10 (str_overflow_sample.take 20) ∧
    str_errno_sample.EOVERFLOW ≠ EOK := by
  refine ⟨by decide, by decide, by decide, by decide⟩

/-! ## Theorems: the endpoint reference of `hcd_send_batch` -/

/-- The reference to the endpoint is dropped exactly when the scheduling hook
was called: the number of `endpoint_del_ref` calls of `hcd_send_batch` is 1 if
its trace holds a call of the hook and 0 otherwise. -/
theorem hcd_send_batch_del_ref_count (E : errno_h) (L : usbhost_lib) (hcd : hcd_t)
    (device : device_t) (target : usb_target_t) (direction : usb_direction_t)
    (data size setup_data : Nat) (on_complete : Option usb_transfer_batch_callback_t)
    (arg : Nat) :
    (hcd_send_batch E L hcd device target direction data size setup_data on_complete arg).map
        (fun r => r.2.countP hcd_action.is_del_ref)
      = (hcd_send_batch E L hcd device target direction data size setup_data on_complete
          arg).map (fun r => if r.2.any hcd_action.is_schedule then 1 else 0) := by
  unfold hcd_send_batch
  simp only []
  split
  · rfl
  · split
    · simp [hcd_action.is_del_ref, hcd_action.is_schedule, List.countP_cons]
    · split
      · simp [hcd_action.is_del_ref, hcd_action.is_schedule, List.countP_cons]
      · split
        · simp [hcd_action.is_del_ref, hcd_action.is_schedule, List.countP_cons]
        · split
          · simp [hcd_action.is_del_ref, hcd_action.is_schedule, List.countP_cons]
          · split <;> simp [hcd_action.is_del_ref, hcd_action.is_schedule, List.countP_cons]

/-- C36 fails on the code: on the three returns of `hcd_send_batch` between
the successful lookup and the call of the hook (`ENOSPC` for a transfer of 2048
bytes over an endpoint with 1024 reserved, `ENOTSUP` without a hook, `ENOMEM`
when no batch can be created) the trace holds the lookup and no
`endpoint_del_ref`; in every run the reference is dropped exactly when the hook
was called. -/
theorem hcd_send_batch_early_return_keeps_reference :
    hcd_send_batch errno_sample lib_sample (hcd_sample (some fun _ => EOK)) device_sample
        ⟨1, 1⟩ .USB_DIRECTION_OUT 0 2048 0 none 0
      = some (errno_sample.ENOSPC, [.bus_find_endpoint device_sample ⟨1, 1⟩ .USB_DIRECTION_OUT,
          .usb_log (.bandwidth_not_reserved 2048 1024)]) ∧
    hcd_send_batch errno_sample lib_sample (hcd_sample none) device_sample
        ⟨1, 1⟩ .USB_DIRECTION_OUT 0 512 0 none 0
      = some (errno_sample.ENOTSUP, [.bus_find_endpoint device_sample ⟨1, 1⟩ .USB_DIRECTION_OUT,
          .usb_log .no_scheduler]) ∧
    hcd_send_batch errno_sample { lib_sample with usb_transfer_batch_create := fun _ => none }
        (hcd_sample (some fun _ => EOK)) device_sample ⟨1, 1⟩ .USB_DIRECTION_OUT 0 512 0 none 0
      = some (errno_sample.ENOMEM, [.bus_find_endpoint device_sample ⟨1, 1⟩ .USB_DIRECTION_OUT,
          .usb_transfer_batch_create ep_sample, .usb_log .batch_create_failed]) ∧
    ∀ (E : errno_h) (L : usbhost_lib) (hcd : hcd_t) (device : device_t) (target : usb_target_t)
      (direction : usb_direction_t) (data size setup_data : Nat)
      (on_complete : Option usb_transfer_batch_callback_t) (arg : Nat),
      (hcd_send_batch E L hcd device target direction data size setup_data on_complete arg).map
          (fun r => r.2.countP hcd_action.is_del_ref)
        = (hcd_send_batch E L hcd device target direction data size setup_data on_complete
            arg).map (fun r => if r.2.any hcd_action.is_schedule then 1 else 0) :=
  ⟨by decide, by decide, by decide, hcd_send_batch_del_ref_count⟩

/-! ## Theorems: a root hub of 255 ports -/

/-- With 255 ports and a register for each, the port loop started at index `i`
runs the loop body for the ports `i`, ..., 255 and then, the index having wrapped
from 255 to 0, goes on to index 0, for which there is no register. -/
theorem port_change_loop_wraps (E : errno_h) (X : xhci_ext) :
    ∀ (n i : Nat) (s : xhci_rh_t) (fuel : Nat), 1 ≤ i → i + n = 255 →
      s.max_ports = 255 → 255 ≤ s.portsc.length → n + 1 < fuel →
      port_change_loop E X fuel i s = .bad_port 0 (port_change_from E X (n + 1) i s) := by
  intro n
  induction n with
  | zero =>
    intro i s fuel hi hin hmax hregs hf
    obtain ⟨f, rfl⟩ : ∃ f, fuel = f + 2 := ⟨fuel - 2, by omega⟩
    obtain rfl : i = 255 := by omega
    obtain ⟨b1, -, -⟩ := port_change_body_ports_except E X s 255
    have h1 : (255 : Nat) ≤ s.max_ports := by omega
    have h2 : 1 ≤ 255 ∧ 255 ≤ s.portsc.length := ⟨by norm_num, hregs⟩
    have h3 : (0 : Nat) ≤ (port_change_body E X s 255).max_ports := Nat.zero_le _
    simp [port_change_loop, port_change_from, h1, h2, h3]
  | succ n ih =>
    intro i s fuel hi hin hmax hregs hf
    obtain ⟨f, rfl⟩ : ∃ f, fuel = f + 1 := ⟨fuel - 1, by omega⟩
    have h1 : i ≤ s.max_ports := by omega
    have h2 : 1 ≤ i ∧ i ≤ s.portsc.length := ⟨hi, by omega⟩
    have h3 : (i + 1) % 256 = i + 1 := Nat.mod_eq_of_lt (by omega)
    obtain ⟨b1, b2, -⟩ := port_change_body_ports_except E X s i
    rw [port_change_from]
    simp only [port_change_loop, h1, h2, h3, if_true, and_self]
    exact ih (i + 1) _ f (by omega) (by omega) (by omega) (by omega) (by omega)

/-- With 255 ports the port loop never ends by leaving the loop, from whatever
index below 256 it is started and however much fuel it is given. -/
theorem port_change_loop_never_finished (E : errno_h) (X : xhci_ext) :
    ∀ (fuel i : Nat) (s s1 : xhci_rh_t), i ≤ 255 → s.max_ports = 255 →
      port_change_loop E X fuel i s ≠ .finished s1 := by
  intro fuel
  induction fuel with
  | zero => intro i s s1 _ _ h; simp [port_change_loop] at h
  | succ f ih =>
    intro i s s1 hi hmax h
    obtain ⟨b1, -, -⟩ := port_change_body_ports_except E X s i
    have h1 : i ≤ s.max_ports := by omega
    simp only [port_change_loop, h1, if_true] at h
    split at h
    · exact ih _ _ s1 (by omega) (by omega) h
    · simp at h

/-- The scan events of the loop body run over the `n` ports `i`, `i + 1`, ...:
the write-backs for these ports, in order, each with the status of its port. -/
theorem port_change_from_scan_events (E : errno_h) (X : xhci_ext) :
    ∀ (n i : Nat) (s : xhci_rh_t), 1 ≤ i →
      (port_change_from E X n i s).scan_events = s.scan_events ++
        (List.range' i n).map (fun p => rh_action.portsc_write p (s.portsc_rd p)) := by
  intro n
  induction n with
  | zero => intro i s _; simp [port_change_from]
  | succ n ih =>
    intro i s hi
    rw [port_change_from, ih (i + 1) _ (by omega), port_change_body_scan_events,
      List.range'_succ, List.map_cons, List.append_assoc, List.singleton_append]
    congr 2
    apply List.map_congr_left
    intro p hp
    rw [List.mem_range'_1] at hp
    rw [port_change_body_portsc_rd E X s i p hi (by omega) (by omega)]

/-- C37 fails on the code for `max_ports` = 255: the loop index is a `uint8_t`,
so `i <= rh->max_ports` holds for every value of `i` and the increment of 255
gives 0.  No run of `xhci_rh_handle_port_change` over 255 ports leaves the loop,
whatever the fuel; with a register for each port and fuel for 257 steps the run
has examined the ports 1, ..., 255 once each and is at index 0, whose register
`portrs[-1]` does not exist. -/
theorem xhci_rh_handle_port_change_255_ports :
    (∀ (E : errno_h) (X : xhci_ext) (fuel : Nat) (s s1 : xhci_rh_t),
      xhci_rh_handle_port_change E X fuel { s with max_ports := 255 } ≠ .finished s1) ∧
    (∀ (E : errno_h) (X : xhci_ext) (fuel : Nat),
      xhci_rh_handle_port_change E X (fuel + 257) (rh_sample (List.replicate 255 0))
        = .bad_port 0 (port_change_from E X 255 1 (rh_sample (List.replicate 255 0)))) ∧
    (∀ (E : errno_h) (X : xhci_ext),
      (port_change_from E X 255 1 (rh_sample (List.replicate 255 0))).scan_events
        = (List.range' 1 255).map (fun p => rh_action.portsc_write p 0)) := by
  refine ⟨?_, ?_, ?_⟩
  · intro E X fuel s s1
    exact port_change_loop_never_finished E X fuel 1 _ s1 (by norm_num) rfl
  · intro E X fuel
    exact port_change_loop_wraps E X 254 1 _ (fuel + 257) (le_refl 1) rfl
      (List.length_replicate 255 0) (le_of_eq (List.length_replicate 255 0).symm) (by omega)
  · intro E X
    rw [port_change_from_scan_events E X 255 1 _ (le_refl 1)]
    have h0 : ∀ p, (rh_sample (List.replicate 255 0)).portsc_rd p = 0 := by
      intro p
      simp only [xhci_rh_t.portsc_rd, rh_sample]
      rw [List.getD_eq_getElem?_getD, List.getElem?_getD_replicate_default_eq, Nat.zero_mod]
    simp only [h0]
    rfl

/-! ### The write-back comes first -/

@[simp] theorem attach_trace (s : xhci_rh_t) (a : Nat) : (s.attach a).trace = s.trace := rfl

@[simp] theorem alloc_dev_trace (s : xhci_rh_t) (a : xhci_device_t) :
    (s.alloc_dev a).trace = s.trace := rfl

@[simp] theorem portsc_wr_trace (X : xhci_ext) (s : xhci_rh_t) (i v : Nat) :
    (s.portsc_wr X i v).trace = s.trace := rfl

theorem bus_register_endpoint_trace_grows (X : xhci_ext) (s : xhci_rh_t) (dev : Nat)
    (desc : usb_endpoint_desc_t) : s.trace <+: (bus_register_endpoint X s dev desc).2.trace := by
  unfold bus_register_endpoint
  simp only []
  split <;> simp

theorem address_publish_trace_grows (X : xhci_ext) (s : xhci_rh_t) (dev port : Nat) :
    s.trace <+: (address_publish X s dev port).trace := by
  unfold address_publish
  simp only []
  have h := bus_register_endpoint_trace_grows X
    ((s.upd_dev dev fun d => { d with online := true }).emit (.online_store dev true)) dev ep0_desc
  have h1 : s.trace <+: (bus_register_endpoint X
      ((s.upd_dev dev fun d => { d with online := true }).emit (.online_store dev true)) dev
      ep0_desc).2.trace := List.IsPrefix.trans (by simp) h
  split
  · exact h1.trans (by simp)
  · exact h1

theorem xhci_rh_address_device_trace_grows (E : errno_h) (X : xhci_ext) (s : xhci_rh_t)
    (dev : Nat) : s.trace <+: (xhci_rh_address_device E X s dev).2.trace := by
  unfold xhci_rh_address_device
  simp only []
  split
  · simp
  · split
    · simp
    · split
      · simp [address_err_ep]
      · split
        · simp [address_err_ep, address_err_ds]
        · split
          · simp [address_err_ep, address_err_ds, address_err_dctx]
          · exact List.IsPrefix.trans (by simp) (address_publish_trace_grows X _ dev _)

theorem rh_setup_device_trace_grows (E : errno_h) (X : xhci_ext) (s : xhci_rh_t)
    (port_id : Nat) : s.trace <+: (rh_setup_device E X s port_id).2.trace := by
  unfold rh_setup_device
  simp only [xhci_bus_enumerate_device, hcd_ddf_device_destroy]
  split
  · simp
  · have h := xhci_rh_address_device_trace_grows E X
      (((s.emit (.hcd_ddf_device_create port_id)).alloc_dev
        { xhci_device_fresh with base := { xhci_device_fresh.base with port := port_id } }).emit
        (.xhci_bus_enumerate_device (s.emit (.hcd_ddf_device_create port_id)).devs.length))
      (s.emit (.hcd_ddf_device_create port_id)).devs.length
    have h0 : s.trace <+: (((s.emit (.hcd_ddf_device_create port_id)).alloc_dev
        { xhci_device_fresh with base := { xhci_device_fresh.base with port := port_id } }).emit
        (.xhci_bus_enumerate_device (s.emit (.hcd_ddf_device_create port_id)).devs.length)).trace :=
      by simp
    have h1 := h0.trans h
    split
    · exact h1.trans (by simp)
    · split <;> split <;> exact h1.trans (by simp)

theorem xhci_rh_reset_port_trace_grows (X : xhci_ext) (s : xhci_rh_t) (port : Nat) :
    s.trace <+: (xhci_rh_reset_port X s port).2.trace := by
  simp [xhci_rh_reset_port]

theorem handle_connected_device_trace_grows (E : errno_h) (X : xhci_ext) (s : xhci_rh_t)
    (port_id : Nat) : s.trace <+: (handle_connected_device E X s port_id).2.trace := by
  unfold handle_connected_device
  simp only []
  split
  · split
    · exact List.IsPrefix.trans (by simp) (rh_setup_device_trace_grows E X _ port_id)
    · split <;> simp
  · exact List.IsPrefix.trans (by simp) (xhci_rh_reset_port_trace_grows X _ port_id)

theorem handle_disconnected_device_trace_grows (X : xhci_ext) (s : xhci_rh_t)
    (port_id : Nat) : s.trace <+: (handle_disconnected_device X s port_id).2.trace := by
  unfold handle_disconnected_device
  split
  · exact List.prefix_refl _
  · rename_i dev _
    obtain ⟨tr, htr⟩ := disconnect_teardown_trace_ext X (disconnect_unpublish s port_id dev) dev
    show s.trace <+: (disconnect_teardown X (disconnect_unpublish s port_id dev) dev).trace
    rw [htr]
    exact List.IsPrefix.trans (by simp [disconnect_unpublish]) (List.prefix_append _ _)

theorem port_change_flag_trace_grows (events b : Nat) (msg : rh_msg) (s : xhci_rh_t) :
    s.trace <+: (port_change_flag events b msg s).2.trace := by
  unfold port_change_flag
  split <;> simp

theorem port_change_csc_trace_grows (E : errno_h) (X : xhci_ext) (events : Nat)
    (s : xhci_rh_t) (i : Nat) : s.trace <+: (port_change_csc E X events s i).2.trace := by
  unfold port_change_csc
  simp only []
  split
  · split
    · exact List.IsPrefix.trans (by simp) (handle_connected_device_trace_grows E X _ i)
    · exact List.IsPrefix.trans (by simp) (handle_disconnected_device_trace_grows X _ i)
  · exact List.prefix_refl _

theorem port_change_prc_trace_grows (E : errno_h) (X : xhci_ext) (events : Nat)
    (s : xhci_rh_t) (i : Nat) : s.trace <+: (port_change_prc E X events s i).2.trace := by
  unfold port_change_prc
  simp only []
  split
  · split
    · exact List.IsPrefix.trans (by simp) (rh_setup_device_trace_grows E X _ i)
    · simp
  · exact List.prefix_refl _

theorem port_change_rest_trace_grows (E : errno_h) (X : xhci_ext) (r : Nat × xhci_rh_t)
    (i : Nat) : r.2.trace <+: (port_change_rest E X r i).trace := by
  unfold port_change_rest
  simp only []
  have h3 := port_change_flag_trace_grows r.1 X.layout.PEC (.port_enabled_changed i) r.2
  generalize port_change_flag r.1 X.layout.PEC (.port_enabled_changed i) r.2 = r3 at h3 ⊢
  have h4 := h3.trans
    (port_change_flag_trace_grows r3.1 X.layout.WRC (.warm_reset_completed i) r3.2)
  generalize port_change_flag r3.1 X.layout.WRC (.warm_reset_completed i) r3.2 = r4 at h4 ⊢
  have h5 := h4.trans
    (port_change_flag_trace_grows r4.1 X.layout.OCC (.over_current_change i) r4.2)
  generalize port_change_flag r4.1 X.layout.OCC (.over_current_change i) r4.2 = r5 at h5 ⊢
  have h6 := h5.trans (port_change_prc_trace_grows E X r5.1 r5.2 i)
  generalize port_change_prc E X r5.1 r5.2 i = r6 at h6 ⊢
  have h7 := h6.trans
    (port_change_flag_trace_grows r6.1 X.layout.PLC (.link_state_changed i) r6.2)
  generalize port_change_flag r6.1 X.layout.PLC (.link_state_changed i) r6.2 = r7 at h7 ⊢
  have h8 := h7.trans
    (port_change_flag_trace_grows r7.1 X.layout.CEC (.configure_link_failed i) r7.2)
  generalize port_change_flag r7.1 X.layout.CEC (.configure_link_failed i) r7.2 = r8 at h8 ⊢
  split
  · exact h8.trans (by simp)
  · exact h8

/-- The first action of the loop body for port `i` is the write-back of the
status read from the port. -/
theorem port_change_body_trace (E : errno_h) (X : xhci_ext) (s : xhci_rh_t) (i : Nat) :
    ∃ rest : List rh_action, (port_change_body E X s i).trace
      = s.trace ++ rh_action.portsc_write i (s.portsc_rd i) :: rest := by
  have h1 := port_change_csc_trace_grows E X (s.portsc_rd i &&& port_change_mask X.layout)
    (port_change_ack X s i) i
  have h2 := h1.trans (port_change_rest_trace_grows E X (port_change_csc E X
    (s.portsc_rd i &&& port_change_mask X.layout) (port_change_ack X s i) i) i)
  rw [← port_change_body_eq_rest] at h2
  obtain ⟨rest, hrest⟩ := h2
  refine ⟨rest, ?_⟩
  rw [← hrest]
  simp [port_change_ack]

theorem port_change_from_trace_grows (E : errno_h) (X : xhci_ext) :
    ∀ (n i : Nat) (s : xhci_rh_t), s.trace <+: (port_change_from E X n i s).trace := by
  intro n
  induction n with
  | zero => intro i s; exact List.prefix_refl _
  | succ n ih =>
    intro i s
    obtain ⟨rest, hrest⟩ := port_change_body_trace E X s i
    exact List.IsPrefix.trans (hrest ▸ List.prefix_append _ _) (ih (i + 1) _)

theorem port_change_from_add (E : errno_h) (X : xhci_ext) :
    ∀ (a b i : Nat) (s : xhci_rh_t),
      port_change_from E X (a + b) i s
        = port_change_from E X b (i + a) (port_change_from E X a i s) := by
  intro a
  induction a with
  | zero => intro b i s; simp [port_change_from]
  | succ a ih =>
    intro b i s
    rw [show a + 1 + b = (a + b) + 1 by omega, port_change_from, port_change_from, ih,
      show i + 1 + a = i + (a + 1) by omega]

theorem portsc_store_sample_clears (old v j : Nat)
    (h : (v &&& port_change_mask xhci_layout_sample).testBit j = true) :
    (portsc_store_sample old v).testBit j = false := by
  have hm : (port_change_mask xhci_layout_sample).testBit j = true := by
    rw [Nat.testBit_land, Bool.and_eq_true] at h
    exact h.2
  rw [port_change_mask_testBit] at hm
  simp only [xhci_layout_sample, Bool.or_eq_true, decide_eq_true_eq] at hm
  have hj : 17 ≤ j ∧ j ≤ 23 := by omega
  have h32 : (0xFFFFFFFF : Nat) = 2 ^ 32 - 1 := by norm_num
  rw [portsc_store_sample, Nat.testBit_lor, clear_mask32, Nat.testBit_land, Nat.testBit_xor, h,
    Nat.testBit_land, XHCI_REG_MASK_testBit, h32, Nat.testBit_two_pow_sub_one]
  have h1 : decide (j < 32) = true := by simp; omega
  have h2 : decide (xhci_layout_sample.PR = j) = false := by
    simp [xhci_layout_sample]; omega
  rw [h1, h2]
  simp

theorem port_change_ack_portsc_rd (X : xhci_ext) (s : xhci_rh_t) (p : Nat)
    (h : p - 1 < s.portsc.length) :
    (port_change_ack X s p).portsc_rd p
      = X.portsc_store (s.portsc.getD (p - 1) 0) (s.portsc_rd p) % 2 ^ 32 := by
  simp only [port_change_ack, xhci_rh_t.portsc_wr, xhci_rh_t.portsc_rd, xhci_rh_t.emit,
    List.getD_eq_getElem?_getD, List.getElem?_set_self h, Option.getD_some]

/-- C35: in a run of `xhci_rh_handle_port_change` over at most 254 ports (a
register for each, enough fuel) the run is the loop body applied to the ports
1, ..., `max_ports` in turn, and for each port `p` the pass of the loop for `p`
starts in the state `t` left by the passes for the ports before `p`, in which
the register of `p` still has the status it had at the start and in which no
enumeration or reset of `p` has been added; the first action of the pass is the
write-back of the status read from the register of `p`, so in the trace of the
run this write comes after the trace of `t` and before everything else the pass
for `p` and the later passes do; and with a register that clears a change bit
written as 1, every change bit pending in the status read is clear in the
register after the write. -/
theorem xhci_rh_handle_port_change_write_back_first (E : errno_h) (X : xhci_ext)
    (s : xhci_rh_t) (p fuel : Nat) (hp : 1 ≤ p) (hpm : p ≤ s.max_ports)
    (hmax : s.max_ports < 255) (hregs : s.max_ports ≤ s.portsc.length)
    (hfuel : s.max_ports < fuel)
    (hstore : ∀ old v j, (v &&& port_change_mask X.layout).testBit j = true →
      (X.portsc_store old v).testBit j = false) :
    xhci_rh_handle_port_change E X fuel s
      = .finished (port_change_from E X s.max_ports 1 s) ∧
    port_change_from E X s.max_ports 1 s
      = port_change_from E X (s.max_ports - p) (p + 1)
          (port_change_body E X (port_change_from E X (p - 1) 1 s) p) ∧
    (port_change_from E X (p - 1) 1 s).portsc_rd p = s.portsc_rd p ∧
    (∃ evs, (port_change_from E X (p - 1) 1 s).port_events = s.port_events ++ evs ∧
      ∀ a ∈ evs, a ≠ .hcd_ddf_device_create p ∧ a ≠ .reg_set_PR p) ∧
    (∃ rest : List rh_action,
      (port_change_body E X (port_change_from E X (p - 1) 1 s) p).trace
        = (port_change_from E X (p - 1) 1 s).trace ++
            rh_action.portsc_write p (s.portsc_rd p) :: rest) ∧
    (∃ rest : List rh_action, (port_change_from E X s.max_ports 1 s).trace
      = (port_change_from E X (p - 1) 1 s).trace ++
          rh_action.portsc_write p (s.portsc_rd p) :: rest) ∧
    (∀ j, (s.portsc_rd p &&& port_change_mask X.layout).testBit j = true →
      ((port_change_ack X (port_change_from E X (p - 1) 1 s) p).portsc_rd p).testBit j
        = false) := by
  obtain ⟨hlen, hget, evs, hev1, hev2⟩ :=
    port_change_from_other E X p hp (p - 1) 1 s (le_refl 1) (Or.inr (by omega))
  have hrd : (port_change_from E X (p - 1) 1 s).portsc_rd p = s.portsc_rd p :=
    portsc_rd_congr p hget
  have hsplit : port_change_from E X s.max_ports 1 s
      = port_change_from E X (s.max_ports - p) (p + 1)
          (port_change_body E X (port_change_from E X (p - 1) 1 s) p) := by
    have h1 : s.max_ports = (p - 1) + ((s.max_ports - p) + 1) := by omega
    have h2 : 1 + (p - 1) = p := by omega
    conv_lhs => rw [h1]
    rw [port_change_from_add, port_change_from, h2]
  obtain ⟨rest, hrest⟩ := port_change_body_trace E X (port_change_from E X (p - 1) 1 s) p
  rw [hrd] at hrest
  refine ⟨port_change_loop_finished E X s.max_ports 1 s fuel (le_refl 1) (by omega) hmax hregs
    hfuel, hsplit, hrd, ⟨evs, hev1, hev2⟩, ⟨rest, hrest⟩, ?_, ?_⟩
  · obtain ⟨more, hmore⟩ := port_change_from_trace_grows E X (s.max_ports - p) (p + 1)
      (port_change_body E X (port_change_from E X (p - 1) 1 s) p)
    refine ⟨rest ++ more, ?_⟩
    rw [hsplit, ← hmore, hrest]
    simp
  · intro j hj
    rw [port_change_ack_portsc_rd X _ p (by omega), Nat.testBit_mod_two_pow, hrd,
      hstore _ _ j hj]
    simp

/-- A hub of three ports with changes pending on ports 1 and 3: the pass for
port 3 begins with the write-back of 0x221203. -/
theorem xhci_rh_handle_port_change_write_back_first_witness :
    (rh_sample [0x20e01, 0, 0x221203]).max_ports < 255 ∧
    xhci_rh_handle_port_change errno_sample (xhci_ext_sample 0) 4
        (rh_sample [0x20e01, 0, 0x221203])
      = .finished (port_change_from errno_sample (xhci_ext_sample 0) 3 1
          (rh_sample [0x20e01, 0, 0x221203])) ∧
    (∃ rest : List rh_action,
      (port_change_from errno_sample (xhci_ext_sample 0) 3 1
          (rh_sample [0x20e01, 0, 0x221203])).trace
        = (port_change_from errno_sample (xhci_ext_sample 0) 2 1
            (rh_sample [0x20e01, 0, 0x221203])).trace ++
            rh_action.portsc_write 3 0x221203 :: rest) ∧
    ((port_change_ack (xhci_ext_sample 0) (port_change_from errno_sample (xhci_ext_sample 0) 2 1
        (rh_sample [0x20e01, 0, 0x221203])) 3).portsc_rd 3).testBit 21 = false :=
  have h := xhci_rh_handle_port_change_write_back_first errno_sample (xhci_ext_sample 0)
    (rh_sample [0x20e01, 0, 0x221203]) 3 4 (by decide) (by decide) (by decide) (by decide)
    (by decide) (fun old v j hj => portsc_store_sample_clears old v j hj)
  ⟨by decide, h.1, h.2.2.2.2.2.1, h.2.2.2.2.2.2 21 (by decide)⟩

/-! ## Theorems: debugger.c -/

/-- C40 fails on the code: the check `intval > BKPOINTS_MAX` of line 212 lets
the number `BKPOINTS_MAX` through, and `cmd_del_breakpoint` then takes
`breakpoints[BKPOINTS_MAX]`, one entry past the end of the table, after it has
disabled the interrupts and taken the lock; `BKPOINTS_MAX` is the only number
for which this happens.  Shown for a table of ten empty entries and in
general. -/
theorem cmd_del_breakpoint_index_past_the_end :
    cmd_del_breakpoint 10 1 2 (List.replicate 10 ⟨0, 0, 0, 0⟩) 10
      = .out_of_bounds 10 [.interrupts_disable, .spinlock_lock] ∧
    (∀ (BKPOINT_INPROG BKPOINT_ONESHOT : Nat) (breakpoints : List bpinfo_t),
      cmd_del_breakpoint breakpoints.length BKPOINT_INPROG BKPOINT_ONESHOT breakpoints
          breakpoints.length
        = .out_of_bounds breakpoints.length [.interrupts_disable, .spinlock_lock]) ∧
    (∀ (BKPOINT_INPROG BKPOINT_ONESHOT : Nat) (breakpoints : List bpinfo_t) (intval : Int),
      (∃ index t, cmd_del_breakpoint breakpoints.length BKPOINT_INPROG BKPOINT_ONESHOT
          breakpoints intval = .out_of_bounds index t) ↔ intval = breakpoints.length) := by
  have hgen : ∀ (BKPOINT_INPROG BKPOINT_ONESHOT : Nat) (breakpoints : List bpinfo_t),
      cmd_del_breakpoint breakpoints.length BKPOINT_INPROG BKPOINT_ONESHOT breakpoints
          breakpoints.length
        = .out_of_bounds breakpoints.length [.interrupts_disable, .spinlock_lock] := by
    intro I O bp
    have h1 : ¬ (((bp.length : Nat) : Int) < 0 ∨ ((bp.length : Nat) : Int) > bp.length) := by
      omega
    simp [cmd_del_breakpoint, h1]
  refine ⟨by decide, hgen, ?_⟩
  intro I O bp intval
  constructor
  · rintro ⟨index, t, h⟩
    unfold cmd_del_breakpoint at h
    split at h
    · simp at h
    · rename_i hr
      simp only [] at h
      split at h
      · rename_i hnone
        rw [List.get?_eq_none] at hnone
        omega
      · split at h
        · simp at h
        · split at h <;> simp at h
  · intro h
    subst h
    exact ⟨_, _, hgen I O bp⟩

/-! ## Theorems: str.c, UTF-8 -/

theorem str_decode_code_cbytes (b0 b0_bits cbytes : Nat)
    (h : str_decode_code b0 = some (b0_bits, cbytes)) : cbytes ≤ 3 := by
  unfold str_decode_code at h
  split at h
  · cases h; omega
  · split at h
    · cases h; omega
    · split at h
      · cases h; omega
      · split at h
        · cases h; omega
        · cases h

/-- The continuation loop of `str_decode` reads the bytes from `offset` up to
where it stops, and it stops after at most `cbytes` bytes. -/
theorem str_decode_cont_bounds (w : Nat) (U_SPECIAL : Int) (str : Nat → Nat) :
    ∀ (cbytes ch offset : Nat) (reads : List Nat), offset + cbytes < 2 ^ w →
      offset ≤ (str_decode_cont w U_SPECIAL str cbytes ch offset reads).offset ∧
      (str_decode_cont w U_SPECIAL str cbytes ch offset reads).offset ≤ offset + cbytes ∧
      (str_decode_cont w U_SPECIAL str cbytes ch offset reads).reads = reads ++
        List.range' offset
          ((str_decode_cont w U_SPECIAL str cbytes ch offset reads).offset - offset) := by
  intro cbytes
  induction cbytes with
  | zero => intro ch offset reads _; simp [str_decode_cont]
  | succ n ih =>
    intro ch offset reads h
    have hmod : (offset + 1) % 2 ^ w = offset + 1 := Nat.mod_eq_of_lt (by omega)
    simp only [str_decode_cont, hmod]
    split
    · simp
    · obtain ⟨h1, h2, h3⟩ := ih ((ch <<< CONT_BITS) ||| (str offset % 256 &&& LO_MASK_8 CONT_BITS))
        (offset + 1) (reads ++ [offset]) (by omega)
      refine ⟨by omega, by omega, ?_⟩
      rw [h3]
      generalize (str_decode_cont w U_SPECIAL str n
        ((ch <<< CONT_BITS) ||| (str offset % 256 &&& LO_MASK_8 CONT_BITS)) (offset + 1)
        (reads ++ [offset])).offset = r at h1 h2 ⊢
      obtain ⟨k, rfl⟩ : ∃ k, r = offset + 1 + k := ⟨r - (offset + 1), by omega⟩
      rw [show offset + 1 + k - (offset + 1) = k by omega,
        show offset + 1 + k - offset = k + 1 by omega, List.range'_succ]
      simp

/-- The behaviour of `str_decode` where `size_t` does not wrap. -/
theorem str_decode_bounds (w : Nat) (U_SPECIAL : Int) (str : Nat → Nat) (offset size : Nat)
    (hoff : offset + 4 < 2 ^ w) :
    (size ≤ offset →
      str_decode w U_SPECIAL str offset size = { ch := 0, offset := offset, reads := [] }) ∧
    (offset < size →
      offset < (str_decode w U_SPECIAL str offset size).offset ∧
      (str_decode w U_SPECIAL str offset size).offset ≤ size ∧
      (str_decode w U_SPECIAL str offset size).offset ≤ offset + 4 ∧
      (str_decode w U_SPECIAL str offset size).reads
        = List.range' offset ((str_decode w U_SPECIAL str offset size).offset - offset)) := by
  have hmod : (offset + 1) % 2 ^ w = offset + 1 := Nat.mod_eq_of_lt (by omega)
  constructor
  · intro h
    have h1 : (offset + 1) % 2 ^ w > size := by rw [hmod]; omega
    simp [str_decode, h1]
  · intro h
    have h1 : ¬ offset + 1 > size := by omega
    unfold str_decode
    simp only [hmod, h1, if_false]
    split
    · simp
      omega
    · rename_i b0_bits cbytes hcode
      have hc := str_decode_code_cbytes _ _ _ hcode
      have hmod2 : (offset + 1 + cbytes) % 2 ^ w = offset + 1 + cbytes :=
        Nat.mod_eq_of_lt (by omega)
      rw [hmod2]
      split
      · simp
        omega
      · obtain ⟨c1, c2, c3⟩ := str_decode_cont_bounds w U_SPECIAL str cbytes
          (str offset % 256 &&& LO_MASK_8 b0_bits) (offset + 1) [offset] (by omega)
        refine ⟨by omega, by omega, by omega, ?_⟩
        rw [c3]
        generalize (str_decode_cont w U_SPECIAL str cbytes
          (str offset % 256 &&& LO_MASK_8 b0_bits) (offset + 1) [offset]).offset = r at c1 c2 ⊢
        obtain ⟨k, rfl⟩ : ∃ k, r = offset + 1 + k := ⟨r - (offset + 1), by omega⟩
        rw [show offset + 1 + k - (offset + 1) = k by omega,
          show offset + 1 + k - offset = k + 1 by omega, List.range'_succ]
        simp

/-- C32 fails on the code where `size_t` wraps.  With a 64-bit `size_t`, for
`offset` = `size` = `2 ^ 64 - 1` the test `*offset + 1 > size` of line 78
compares 0 with `size`: `str_decode` reads the byte at index `size`, returns it
and leaves the offset at 0.  For `offset` = `2 ^ 64 - 2` and `size` =
`2 ^ 64 - 1`, with a first byte that announces one continuation byte, the test
of line 110 wraps the same way and the byte at index `size` is read. -/
theorem str_decode_offset_wraps :
    str_decode 64 63 (fun _ => 0x41) (2 ^ 64 - 1) (2 ^ 64 - 1)
      = { ch := 0x41, offset := 0, reads := [2 ^ 64 - 1] } ∧
    str_decode 64 63 (fun _ => 0xc3) (2 ^ 64 - 2) (2 ^ 64 - 1)
      = { ch := 63, offset := 0, reads := [2 ^ 64 - 2, 2 ^ 64 - 1] } := by
  refine ⟨by decide, by decide⟩

/-- For a starting offset of at most `SIZE_MAX - 4` (so that `size_t` does
not wrap) `str_decode` with `offset ≤ size` never moves the offset
beyond `size`, and the bytes it reads are those from the starting offset up to
the new offset, all at indices below `size`; for `offset ≥ size` it returns 0,
reads nothing and leaves the offset alone; for `offset < size` it advances the
offset by at least one and at most four, whatever it returns. -/
theorem str_decode_within_size (w : Nat) (U_SPECIAL : Int) (str : Nat → Nat)
    (offset size : Nat) (hoff : offset + 4 < 2 ^ w) :
    (offset ≤ size →
      (str_decode w U_SPECIAL str offset size).offset ≤ size ∧
      ∀ k ∈ (str_decode w U_SPECIAL str offset size).reads, k < size) ∧
    (size ≤ offset →
      str_decode w U_SPECIAL str offset size = { ch := 0, offset := offset, reads := [] }) ∧
    (offset < size →
      offset < (str_decode w U_SPECIAL str offset size).offset ∧
      (str_decode w U_SPECIAL str offset size).offset ≤ offset + 4 ∧
      (str_decode w U_SPECIAL str offset size).reads
        = List.range' offset ((str_decode w U_SPECIAL str offset size).offset - offset)) := by
  obtain ⟨h1, h2⟩ := str_decode_bounds w U_SPECIAL str offset size hoff
  refine ⟨?_, h1, fun h => ⟨(h2 h).1, (h2 h).2.2.1, (h2 h).2.2.2⟩⟩
  intro hle
  rcases Nat.lt_or_ge offset size with h | h
  · obtain ⟨a1, a2, -, a4⟩ := h2 h
    refine ⟨a2, ?_⟩
    intro k hk
    rw [a4, List.mem_range'_1] at hk
    omega
  · rw [h1 h]
    exact ⟨hle, by simp⟩

/-- A two-byte character in a buffer of three bytes, decoded from offset 1. -/
theorem str_decode_within_size_witness :
    1 + 4 < 2 ^ 64 ∧
    ((str_decode 64 63 (str_at [0x61, 0xc3, 0xa9]) 1 3).offset ≤ 3 ∧
      ∀ k ∈ (str_decode 64 63 (str_at [0x61, 0xc3, 0xa9]) 1 3).reads, k < 3) ∧
    str_decode 64 63 (str_at [0x61, 0xc3, 0xa9]) 1 3
      = { ch := 0xe9, offset := 3, reads := [1, 2] } :=
  ⟨by decide,
    (str_decode_within_size 64 63 (str_at [0x61, 0xc3, 0xa9]) 1 3 (by decide)).1 (by decide),
    by decide⟩

/-- C34 fails on the code: for the string "abc" and `max_len` = 4, more than
its length 3, `str_lsize` returns 4 although `str_size` is 3: the call of
`str_decode` that meets the terminator returns 0 only after it has moved the
offset past the terminator, and `str_lsize` returns that offset.  For
`max_len` up to the length the result is right; for the empty string and any
`max_len` above 0 the result is 1. -/
theorem str_lsize_counts_terminator :
    str_lsize 64 63 (str_at [0x61, 0x62, 0x63]) 4 = 4 ∧
    str_size 64 (str_at [0x61, 0x62, 0x63]) 4 0 = some 3 ∧
    str_length 64 63 (str_at [0x61, 0x62, 0x63]) 4 0 0 = some 3 ∧
    str_lsize 64 63 (str_at [0x61, 0x62, 0x63]) 3 = 3 ∧
    str_lsize 64 63 (str_at [0x61, 0x62, 0x63]) 2 = 2 ∧
    (∀ (U_SPECIAL : Int) (n : Nat), str_lsize 64 U_SPECIAL (str_at []) (n + 1) = 1) ∧
    str_size 64 (str_at []) 1 0 = some 0 := by
  refine ⟨by decide, by decide, by decide, by decide, by decide, ?_, by decide⟩
  intro U n
  have h : str_decode 64 U (str_at []) 0 (STR_NO_LIMIT 64)
      = { ch := 0, offset := 1, reads := [0] } := rfl
  simp [str_lsize, str_lsize_loop, h]

/-! ### str_cmp -/

theorem str_chars_ne_zero (w : Nat) (U_SPECIAL : Int) (str : Nat → Nat) :
    ∀ (fuel offset : Nat) (l : List Int), str_chars w U_SPECIAL str fuel offset = some l →
      ∀ c ∈ l, c ≠ 0 := by
  intro fuel
  induction fuel with
  | zero => intro offset l h; simp [str_chars] at h
  | succ f ih =>
    intro offset l h
    simp only [str_chars] at h
    split at h
    · cases h; simp
    · rename_i hne
      rw [Option.map_eq_some'] at h
      obtain ⟨l1, hl1, rfl⟩ := h
      intro c hc
      rw [List.mem_cons] at hc
      rcases hc with rfl | hc
      · exact hne
      · exact ih _ l1 hl1 c hc

theorem chars_cmp_eq_zero_iff : ∀ (l1 l2 : List Int), (∀ c ∈ l1, c ≠ 0) → (∀ c ∈ l2, c ≠ 0) →
    (chars_cmp l1 l2 = 0 ↔ l1 = l2) := by
  intro l1
  induction l1 with
  | nil =>
    intro l2 _ h2
    cases l2 with
    | nil => simp [chars_cmp]
    | cons b l2 =>
      have hb : b ≠ 0 := h2 b (by simp)
      simp only [chars_cmp]
      split
      · simp
      · split
        · simp
        · omega
  | cons a l1 ih =>
    intro l2 h1 h2
    have ha : a ≠ 0 := h1 a (by simp)
    cases l2 with
    | nil =>
      simp only [chars_cmp]
      split
      · simp
      · split
        · simp
        · omega
    | cons b l2 =>
      simp only [chars_cmp]
      split
      · simp; intro h; omega
      · split
        · simp; intro h; omega
        · have hab : a = b := by omega
          subst hab
          rw [ih l2 (fun c hc => h1 c (by simp [hc])) (fun c hc => h2 c (by simp [hc]))]
          simp

theorem chars_cmp_values : ∀ (l1 l2 : List Int),
    chars_cmp l1 l2 = 0 ∨ chars_cmp l1 l2 = -1 ∨ chars_cmp l1 l2 = 1 := by
  intro l1
  induction l1 with
  | nil =>
    intro l2
    cases l2 with
    | nil => simp [chars_cmp]
    | cons b l2 => simp only [chars_cmp]; split <;> [simp; (split <;> simp)]
  | cons a l1 ih =>
    intro l2
    cases l2 with
    | nil => simp only [chars_cmp]; split <;> [simp; (split <;> simp)]
    | cons b l2 =>
      simp only [chars_cmp]
      split
      · simp
      · split
        · simp
        · exact ih l2

/-- A sequence without the character 0 compares smaller than each of its
extensions by characters above 0. -/
theorem chars_cmp_extension : ∀ (l : List Int) (c : Int) (r : List Int), 0 < c →
    chars_cmp l (l ++ c :: r) = -1 := by
  intro l
  induction l with
  | nil => intro c r hc; simp [chars_cmp, hc]
  | cons a l ih =>
    intro c r hc
    simp only [List.cons_append, chars_cmp, lt_self_iff_false, if_false, gt_iff_lt]
    exact ih c r hc

/-- The loop of `str_cmp` compares the character sequences of the two
strings. -/
theorem str_cmp_loop_chars (w : Nat) (U_SPECIAL : Int) (s1 s2 : Nat → Nat) :
    ∀ (fuel off1 off2 : Nat) (l1 l2 : List Int),
      str_chars w U_SPECIAL s1 fuel off1 = some l1 →
      str_chars w U_SPECIAL s2 fuel off2 = some l2 →
      str_cmp_loop w U_SPECIAL s1 s2 fuel off1 off2 = some (chars_cmp l1 l2) := by
  intro fuel
  induction fuel with
  | zero => intro off1 off2 l1 l2 h; simp [str_chars] at h
  | succ f ih =>
    intro off1 off2 l1 l2 h1 h2
    simp only [str_chars] at h1 h2
    simp only [str_cmp_loop]
    generalize str_decode w U_SPECIAL s1 off1 (STR_NO_LIMIT w) = d1 at h1 ⊢
    generalize str_decode w U_SPECIAL s2 off2 (STR_NO_LIMIT w) = d2 at h2 ⊢
    by_cases z1 : d1.ch = 0
    · rw [if_pos z1] at h1
      cases h1
      by_cases z2 : d2.ch = 0
      · rw [if_pos z2] at h2
        cases h2
        simp [z1, z2, chars_cmp]
      · rw [if_neg z2, Option.map_eq_some'] at h2
        obtain ⟨l, -, rfl⟩ := h2
        simp only [z1, chars_cmp, gt_iff_lt, true_or, if_true]
        split
        · rfl
        · split
          · rfl
          · omega
    · rw [if_neg z1, Option.map_eq_some'] at h1
      obtain ⟨l1a, hl1, rfl⟩ := h1
      by_cases z2 : d2.ch = 0
      · rw [if_pos z2] at h2
        cases h2
        simp only [z2, chars_cmp, gt_iff_lt, or_true, if_true]
        split
        · rfl
        · split
          · rfl
          · omega
      · rw [if_neg z2, Option.map_eq_some'] at h2
        obtain ⟨l2a, hl2, rfl⟩ := h2
        simp only [chars_cmp, gt_iff_lt, z1, z2, or_self, if_false]
        split
        · rfl
        · split
          · rfl
          · exact ih _ _ _ _ hl1 hl2

/-- The decoding of a string followed by NUL bytes ends: from an offset up to
three bytes past the end of the string `s`, with more fuel than bytes of `s`
remain, `str_chars` gives a character sequence. -/
theorem str_chars_terminates (w : Nat) (U_SPECIAL : Int) (s : List Nat)
    (hw : s.length + 8 ≤ 2 ^ w) :
    ∀ (fuel offset : Nat), 1 ≤ fuel → offset ≤ s.length + 3 → s.length < fuel + offset →
      ∃ l, str_chars w U_SPECIAL (str_at s) fuel offset = some l := by
  intro fuel
  induction fuel with
  | zero => intro offset h; omega
  | succ f ih =>
    intro offset _ ho hf
    simp only [str_chars]
    split
    · exact ⟨[], rfl⟩
    · rename_i hne
      have hlt : offset < s.length := by
        by_contra hge
        apply hne
        have hz : str_at s offset = 0 := by
          simp [str_at, List.getElem?_eq_none (Nat.le_of_not_lt hge)]
        have hmod : (offset + 1) % 2 ^ w = offset + 1 := Nat.mod_eq_of_lt (by omega)
        have h1 : ¬ offset + 1 > STR_NO_LIMIT w := by
          simp only [STR_NO_LIMIT]; omega
        have hcode : str_decode_code 0 = some (7, 0) := by decide
        unfold str_decode
        simp only [hmod, h1, if_false, hz, Nat.zero_mod, hcode, Nat.add_zero]
        simp [str_decode_cont]
      obtain ⟨b1, -, b3, -⟩ := (str_decode_bounds w U_SPECIAL (str_at s) offset (STR_NO_LIMIT w)
        (by omega)).2 (by simp only [STR_NO_LIMIT]; omega)
      obtain ⟨l, hl⟩ := ih (str_decode w U_SPECIAL (str_at s) offset (STR_NO_LIMIT w)).offset
        (by omega) (by omega) (by omega)
      exact ⟨_, by rw [hl]; rfl⟩

/-- C33 fails on the code: the strings "a" and "ab" consist of the same
characters on the minimum of their lengths, and `str_cmp` returns -1 for them,
and 1 for them in the other order, where the comment of the function (lines
386-387) has them equal. -/
theorem str_cmp_extension_not_equal :
    str_cmp 64 63 (str_at [0x61]) (str_at [0x61, 0x62]) 3 = some (-1) ∧
    str_cmp 64 63 (str_at [0x61, 0x62]) (str_at [0x61]) 3 = some 1 ∧
    ([0x61] : List Nat).take (min 1 2) = ([0x61, 0x62] : List Nat).take (min 1 2) := by
  refine ⟨by decide, by decide, by decide⟩

/-- For two strings whose characters, as `str_decode` returns them up to the
first 0, are `l1` and `l2`, `str_cmp` returns the comparison of
`l1` and `l2` position by position with the end of a string counting as the
character 0: it returns 0 exactly when `l1` and `l2` are the same sequence, and
otherwise -1 or 1; a string is smaller (-1) than each of its extensions by a
character above 0.  Every string of bytes followed by NUL bytes has such a
character sequence, given more fuel than it has bytes. -/
theorem str_cmp_compares_characters (w : Nat) (U_SPECIAL : Int) (s1 s2 : Nat → Nat)
    (fuel : Nat) (l1 l2 : List Int) (h1 : str_chars w U_SPECIAL s1 fuel 0 = some l1)
    (h2 : str_chars w U_SPECIAL s2 fuel 0 = some l2) :
    str_cmp w U_SPECIAL s1 s2 fuel = some (chars_cmp l1 l2) ∧
    (chars_cmp l1 l2 = 0 ↔ l1 = l2) ∧
    (chars_cmp l1 l2 = 0 ∨ chars_cmp l1 l2 = -1 ∨ chars_cmp l1 l2 = 1) ∧
    (∀ c r, l2 = l1 ++ c :: r → 0 < c → chars_cmp l1 l2 = -1) ∧
    (∀ t : List Nat, t.length + 8 ≤ 2 ^ w → t.length < fuel →
      ∃ l, str_chars w U_SPECIAL (str_at t) fuel 0 = some l) := by
  refine ⟨str_cmp_loop_chars w U_SPECIAL s1 s2 fuel 0 0 l1 l2 h1 h2,
    chars_cmp_eq_zero_iff l1 l2 (str_chars_ne_zero w U_SPECIAL s1 fuel 0 l1 h1)
      (str_chars_ne_zero w U_SPECIAL s2 fuel 0 l2 h2),
    chars_cmp_values l1 l2, ?_, ?_⟩
  · intro c r hl hc
    rw [hl]
    exact chars_cmp_extension l1 c r hc
  · intro t ht hf
    exact str_chars_terminates w U_SPECIAL t ht fuel 0 (by omega) (by omega) (by omega)

/-- The strings "aé" and "aé", and "aé" against "az". -/
theorem str_cmp_compares_characters_witness :
    str_chars 64 63 (str_at [0x61, 0xc3, 0xa9]) 4 0 = some [0x61, 0xe9] ∧
    str_chars 64 63 (str_at [0x61, 0x7a]) 4 0 = some [0x61, 0x7a] ∧
    str_cmp 64 63 (str_at [0x61, 0xc3, 0xa9]) (str_at [0x61, 0x7a]) 4
      = some (chars_cmp [0x61, 0xe9] [0x61, 0x7a]) ∧
    chars_cmp [0x61, 0xe9] [0x61, 0x7a] = 1 ∧
    str_cmp 64 63 (str_at [0x61, 0xc3, 0xa9]) (str_at [0x61, 0xc3, 0xa9]) 4 = some 0 :=
  ⟨by decide, by decide,
    (str_cmp_compares_characters 64 63 (str_at [0x61, 0xc3, 0xa9]) (str_at [0x61, 0x7a]) 4
      [0x61, 0xe9] [0x61, 0x7a] (by decide) (by decide)).1,
    by decide, by decide⟩

/-! ## Theorems: str.c, UTF-16 and number conversion -/

/-- C39 fails on the code: for the string F0 90 80 80, the UTF-8 form of the
code point 0x10000, `str_to_utf16` returns `EOK` and leaves the single unit 0
(line 696 tests `c > 0x10000`, so 0x10000 is stored as one truncated unit), and
`utf16_to_str` of that returns `EOK` with the empty string.  The next code point,
0x10001 (F0 90 80 81), goes to the pair D800 DC01 and comes back. -/
theorem str_to_utf16_code_point_0x10000 :
    str_decode 64 63 (str_at [0xf0, 0x90, 0x80, 0x80]) 0 (STR_NO_LIMIT 64)
      = { ch := 0x10000, offset := 4, reads := [0, 1, 2, 3] } ∧
    (str_to_utf16 64 63 str_errno_sample (fun _ => 0xffff) 8
        (str_at [0xf0, 0x90, 0x80, 0x80]) 4).map
        (fun r => (r.ret, r.idx, (List.range 3).map r.dest))
      = some (EOK, 1, [0, 0, 0xffff]) ∧
    (utf16_to_str 64 str_errno_sample (fun _ => 0xff) 8 (str_at [0, 0]) 4).map
        (fun r => (r.ret, r.idx, (List.range 5).map r.dest))
      = some (EOK, 0, [0, 0xff, 0xff, 0xff, 0xff]) ∧
    (str_to_utf16 64 63 str_errno_sample (fun _ => 0xffff) 8
        (str_at [0xf0, 0x90, 0x80, 0x81]) 4).map
        (fun r => (r.ret, r.idx, (List.range 3).map r.dest))
      = some (EOK, 2, [0xd800, 0xdc01, 0]) ∧
    (utf16_to_str 64 str_errno_sample (fun _ => 0xff) 8 (str_at [0xd800, 0xdc01]) 4).map
        (fun r => (r.ret, r.idx, (List.range 5).map r.dest))
      = some (EOK, 4, [0xf0, 0x90, 0x80, 0x81, 0]) := by
  refine ⟨by decide, by decide, by decide, by decide, by decide⟩

/-- C31 fails on the code: line 987 of `_strtoul` leaves the digit loop for
`c > base`, so a character whose digit value equals the base is taken as a
digit.  For "1a" and base 10 both `strtoul` and `strtol` return 20 with
`*endptr` at the end of the string, where the run of decimal digits is "1"; for
"8" and base 8 they return 8, for "1" followed by an opening brace and base 36
they return 72. -/
theorem strtoul_digit_equal_to_base :
    strtoul isspace_sample 64 [0x31, 0x61] 10 = (20, some 2) ∧
    strtol isspace_sample 64 [0x31, 0x61] 10 = (20, some 2) ∧
    strtoul isspace_sample 64 [0x38] 8 = (8, some 1) ∧
    strtol isspace_sample 64 [0x38] 8 = (8, some 1) ∧
    strtoul isspace_sample 64 [0x31, 0x7b] 36 = (72, some 2) ∧
    strtoul isspace_sample 64 [0x31, 0x39] 10 = (19, some 2) ∧
    strtoul_digit 0x61 = 10 := by
  refine ⟨by decide, by decide, by decide, by decide, by decide, by decide, by decide⟩

/-! ### The UTF-8 round trip -/

theorem hi_mask_zero_iff (n k : Nat) (hn : n < 2 ^ 32) (hk : k ≤ 32) :
    n &&& ((2 ^ k - 1) ^^^ (2 ^ 32 - 1)) = 0 ↔ n < 2 ^ k := by
  constructor
  · intro h
    apply Nat.lt_pow_two_of_testBit
    intro i hi
    by_cases h32 : i < 32
    · have := congrArg (fun x => x.testBit i) h
      simp only [Nat.testBit_land, Nat.testBit_xor, Nat.testBit_two_pow_sub_one,
        Nat.zero_testBit] at this
      have hik : decide (i < k) = false := by simp; omega
      have hi32 : decide (i < 32) = true := by simp; omega
      rw [hik, hi32] at this
      simpa using this
    · exact Nat.testBit_lt_two_pow (lt_of_lt_of_le hn (Nat.pow_le_pow_right (by norm_num)
        (by omega)))
  · intro h
    apply Nat.eq_of_testBit_eq
    intro i
    simp only [Nat.testBit_land, Nat.testBit_xor, Nat.testBit_two_pow_sub_one,
      Nat.zero_testBit]
    by_cases hik : i < k
    · have hi32 : i < 32 := by omega
      simp [hik, hi32]
    · have : n.testBit i = false :=
        Nat.testBit_lt_two_pow (lt_of_lt_of_le h (Nat.pow_le_pow_right (by norm_num)
          (by omega)))
      simp [this]

theorem chr_encode_code_eq (n : Nat) (hn : n ≤ 0x10FFFF) :
    chr_encode_code n
      = if n < 2 ^ 7 then some (7, 0) else if n < 2 ^ 11 then some (5, 1)
        else if n < 2 ^ 16 then some (4, 2) else some (3, 3) := by
  have h32 : n < 2 ^ 32 := by omega
  have e7 : LO_MASK_32 7 ^^^ 0xFFFFFFFF = (2 ^ 7 - 1) ^^^ (2 ^ 32 - 1) := by decide
  have e11 : LO_MASK_32 11 ^^^ 0xFFFFFFFF = (2 ^ 11 - 1) ^^^ (2 ^ 32 - 1) := by decide
  have e16 : LO_MASK_32 16 ^^^ 0xFFFFFFFF = (2 ^ 16 - 1) ^^^ (2 ^ 32 - 1) := by decide
  have e21 : LO_MASK_32 21 ^^^ 0xFFFFFFFF = (2 ^ 21 - 1) ^^^ (2 ^ 32 - 1) := by decide
  have h21 : n < 2 ^ 21 := by omega
  unfold chr_encode_code
  rw [e7, e11, e16, e21]
  simp only [hi_mask_zero_iff n 7 h32 (by norm_num),
    hi_mask_zero_iff n 11 h32 (by norm_num), hi_mask_zero_iff n 16 h32 (by norm_num),
    hi_mask_zero_iff n 21 h32 (by norm_num), h21, if_true]

/-- A continuation byte written by `chr_encode` is one for `str_decode`, with the
same data bits. -/
theorem cont_byte_facts : ∀ r, r < 64 →
    ((0x80 ||| r) % 256) % 256 &&& 0xc0 = 0x80 ∧
    ((0x80 ||| r) % 256) % 256 &&& LO_MASK_8 CONT_BITS = r := by
  decide

theorem first_byte_facts_7 : ∀ q, q < 128 →
    str_decode_code ((((q &&& LO_MASK_32 7) ||| HI_MASK_8 (8 - 7 - 1)) % 256) % 256) = some (7, 0) ∧
    (((q &&& LO_MASK_32 7) ||| HI_MASK_8 (8 - 7 - 1)) % 256) % 256 &&& LO_MASK_8 7 = q := by
  decide

theorem first_byte_facts_5 : ∀ q, q < 32 →
    str_decode_code ((((q &&& LO_MASK_32 5) ||| HI_MASK_8 (8 - 5 - 1)) % 256) % 256) = some (5, 1) ∧
    (((q &&& LO_MASK_32 5) ||| HI_MASK_8 (8 - 5 - 1)) % 256) % 256 &&& LO_MASK_8 5 = q := by
  decide

theorem first_byte_facts_4 : ∀ q, q < 16 →
    str_decode_code ((((q &&& LO_MASK_32 4) ||| HI_MASK_8 (8 - 4 - 1)) % 256) % 256) = some (4, 2) ∧
    (((q &&& LO_MASK_32 4) ||| HI_MASK_8 (8 - 4 - 1)) % 256) % 256 &&& LO_MASK_8 4 = q := by
  decide

theorem first_byte_facts_3 : ∀ q, q < 8 →
    str_decode_code ((((q &&& LO_MASK_32 3) ||| HI_MASK_8 (8 - 3 - 1)) % 256) % 256) = some (3, 3) ∧
    (((q &&& LO_MASK_32 3) ||| HI_MASK_8 (8 - 3 - 1)) % 256) % 256 &&& LO_MASK_8 3 = q := by
  decide


theorem shl_or (q r : Nat) (hr : r < 64) : (q <<< CONT_BITS) ||| r = q * 64 + r := by
  rw [CONT_BITS, Nat.shiftLeft_eq, Nat.mul_comm, ← Nat.mul_add_lt_is_or (by norm_num; exact hr)]

theorem and_lo6 (m : Nat) : m &&& LO_MASK_32 CONT_BITS = m % 64 := by
  have : LO_MASK_32 CONT_BITS = 2 ^ 6 - 1 := by decide
  rw [this, Nat.and_pow_two_sub_one_eq_mod]

/-- The continuation loop of `str_decode` over well-formed continuation bytes
with the data bits `rs`. -/
theorem str_decode_cont_data (w : Nat) (U_SPECIAL : Int) (buf : Nat → Nat) :
    ∀ (rs : List Nat) (ch offset : Nat) (reads : List Nat), offset + rs.length < 2 ^ w →
      (∀ i (h : i < rs.length), buf (offset + i) % 256 &&& 0xc0 = 0x80 ∧
        buf (offset + i) % 256 &&& LO_MASK_8 CONT_BITS = rs.get ⟨i, h⟩) →
      str_decode_cont w U_SPECIAL buf rs.length ch offset reads
        = { ch := ((rs.foldl (fun acc r => (acc <<< CONT_BITS) ||| r) ch : Nat) : Int),
            offset := offset + rs.length,
            reads := reads ++ List.range' offset rs.length } := by
  intro rs
  induction rs with
  | nil => intro ch offset reads _ _; simp [str_decode_cont]
  | cons r rs ih =>
    intro ch offset reads hlt hb
    have h0 := hb 0 (by simp)
    simp only [Nat.add_zero, List.get_eq_getElem, List.getElem_cons_zero] at h0
    have hmod : (offset + 1) % 2 ^ w = offset + 1 :=
      Nat.mod_eq_of_lt (by simp only [List.length_cons] at hlt; omega)
    simp only [List.length_cons, str_decode_cont, h0.1, h0.2, hmod, ne_eq, not_true_eq_false,
      if_false, List.foldl_cons]
    rw [ih _ (offset + 1) (reads ++ [offset]) (by simp only [List.length_cons] at hlt; omega)]
    · simp only [List.range'_succ, List.append_assoc, List.singleton_append]
      congr 1
      omega
    · intro i h
      have := hb (i + 1) (by simp only [List.length_cons]; omega)
      simp only [List.get_eq_getElem, List.getElem_cons_succ] at this
      rw [show offset + 1 + i = offset + (i + 1) by omega]
      exact this

/-- The result of `str_decode` on a well-formed sequence: a first byte with the
data bits `q` that announces `rs.length` continuation bytes, followed by
continuation bytes with the data bits `rs`. -/
theorem str_decode_data (w : Nat) (U_SPECIAL : Int) (buf : Nat → Nat) (offset size1 : Nat)
    (b0_bits q : Nat) (rs : List Nat) (hfit : offset + 1 + rs.length ≤ size1)
    (hsize : size1 < 2 ^ w)
    (hcode : str_decode_code (buf offset % 256) = some (b0_bits, rs.length))
    (hq : buf offset % 256 &&& LO_MASK_8 b0_bits = q)
    (hb : ∀ i (h : i < rs.length), buf (offset + 1 + i) % 256 &&& 0xc0 = 0x80 ∧
      buf (offset + 1 + i) % 256 &&& LO_MASK_8 CONT_BITS = rs.get ⟨i, h⟩) :
    str_decode w U_SPECIAL buf offset size1
      = { ch := ((rs.foldl (fun acc r => (acc <<< CONT_BITS) ||| r) q : Nat) : Int),
          offset := offset + 1 + rs.length,
          reads := offset :: List.range' (offset + 1) rs.length } := by
  have m1 : (offset + 1) % 2 ^ w = offset + 1 := Nat.mod_eq_of_lt (by omega)
  have m2 : (offset + 1 + rs.length) % 2 ^ w = offset + 1 + rs.length :=
    Nat.mod_eq_of_lt (by omega)
  have g1 : ¬ offset + 1 > size1 := by omega
  have g2 : ¬ offset + 1 + rs.length > size1 := by omega
  simp only [str_decode, m1, g1, if_false, hcode, m2, g2, hq]
  rw [str_decode_cont_data w U_SPECIAL buf rs q (offset + 1) [offset] (by omega) hb]
  rfl

theorem chr_encode_round_trip_1 (w : Nat) (E : str_errno_h) (U_SPECIAL : Int) (n : Nat) (str : Nat → Nat)
    (offset size : Nat) (h2 : n < 2 ^ 7) (hfree : offset + 4 ≤ size)
    (hsize : size < 2 ^ w) :
    (chr_encode w E (n : Int) str offset size).ret = EOK ∧
    (chr_encode w E (n : Int) str offset size).offset = offset + 1 ∧
    (∀ k, k < offset ∨ offset + 1 ≤ k → (chr_encode w E (n : Int) str offset size).str k = str k) ∧
    ∀ size1, offset + 1 ≤ size1 → size1 < 2 ^ w →
      str_decode w U_SPECIAL (chr_encode w E (n : Int) str offset size).str offset size1
        = { ch := (n : Int), offset := offset + 1, reads := List.range' offset 1 } := by
  have hcheck : chr_check (n : Int) = true := by
    simp only [chr_check]; rw [if_pos]; omega
  have hcc : (n : Int).toNat % 2 ^ 32 = n := by
    rw [Int.toNat_ofNat]; exact Nat.mod_eq_of_lt (by omega)
  have hcode : chr_encode_code n = some (7, 0) := by
    rw [chr_encode_code_eq n (by omega)]
    simp only [h2, if_true]
  have m0 : offset % 2 ^ w = offset := Nat.mod_eq_of_lt (by omega)
  have m1 : (offset + (0 + 1)) % 2 ^ w = offset + 1 := Nat.mod_eq_of_lt (by omega)
  have henc : chr_encode w E (n : Int) str offset size
      = { ret := EOK,
          str := Function.update str offset
            (((n &&& LO_MASK_32 7) ||| HI_MASK_8 (8 - 7 - 1)) % 256),
          offset := offset + 1 } := by
    have g1 : ¬ offset ≥ size := by omega
    simp only [chr_encode, g1, if_false, hcheck, Bool.true_eq_false, hcc, hcode, Nat.add_zero,
      m0, chr_encode_cont, m1]
  rw [henc]
  refine ⟨rfl, rfl, ?_, ?_⟩
  · intro k hk
    show Function.update str offset _ k = str k
    rw [Function.update_noteq (by omega)]
  · intro size1 hs1 hs2
    show str_decode w U_SPECIAL (Function.update str offset
        (((n &&& LO_MASK_32 7) ||| HI_MASK_8 (8 - 7 - 1)) % 256)) offset size1 = _
    have f0 := first_byte_facts_7 _ h2
    rw [str_decode_data w U_SPECIAL _ offset size1 7 n [] (by simpa using hs1)
      hs2 (by rw [Function.update_same]; exact f0.1) (by rw [Function.update_same]; exact f0.2)
      (by intro i h; simp at h)]
    rfl

theorem chr_encode_round_trip_2 (w : Nat) (E : str_errno_h) (U_SPECIAL : Int) (n : Nat) (str : Nat → Nat)
    (offset size : Nat) (h1 : 2 ^ 7 ≤ n) (h2 : n < 2 ^ 11) (hfree : offset + 4 ≤ size)
    (hsize : size < 2 ^ w) :
    (chr_encode w E (n : Int) str offset size).ret = EOK ∧
    (chr_encode w E (n : Int) str offset size).offset = offset + 2 ∧
    (∀ k, k < offset ∨ offset + 2 ≤ k → (chr_encode w E (n : Int) str offset size).str k = str k) ∧
    ∀ size1, offset + 2 ≤ size1 → size1 < 2 ^ w →
      str_decode w U_SPECIAL (chr_encode w E (n : Int) str offset size).str offset size1
        = { ch := (n : Int), offset := offset + 2, reads := List.range' offset 2 } := by
  have hcheck : chr_check (n : Int) = true := by
    simp only [chr_check]; rw [if_pos]; omega
  have hcc : (n : Int).toNat % 2 ^ 32 = n := by
    rw [Int.toNat_ofNat]; exact Nat.mod_eq_of_lt (by omega)
  have hcode : chr_encode_code n = some (5, 1) := by
    rw [chr_encode_code_eq n (by omega)]
    simp only [show ¬ n < 2 ^ 7 by omega, h2, if_true, if_false]
  have m1 : (offset + 1) % 2 ^ w = offset + 1 := Nat.mod_eq_of_lt (by omega)
  have m2 : (offset + (1 + 1)) % 2 ^ w = offset + 2 := Nat.mod_eq_of_lt (by omega)
  have henc : chr_encode w E (n : Int) str offset size
      = { ret := EOK,
          str := Function.update (Function.update str (offset + 1)
            ((0x80 ||| (n % 64)) % 256)) offset
            ((((n >>> CONT_BITS) &&& LO_MASK_32 5) ||| HI_MASK_8 (8 - 5 - 1)) % 256),
          offset := offset + 2 } := by
    have g1 : ¬ offset ≥ size := by omega
    have g2 : ¬ offset + 1 ≥ size := by omega
    simp only [chr_encode, g1, if_false, hcheck, Bool.true_eq_false, hcc, hcode, m1, g2,
      chr_encode_cont, and_lo6, m2]
  rw [henc]
  refine ⟨rfl, rfl, ?_, ?_⟩
  · intro k hk
    show Function.update (Function.update str (offset + 1) _) offset _ k = str k
    rw [Function.update_noteq (by omega), Function.update_noteq (by omega)]
  · intro size1 hs1 hs2
    show str_decode w U_SPECIAL (Function.update (Function.update str (offset + 1)
        ((0x80 ||| (n % 64)) % 256)) offset
        ((((n >>> CONT_BITS) &&& LO_MASK_32 5) ||| HI_MASK_8 (8 - 5 - 1)) % 256)) offset size1 = _
    have hq : n >>> CONT_BITS < 32 := by
      rw [CONT_BITS, Nat.shiftRight_eq_div_pow]; omega
    have f0 := first_byte_facts_5 _ hq
    have c1 := cont_byte_facts (n % 64) (Nat.mod_lt _ (by norm_num))
    rw [str_decode_data w U_SPECIAL _ offset size1 5 (n >>> CONT_BITS) [n % 64] (by simpa using hs1)
      hs2 (by rw [Function.update_same]; exact f0.1) (by rw [Function.update_same]; exact f0.2)
      (by
        intro i h
        obtain rfl : i = 0 := by simpa using h
        rw [Function.update_noteq (by omega), Nat.add_zero, Function.update_same]
        exact c1)]
    simp only [List.foldl_cons, List.foldl_nil, List.length_singleton]
    rw [shl_or _ _ (Nat.mod_lt _ (by norm_num)), CONT_BITS, Nat.shiftRight_eq_div_pow]
    rw [show n / 2 ^ 6 * 64 + n % 64 = n by omega]
    rfl

theorem chr_encode_round_trip_3 (w : Nat) (E : str_errno_h) (U_SPECIAL : Int) (n : Nat) (str : Nat → Nat)
    (offset size : Nat) (h1 : 2 ^ 11 ≤ n) (h2 : n < 2 ^ 16) (hfree : offset + 4 ≤ size)
    (hsize : size < 2 ^ w) :
    (chr_encode w E (n : Int) str offset size).ret = EOK ∧
    (chr_encode w E (n : Int) str offset size).offset = offset + 3 ∧
    (∀ k, k < offset ∨ offset + 3 ≤ k → (chr_encode w E (n : Int) str offset size).str k = str k) ∧
    ∀ size1, offset + 3 ≤ size1 → size1 < 2 ^ w →
      str_decode w U_SPECIAL (chr_encode w E (n : Int) str offset size).str offset size1
        = { ch := (n : Int), offset := offset + 3, reads := List.range' offset 3 } := by
  have hcheck : chr_check (n : Int) = true := by
    simp only [chr_check]; rw [if_pos]; omega
  have hcc : (n : Int).toNat % 2 ^ 32 = n := by
    rw [Int.toNat_ofNat]; exact Nat.mod_eq_of_lt (by omega)
  have hcode : chr_encode_code n = some (4, 2) := by
    rw [chr_encode_code_eq n (by omega)]
    simp only [show ¬ n < 2 ^ 7 by omega, show ¬ n < 2 ^ 11 by omega, h2, if_true, if_false]
  have m1 : (offset + (0 + 1)) % 2 ^ w = offset + 1 := Nat.mod_eq_of_lt (by omega)
  have m2 : (offset + 2) % 2 ^ w = offset + 2 := Nat.mod_eq_of_lt (by omega)
  have m2a : (offset + (1 + 1)) % 2 ^ w = offset + 2 := Nat.mod_eq_of_lt (by omega)
  have m3 : (offset + (2 + 1)) % 2 ^ w = offset + 3 := Nat.mod_eq_of_lt (by omega)
  have henc : chr_encode w E (n : Int) str offset size
      = { ret := EOK,
          str := Function.update (Function.update (Function.update str (offset + 2)
            ((0x80 ||| (n % 64)) % 256)) (offset + 1)
            ((0x80 ||| (n >>> CONT_BITS % 64)) % 256)) offset
            ((((n >>> CONT_BITS >>> CONT_BITS) &&& LO_MASK_32 4) ||| HI_MASK_8 (8 - 4 - 1)) % 256),
          offset := offset + 3 } := by
    have g1 : ¬ offset ≥ size := by omega
    have g2 : ¬ offset + 2 ≥ size := by omega
    simp only [chr_encode, g1, if_false, hcheck, Bool.true_eq_false, hcc, hcode, m2, g2,
      chr_encode_cont, and_lo6, m1, m2a, m3]
  rw [henc]
  refine ⟨rfl, rfl, ?_, ?_⟩
  · intro k hk
    show Function.update (Function.update (Function.update str (offset + 2) _) (offset + 1) _)
      offset _ k = str k
    rw [Function.update_noteq (by omega), Function.update_noteq (by omega),
      Function.update_noteq (by omega)]
  · intro size1 hs1 hs2
    show str_decode w U_SPECIAL (Function.update (Function.update (Function.update str
        (offset + 2) ((0x80 ||| (n % 64)) % 256)) (offset + 1)
        ((0x80 ||| (n >>> CONT_BITS % 64)) % 256)) offset
        ((((n >>> CONT_BITS >>> CONT_BITS) &&& LO_MASK_32 4) ||| HI_MASK_8 (8 - 4 - 1)) % 256))
        offset size1 = _
    have hq : n >>> CONT_BITS >>> CONT_BITS < 16 := by
      rw [CONT_BITS, Nat.shiftRight_eq_div_pow, Nat.shiftRight_eq_div_pow]; omega
    have f0 := first_byte_facts_4 _ hq
    have c1 := cont_byte_facts (n >>> CONT_BITS % 64) (Nat.mod_lt _ (by norm_num))
    have c2 := cont_byte_facts (n % 64) (Nat.mod_lt _ (by norm_num))
    rw [str_decode_data w U_SPECIAL _ offset size1 4 (n >>> CONT_BITS >>> CONT_BITS)
      [n >>> CONT_BITS % 64, n % 64] (by simpa using hs1)
      hs2 (by rw [Function.update_same]; exact f0.1) (by rw [Function.update_same]; exact f0.2)
      (by
        intro i h
        have hi : i = 0 ∨ i = 1 := by simp at h; omega
        rcases hi with rfl | rfl
        · rw [Function.update_noteq (by omega), Nat.add_zero, Function.update_same]
          exact c1
        · rw [Function.update_noteq (by omega), Function.update_noteq (by omega),
            Function.update_same]
          exact c2)]
    simp only [List.foldl_cons, List.foldl_nil]
    rw [shl_or _ _ (Nat.mod_lt _ (by norm_num)), shl_or _ _ (Nat.mod_lt _ (by norm_num)),
      CONT_BITS, Nat.shiftRight_eq_div_pow, Nat.shiftRight_eq_div_pow]
    rw [show (n / 2 ^ 6 / 2 ^ 6 * 64 + n / 2 ^ 6 % 64) * 64 + n % 64 = n by omega]
    rfl

theorem chr_encode_round_trip_4 (w : Nat) (E : str_errno_h) (U_SPECIAL : Int) (n : Nat) (str : Nat → Nat)
    (offset size : Nat) (h1 : 2 ^ 16 ≤ n) (h2 : n ≤ 0x10FFFF) (hfree : offset + 4 ≤ size)
    (hsize : size < 2 ^ w) :
    (chr_encode w E (n : Int) str offset size).ret = EOK ∧
    (chr_encode w E (n : Int) str offset size).offset = offset + 4 ∧
    (∀ k, k < offset ∨ offset + 4 ≤ k → (chr_encode w E (n : Int) str offset size).str k = str k) ∧
    ∀ size1, offset + 4 ≤ size1 → size1 < 2 ^ w →
      str_decode w U_SPECIAL (chr_encode w E (n : Int) str offset size).str offset size1
        = { ch := (n : Int), offset := offset + 4, reads := List.range' offset 4 } := by
  have hcheck : chr_check (n : Int) = true := by
    simp only [chr_check]; rw [if_pos]; omega
  have hcc : (n : Int).toNat % 2 ^ 32 = n := by
    rw [Int.toNat_ofNat]; exact Nat.mod_eq_of_lt (by omega)
  have hcode : chr_encode_code n = some (3, 3) := by
    rw [chr_encode_code_eq n h2]
    simp only [show ¬ n < 2 ^ 7 by omega, show ¬ n < 2 ^ 11 by omega,
      show ¬ n < 2 ^ 16 by omega, if_false]
  have m1 : (offset + (0 + 1)) % 2 ^ w = offset + 1 := Nat.mod_eq_of_lt (by omega)
  have m2a : (offset + (1 + 1)) % 2 ^ w = offset + 2 := Nat.mod_eq_of_lt (by omega)
  have m3 : (offset + 3) % 2 ^ w = offset + 3 := Nat.mod_eq_of_lt (by omega)
  have m3a : (offset + (2 + 1)) % 2 ^ w = offset + 3 := Nat.mod_eq_of_lt (by omega)
  have m4 : (offset + (3 + 1)) % 2 ^ w = offset + 4 := Nat.mod_eq_of_lt (by omega)
  have henc : chr_encode w E (n : Int) str offset size
      = { ret := EOK,
          str := Function.update (Function.update (Function.update (Function.update str
            (offset + 3) ((0x80 ||| (n % 64)) % 256)) (offset + 2)
            ((0x80 ||| (n >>> CONT_BITS % 64)) % 256)) (offset + 1)
            ((0x80 ||| (n >>> CONT_BITS >>> CONT_BITS % 64)) % 256)) offset
            ((((n >>> CONT_BITS >>> CONT_BITS >>> CONT_BITS) &&& LO_MASK_32 3) |||
              HI_MASK_8 (8 - 3 - 1)) % 256),
          offset := offset + 4 } := by
    have g1 : ¬ offset ≥ size := by omega
    have g2 : ¬ offset + 3 ≥ size := by omega
    simp only [chr_encode, g1, if_false, hcheck, Bool.true_eq_false, hcc, hcode, m3, g2,
      chr_encode_cont, and_lo6, m1, m2a, m3a, m4]
  rw [henc]
  refine ⟨rfl, rfl, ?_, ?_⟩
  · intro k hk
    show Function.update (Function.update (Function.update (Function.update str (offset + 3) _)
      (offset + 2) _) (offset + 1) _) offset _ k = str k
    rw [Function.update_noteq (by omega), Function.update_noteq (by omega),
      Function.update_noteq (by omega), Function.update_noteq (by omega)]
  · intro size1 hs1 hs2
    show str_decode w U_SPECIAL (Function.update (Function.update (Function.update
        (Function.update str (offset + 3) ((0x80 ||| (n % 64)) % 256)) (offset + 2)
        ((0x80 ||| (n >>> CONT_BITS % 64)) % 256)) (offset + 1)
        ((0x80 ||| (n >>> CONT_BITS >>> CONT_BITS % 64)) % 256)) offset
        ((((n >>> CONT_BITS >>> CONT_BITS >>> CONT_BITS) &&& LO_MASK_32 3) |||
          HI_MASK_8 (8 - 3 - 1)) % 256)) offset size1 = _
    have hq : n >>> CONT_BITS >>> CONT_BITS >>> CONT_BITS < 8 := by
      rw [CONT_BITS, Nat.shiftRight_eq_div_pow, Nat.shiftRight_eq_div_pow,
        Nat.shiftRight_eq_div_pow]
      omega
    have f0 := first_byte_facts_3 _ hq
    have c1 := cont_byte_facts (n >>> CONT_BITS >>> CONT_BITS % 64) (Nat.mod_lt _ (by norm_num))
    have c2 := cont_byte_facts (n >>> CONT_BITS % 64) (Nat.mod_lt _ (by norm_num))
    have c3 := cont_byte_facts (n % 64) (Nat.mod_lt _ (by norm_num))
    rw [str_decode_data w U_SPECIAL _ offset size1 3
      (n >>> CONT_BITS >>> CONT_BITS >>> CONT_BITS)
      [n >>> CONT_BITS >>> CONT_BITS % 64, n >>> CONT_BITS % 64, n % 64] (by simpa using hs1)
      hs2 (by rw [Function.update_same]; exact f0.1) (by rw [Function.update_same]; exact f0.2)
      (by
        intro i h
        have hi : i = 0 ∨ i = 1 ∨ i = 2 := by simp at h; omega
        rcases hi with rfl | rfl | rfl
        · rw [Function.update_noteq (by omega), Nat.add_zero, Function.update_same]
          exact c1
        · rw [Function.update_noteq (by omega), Function.update_noteq (by omega),
            Function.update_same]
          exact c2
        · rw [Function.update_noteq (by omega), Function.update_noteq (by omega),
            Function.update_noteq (by omega), Function.update_same]
          exact c3)]
    simp only [List.foldl_cons, List.foldl_nil]
    rw [shl_or _ _ (Nat.mod_lt _ (by norm_num)), shl_or _ _ (Nat.mod_lt _ (by norm_num)),
      shl_or _ _ (Nat.mod_lt _ (by norm_num)),
      CONT_BITS, Nat.shiftRight_eq_div_pow, Nat.shiftRight_eq_div_pow, Nat.shiftRight_eq_div_pow]
    rw [show ((n / 2 ^ 6 / 2 ^ 6 / 2 ^ 6 * 64 + n / 2 ^ 6 / 2 ^ 6 % 64) * 64 + n / 2 ^ 6 % 64) * 64
      + n % 64 = n by omega]
    rfl

/-- C38: for every code point `ch` from 0 to 0x10FFFF and every buffer with at
least 4 free bytes at the offset, `chr_encode` returns `EOK`, writes `k` bytes
for a `k` from 1 to 4 at the offset and nowhere else and advances the offset by
`k`; `str_decode` started at the original offset on the buffer written, with any
size that covers the `k` bytes, reads these `k` bytes, returns `ch` and stops
at the same advanced offset. -/
theorem chr_encode_str_decode_round_trip (w : Nat) (E : str_errno_h) (U_SPECIAL : Int)
    (ch : Int) (str : Nat → Nat) (offset size : Nat) (h0 : 0 ≤ ch) (h1 : ch ≤ 0x10FFFF)
    (hfree : offset + 4 ≤ size) (hsize : size < 2 ^ w) :
    ∃ k, 1 ≤ k ∧ k ≤ 4 ∧
      (chr_encode w E ch str offset size).ret = EOK ∧
      (chr_encode w E ch str offset size).offset = offset + k ∧
      (∀ j, j < offset ∨ offset + k ≤ j → (chr_encode w E ch str offset size).str j = str j) ∧
      ∀ size1, offset + k ≤ size1 → size1 < 2 ^ w →
        str_decode w U_SPECIAL (chr_encode w E ch str offset size).str offset size1
          = { ch := ch, offset := offset + k, reads := List.range' offset k } := by
  obtain ⟨n, rfl⟩ := Int.eq_ofNat_of_zero_le h0
  have hn : n ≤ 0x10FFFF := by omega
  by_cases c1 : n < 2 ^ 7
  · exact ⟨1, by norm_num, by norm_num,
      chr_encode_round_trip_1 w E U_SPECIAL n str offset size c1 hfree hsize⟩
  · by_cases c2 : n < 2 ^ 11
    · exact ⟨2, by norm_num, by norm_num,
        chr_encode_round_trip_2 w E U_SPECIAL n str offset size (by omega) c2 hfree hsize⟩
    · by_cases c3 : n < 2 ^ 16
      · exact ⟨3, by norm_num, by norm_num,
          chr_encode_round_trip_3 w E U_SPECIAL n str offset size (by omega) c3 hfree hsize⟩
      · exact ⟨4, by norm_num, by norm_num,
          chr_encode_round_trip_4 w E U_SPECIAL n str offset size (by omega) hn hfree hsize⟩

/-- The code point 0x20AC (the euro sign) written at offset 1 of a buffer of 5
bytes: E2 82 AC. -/
theorem chr_encode_str_decode_round_trip_witness :
    (List.range 5).map (chr_encode 64 str_errno_sample 0x20ac (fun _ => 0) 1 5).str
      = [0, 0xe2, 0x82, 0xac, 0] ∧
    ∃ k, 1 ≤ k ∧ k ≤ 4 ∧
      (chr_encode 64 str_errno_sample 0x20ac (fun _ => 0) 1 5).ret = EOK ∧
      (chr_encode 64 str_errno_sample 0x20ac (fun _ => 0) 1 5).offset = 1 + k ∧
      (∀ j, j < 1 ∨ 1 + k ≤ j →
        (chr_encode 64 str_errno_sample 0x20ac (fun _ => 0) 1 5).str j = (fun _ => 0) j) ∧
      ∀ size1, 1 + k ≤ size1 → size1 < 2 ^ 64 →
        str_decode 64 63 (chr_encode 64 str_errno_sample 0x20ac (fun _ => 0) 1 5).str 1 size1
          = { ch := 0x20ac, offset := 1 + k, reads := List.range' 1 k } :=
  ⟨by decide,
    chr_encode_str_decode_round_trip 64 str_errno_sample 63 0x20ac (fun _ => 0) 1 5 (by decide)
      (by decide) (by decide) (by decide)⟩

end HelenOS
